import Mathlib

/-!
# checkout-api: payment lifecycle engine

A shallow embedding of the payment builder (`payments/builder.go`), the
transaction composer (`solana/transaction_builder.go`), the instruction
library (`solana/instructions.go`), the payment service with its event
decorator (`payments/service.go`, `payments/service_events.go`), the
listeners (`payments/events.go`), the reconciler worker
(`payments/worker.go`, `payments/enqueuer.go`), the ledger validators
(`solana/transaction.go`), the scan for the oldest transaction of an address
(`solana/client.go`), the webhook signature and delivery (`webhook/signature.go`,
`webhook/service.go`, `webhook/worker.go`) and the websocket channel hub
(`events/websocket.go`).

Conventions.
* Go `uint64` values are natural numbers; every arithmetic operation of the
  source that can leave the range is written with an explicit `% 2 ^ 64`.
* Go `int64` values are integers, wrapped with `wrapInt64`.
* A public key is identified with its base58 text, so `PublicKeyFromString`
  and `ToBase58` are the identity.
* Calls that leave the process (ledger RPC, swap provider, key generation,
  serialisation) are fields of an environment record.
-/

namespace Checkout

/-! ## Machine integers -/

/-- Number of values of a Go `uint64`. -/
def U64 : Nat := 2 ^ 64

/-- Go `a + b` on `uint64`. -/
def addU64 (a b : Nat) : Nat := (a + b) % U64

/-- Go `a - b` on `uint64` (wraps below zero). -/
def subU64 (a b : Nat) : Nat := (a % U64 + (U64 - b % U64)) % U64

/-- Go `a * b` on `uint64`. -/
def mulU64 (a b : Nat) : Nat := (a * b) % U64

/-- Go conversion of an integer to `int64` (two's complement wrap). -/
def wrapInt64 (z : Int) : Int := (z + 2 ^ 63) % 2 ^ 64 - 2 ^ 63

/-! ## Strings -/

/-- The upper-case image of one character under Go's `unicode.ToUpper`, as far
as ASCII results are concerned: ASCII lower-case letters, and the two letters
outside ASCII whose upper case is an ASCII letter (dotless i, long s). Every
other character is left as it is; its image under Go is never an ASCII
letter different from itself. -/
def upperChar (c : Char) : Char :=
  if c = Char.ofNat 0x131 then 'I'
  else if c = Char.ofNat 0x17F then 'S'
  else if 'a'.toNat ≤ c.toNat ∧ c.toNat ≤ 'z'.toNat then Char.ofNat (c.toNat - 32)
  else c

/-- Go `strings.ToUpper`. -/
def toUpper (s : String) : String := ⟨s.data.map upperChar⟩

/-- Go `len(s)`: the number of bytes of the UTF-8 encoding. -/
def byteLen (s : String) : Nat := s.utf8ByteSize

/-! ## Data model (`payments/entity.go`, `payments/types.go`) -/

abbrev UUID := String

/-- Value of `uuid.Nil`. -/
def uuidNil : UUID := "00000000-0000-0000-0000-000000000000"

abbrev PaymentStatus := String
abbrev TransactionStatus := String

def PaymentStatusNew : PaymentStatus := "new"
def PaymentStatusPending : PaymentStatus := "pending"
def PaymentStatusCompleted : PaymentStatus := "completed"
def PaymentStatusFailed : PaymentStatus := "failed"
def PaymentStatusCanceled : PaymentStatus := "canceled"
def PaymentStatusExpired : PaymentStatus := "expired"

def TransactionStatusPending : TransactionStatus := "pending"
def TransactionStatusCompleted : TransactionStatus := "completed"
def TransactionStatusFailed : TransactionStatus := "failed"

structure Payment where
  ID : UUID
  ExternalID : String
  DestinationWallet : String
  DestinationMint : String
  Amount : Nat
  Status : PaymentStatus
  Message : String
  ExpiresAt : Option Nat
deriving DecidableEq, Repr

structure Transaction where
  ID : UUID
  PaymentID : UUID
  Reference : String
  SourceWallet : String
  SourceMint : String
  DestinationWallet : String
  DestinationMint : String
  Amount : Nat
  DiscountAmount : Nat
  TotalAmount : Nat
  AccruedBonusAmount : Nat
  Message : String
  Memo : String
  ApplyBonus : Bool
  Transaction : String
  Status : TransactionStatus
  Signature : String
deriving DecidableEq, Repr

structure Config where
  ApplyBonus : Bool
  BonusMintAddress : String
  BonusAuthAccount : String
  MaxApplyBonusAmount : Nat
  MaxApplyBonusPercent : Nat
  AccrueBonus : Bool
  AccrueBonusRate : Nat
  DestinationMint : String
  DestinationWallet : String
  PaymentTTL : Nat
  SolPayBaseURL : String
deriving DecidableEq, Repr

/-! ## Mints (`payments/tokens.go`) -/

def SOL : String := "So11111111111111111111111111111111111111112"
def USDC : String := "EPjFWdd5AufqSSqeM2qN1xzybapC8G4wEGGkZwyTDt1v"
def USDT : String := "Es9vMFrzaCERmJfrF4H2FYD4KCoNkY11McCe8BenwNYB"

/-- Lookup in the map `defaultMints`. -/
def defaultMints (key : String) : Option String :=
  if key = "USDC" then some USDC
  else if key = "USDT" then some USDT
  else if key = "SOL" then some SOL
  else none

def MintAddress (currency : String) (fallback : String) : String :=
  let currency := if currency = "" then fallback else currency
  match defaultMints (toUpper currency) with
  | some address => address
  | none => if byteLen currency < 40 then SOL else currency

def IsSOL (currency : String) : Bool :=
  let c := toUpper currency
  c = "SOL" || (defaultMints "SOL").getD "" = currency

/-! ## Ledger instructions (`solana/instructions.go`)

The wire format of an instruction is the SDK's; an instruction is kept as its
program, its account list and a symbolic payload. -/

structure AccountMeta where
  PubKey : String
  IsSigner : Bool
  IsWritable : Bool
deriving DecidableEq, Repr

inductive InstructionData where
  | systemTransfer (amount : Nat)
  | tokenTransfer (amount : Nat)
  | tokenBurn (amount : Nat)
  | tokenMintTo (amount : Nat)
  | createAssociatedTokenAccount
  | raw (bytes : List Nat)
deriving DecidableEq, Repr

structure Instruction where
  ProgramID : String
  Accounts : List AccountMeta
  Data : InstructionData
deriving DecidableEq, Repr

def SystemProgramID : String := "11111111111111111111111111111111"
def TokenProgramID : String := "TokenkegQfeZyiNwAJbNbGKPFXCWuBvf9Ss623VQ5DA"
def SPLAssociatedTokenAccountProgramID : String :=
  "ATokenGPvbdGVxr1b2hvZbsiqW5xWH25efTNsLJA8knL"
def SysVarRentPubkey : String := "SysvarRent111111111111111111111111111111111"

/-- SDK `system.Transfer`. -/
def systemTransfer (sender recipient : String) (amount : Nat) : Instruction :=
  { ProgramID := SystemProgramID
    Accounts := [⟨sender, true, true⟩, ⟨recipient, false, true⟩]
    Data := .systemTransfer amount }

/-- SDK `token.Transfer` with an empty signer list. -/
def tokenTransfer (src dst auth : String) (amount : Nat) : Instruction :=
  { ProgramID := TokenProgramID
    Accounts := [⟨src, false, true⟩, ⟨dst, false, true⟩, ⟨auth, true, false⟩]
    Data := .tokenTransfer amount }

/-- SDK `token.Burn` with an empty signer list. -/
def tokenBurn (account mint auth : String) (amount : Nat) : Instruction :=
  { ProgramID := TokenProgramID
    Accounts := [⟨account, false, true⟩, ⟨mint, false, true⟩, ⟨auth, true, false⟩]
    Data := .tokenBurn amount }

/-- SDK `token.MintTo` with an empty signer list. -/
def tokenMintTo (mint dst auth : String) (amount : Nat) : Instruction :=
  { ProgramID := TokenProgramID
    Accounts := [⟨mint, false, true⟩, ⟨dst, false, true⟩, ⟨auth, true, false⟩]
    Data := .tokenMintTo amount }

/-- SDK `associated_token_account.CreateAssociatedTokenAccount`. -/
def createAssociatedTokenAccount (funder owner mint ata : String) : Instruction :=
  { ProgramID := SPLAssociatedTokenAccountProgramID
    Accounts := [⟨funder, true, true⟩, ⟨ata, false, true⟩, ⟨owner, false, false⟩,
      ⟨mint, false, false⟩, ⟨SystemProgramID, false, false⟩,
      ⟨TokenProgramID, false, false⟩, ⟨SysVarRentPubkey, false, false⟩]
    Data := .createAssociatedTokenAccount }

/-- What is serialised by `types.NewTransaction`: the message and the signers. -/
structure WireTransaction where
  FeePayer : String
  RecentBlockhash : String
  Instructions : List Instruction
  AddressLookupTableAccounts : List String
  Signers : List String
deriving DecidableEq, Repr

/-- The ledger RPC client, interface `SolanaClient` (`solana/types.go`) together
with `GetTokenBalance` of `payments/types.go`. A Go pair `(value, error)` is a
pair whose second component is the error, if any. -/
structure SolanaClient where
  GetLatestBlockhash : Except String String
  DoesTokenAccountExist : String → Bool × Option String
  GetMinimumBalanceForRentExemption : Nat → Except String Nat
  GetTokenBalance : String → String → Nat × Option String

/-- Functions of the ledger SDK that the source calls as library functions. -/
structure SDK where
  /-- Public key of `types.NewAccount()`. -/
  NewAccount : String
  /-- Public key of `types.AccountFromBase58`. -/
  AccountFromBase58 : String → Except String String
  FindAssociatedTokenAddress : String → String → Except String String
  /-- The function `DecodeTransaction` of `solana/transaction.go`. -/
  DecodeTransaction : String → Except String WireTransaction
  /-- The call `types.NewTransaction` followed by `EncodeTransaction`. -/
  EncodeTransaction : WireTransaction → Except String String

abbrev InstructionFunc := SolanaClient → Except String (List Instruction)

structure TransferSOLParams where
  Sender : String
  Recipient : String
  Reference : String
  Amount : Nat
deriving DecidableEq, Repr

def TransferSOLParams.Validate (p : TransferSOLParams) : Except String Unit :=
  if p.Sender = "" then .error "sender wallet address is required"
  else if p.Recipient = "" then .error "recipient wallet address is required"
  else if p.Sender = p.Recipient then .error "sender and recipient are the same account"
  else if p.Amount ≤ 0 then .error "amount must be greater than 0"
  else .ok ()

def TransferSOL (params : TransferSOLParams) : InstructionFunc := fun _ =>
  match params.Validate with
  | .error e => .error ("invalid parameters for TransferSOL instruction: " ++ e)
  | .ok () =>
    let instruction := systemTransfer params.Sender params.Recipient params.Amount
    let instruction :=
      if params.Reference ≠ "" then
        { instruction with
          Accounts := instruction.Accounts ++ [⟨params.Reference, false, false⟩] }
      else instruction
    .ok [instruction]

structure TransferTokenParam where
  Sender : String
  Recipient : String
  Mint : String
  Reference : String
  Amount : Nat
deriving DecidableEq, Repr

def TransferTokenParam.Validate (p : TransferTokenParam) : Except String Unit :=
  if p.Sender = "" then .error "sender wallet address is required"
  else if p.Recipient = "" then .error "recipient wallet address is required"
  else if p.Sender = p.Recipient then .error "sender and recipient are the same account"
  else if p.Mint = "" then .error "mint address is required"
  else if p.Amount ≤ 0 then .error "amount must be greater than 0"
  else .ok ()

def TransferToken (sdk : SDK) (params : TransferTokenParam) : InstructionFunc := fun c =>
  match params.Validate with
  | .error e => .error ("invalid parameters for TransferToken instruction: " ++ e)
  | .ok () =>
    match sdk.FindAssociatedTokenAddress params.Sender params.Mint with
    | .error e =>
      .error ("failed to find associated token address for sender wallet: " ++ e)
    | .ok senderAta =>
      match sdk.FindAssociatedTokenAddress params.Recipient params.Mint with
      | .error e =>
        .error ("failed to find associated token address for recipient wallet: " ++ e)
      | .ok recipientAta =>
        let instructions : List Instruction :=
          if !(c.DoesTokenAccountExist recipientAta).1 then
            [createAssociatedTokenAccount params.Sender params.Recipient params.Mint
              recipientAta]
          else []
        let instruction := tokenTransfer senderAta recipientAta params.Sender params.Amount
        let instruction :=
          if params.Reference ≠ "" then
            { instruction with
              Accounts := instruction.Accounts ++ [⟨params.Reference, false, false⟩] }
          else instruction
        .ok (instructions ++ [instruction])

structure MintFungibleTokenParams where
  Funder : String
  Mint : String
  MintOwner : String
  MintTo : String
  Amount : Nat
deriving DecidableEq, Repr

def MintFungibleTokenParams.Validate (p : MintFungibleTokenParams) : Except String Unit :=
  if p.Funder = "" then .error "funder public key is required"
  else if p.Mint = "" then .error "mint address is required"
  else if p.MintOwner = "" then .error "mint owner public key is required"
  else if p.MintTo = "" then .error "mintTo public key is required"
  else if p.Amount = 0 then .error "amount must be greater than 0"
  else .ok ()

def MintFungibleToken (sdk : SDK) (params : MintFungibleTokenParams) : InstructionFunc :=
  fun c =>
  match params.Validate with
  | .error e => .error ("validate mint token: " ++ e)
  | .ok () =>
    match sdk.FindAssociatedTokenAddress params.MintTo params.Mint with
    | .error e => .error ("failed to find associated token address: " ++ e)
    | .ok mintToAta =>
      let instructions : List Instruction :=
        if !(c.DoesTokenAccountExist mintToAta).1 then
          [createAssociatedTokenAccount params.Funder params.MintTo params.Mint mintToAta]
        else []
      .ok (instructions ++ [tokenMintTo params.Mint mintToAta params.MintOwner params.Amount])

structure BurnTokenParams where
  Mint : String
  TokenAccountOwner : String
  Amount : Nat
deriving DecidableEq, Repr

def BurnTokenParams.Validate (p : BurnTokenParams) : Except String Unit :=
  if p.Mint = "" then .error "mint is required"
  else if p.TokenAccountOwner = "" then .error "token account owner is required"
  else if p.Amount = 0 then .error "amount must be greater than 0"
  else .ok ()

def BurnToken (sdk : SDK) (params : BurnTokenParams) : InstructionFunc := fun _ =>
  match params.Validate with
  | .error e => .error ("failed to validate params: " ++ e)
  | .ok () =>
    match sdk.FindAssociatedTokenAddress params.TokenAccountOwner params.Mint with
    | .error e => .error ("failed to find associated token address: " ++ e)
    | .ok ata => .ok [tokenBurn ata params.Mint params.TokenAccountOwner params.Amount]

/-! ## Transaction composer (`solana/transaction_builder.go`) -/

structure TransactionBuilder where
  client : Option SolanaClient
  instructions : List InstructionFunc
  rawInstructionsBefore : List Instruction
  rawInstructionsAfter : List Instruction
  signers : List String
  feePayer : Option String
  addressLookup : List String

def NewTransactionBuilder (client : Option SolanaClient) : TransactionBuilder :=
  { client := client, instructions := [], rawInstructionsBefore := [],
    rawInstructionsAfter := [], signers := [], feePayer := none, addressLookup := [] }

namespace TransactionBuilder

def AddInstruction (b : TransactionBuilder) (instruction : InstructionFunc) :
    TransactionBuilder :=
  { b with instructions := b.instructions ++ [instruction] }

def AddRawInstructionsToBeginning (b : TransactionBuilder) (instructions : List Instruction) :
    TransactionBuilder :=
  { b with rawInstructionsBefore := b.rawInstructionsBefore ++ instructions }

def AddRawInstructionsToEnd (b : TransactionBuilder) (instructions : List Instruction) :
    TransactionBuilder :=
  { b with rawInstructionsAfter := b.rawInstructionsAfter ++ instructions }

def SetFeePayer (b : TransactionBuilder) (feePayer : String) : TransactionBuilder :=
  { b with feePayer := some feePayer }

def AddSigner (b : TransactionBuilder) (signer : String) : TransactionBuilder :=
  { b with signers := b.signers ++ [signer] }

/-- The test `*b.feePayer == (common.PublicKey{})` holds for the two texts that
stand for the zero key: the empty text, which `PublicKeyFromString` turns into the
zero key, and the base58 text of 32 zero bytes, which is `SystemProgramID`. -/
def Validate (b : TransactionBuilder) : Except String Unit :=
  if b.client.isNone then .error "solana rpc client not set"
  else if b.feePayer.isNone || b.feePayer = some "" || b.feePayer = some SystemProgramID then
    .error "missing or invalid fee payer public key"
  else if b.instructions.length = 0 then
    .error "no instructions added, require at least one instruction"
  else .ok ()

/-- The loop of `PrepareInstructions` over the instruction closures. -/
def resolve (c : SolanaClient) :
    List InstructionFunc → List Instruction → Except String (List Instruction)
  | [], acc => .ok acc
  | instruction :: rest, acc =>
    match instruction c with
    | .error e => .error ("failed to prepare instructions: " ++ e)
    | .ok ins => resolve c rest (acc ++ ins)

def PrepareInstructions (b : TransactionBuilder) (c : SolanaClient) :
    Except String (List Instruction) :=
  let instructions : List Instruction := []
  let instructions :=
    if b.rawInstructionsBefore.length > 0 then instructions ++ b.rawInstructionsBefore
    else instructions
  match resolve c b.instructions instructions with
  | .error e => .error e
  | .ok instructions =>
    if b.rawInstructionsAfter.length > 0 then .ok (instructions ++ b.rawInstructionsAfter)
    else .ok instructions

/-- The steps of `Build` before serialisation: validation, the prepared
instructions and the block hash, assembled into the argument of
`types.NewTransaction`. -/
def message (b : TransactionBuilder) : Except String WireTransaction :=
  match b.Validate with
  | .error e => .error ("failed to build transaction: validate: " ++ e)
  | .ok () =>
    match b.client with
    | none => .error "failed to build transaction: validate: solana rpc client not set"
    | some c =>
      match b.PrepareInstructions c with
      | .error e => .error ("failed to build transaction: prepare instructions: " ++ e)
      | .ok instructions =>
        match c.GetLatestBlockhash with
        | .error e => .error ("failed to build transaction: get latest blockhash: " ++ e)
        | .ok latestBlockhash =>
          .ok { FeePayer := b.feePayer.getD "", RecentBlockhash := latestBlockhash,
                Instructions := instructions,
                AddressLookupTableAccounts := b.addressLookup, Signers := b.signers }

def Build (sdk : SDK) (b : TransactionBuilder) : Except String String :=
  match b.message with
  | .error e => .error e
  | .ok tx =>
    match sdk.EncodeTransaction tx with
    | .error e => .error ("failed to build transaction: " ++ e)
    | .ok base64Tx => .ok base64Tx

end TransactionBuilder

/-! ## Payment builder (`payments/builder.go`) -/

structure BestSwapParams where
  UserPublicKey : String
  InputMint : String
  OutputMint : String
  Amount : Nat
deriving DecidableEq, Repr

/-- The swap provider, interface `jupiterClient`. -/
structure JupiterClient where
  BestSwap : BestSwapParams → Except String String

/-- The zero value of `Transaction`. -/
def Transaction.zero : Checkout.Transaction :=
  { ID := uuidNil, PaymentID := uuidNil, Reference := "", SourceWallet := "",
    SourceMint := "", DestinationWallet := "", DestinationMint := "", Amount := 0,
    DiscountAmount := 0, TotalAmount := 0, AccruedBonusAmount := 0, Message := "",
    Memo := "", ApplyBonus := false, Transaction := "", Status := "", Signature := "" }

/-- The builder. Its field `tx` is a nil pointer until `SetTransaction`, which
the only caller runs before `Build`; here it starts as the zero value. -/
structure PaymentBuilder where
  sol : SolanaClient
  jup : JupiterClient
  config : Config
  tx : Transaction
  availableBonusAmount : Nat
  referenceAccount : String
  bonusAuthAccount : Option String

/-- The constructor; a Go panic is the error case. -/
def NewPaymentTransactionBuilder (sdk : SDK) (sc : SolanaClient) (jc : JupiterClient)
    (config : Config) : Except String PaymentBuilder :=
  if config.ApplyBonus && config.BonusMintAddress = "" then
    .error "bonus mint address is required"
  else if config.AccrueBonus && config.BonusAuthAccount = "" then
    .error "bonus auth account is required"
  else
    let config' :=
      if config.AccrueBonusRate = 0 then { config with AccrueBonusRate := 100 } else config
    match sdk.AccountFromBase58 config.BonusAuthAccount with
    | .error e => .error ("failed to parse bonus auth account: " ++ e)
    | .ok mintAuth =>
      .ok { sol := sc, jup := jc, config := config', tx := Transaction.zero,
            availableBonusAmount := 0, referenceAccount := sdk.NewAccount,
            bonusAuthAccount := some mintAuth }

namespace PaymentBuilder

/-- The assignments of `SetTransaction`, in source order; each value is named
after the field it is written to. -/
def SetTransaction (b : PaymentBuilder) (tx : Transaction) (p : Payment) : PaymentBuilder :=
  let destinationMint := MintAddress p.DestinationMint b.config.DestinationMint
  let sourceMint := MintAddress tx.SourceMint destinationMint
  let destinationWallet :=
    if p.DestinationWallet = "" then b.config.DestinationWallet else p.DestinationWallet
  let totalAmount :=
    if tx.TotalAmount = 0 then subU64 p.Amount tx.DiscountAmount else tx.TotalAmount
  { b with
    tx :=
      { tx with
        DestinationWallet := destinationWallet
        DestinationMint := destinationMint
        Reference := b.referenceAccount
        Amount := p.Amount
        Message := p.Message
        Memo := p.ExternalID
        SourceMint := sourceMint
        TotalAmount := totalAmount } }

def GetReferenceAddress (b : PaymentBuilder) : String := b.referenceAccount

def validate (b : PaymentBuilder) : Except String Unit :=
  if b.tx.SourceWallet = "" then .error "source wallet address is required"
  else if b.tx.SourceMint = "" then .error "source mint address is required"
  else if b.tx.DestinationWallet = "" then .error "destination wallet address is required"
  else if b.tx.DestinationMint = "" then .error "destination mint address is required"
  else if b.tx.Amount = 0 ∧ b.tx.TotalAmount = 0 ∧ b.tx.DiscountAmount = 0 then
    .error "amount is required"
  else if b.tx.ApplyBonus ∧ b.config.BonusMintAddress = "" then
    .error "bonus mint address is required"
  else if b.config.AccrueBonus ∧ b.bonusAuthAccount = none then
    .error "bonus auth account is required"
  else if b.config.AccrueBonus ∧ b.config.AccrueBonusRate = 0 then
    .error "accrue bonus rate is required"
  else .ok ()

/-- The comparison `tx.TotalAmount < 0` of the source is on a `uint64` and never
holds; the two clamps `tx.TotalAmount = 0` are kept as the dead branches they are. -/
def recalculateTotalAmount (b : PaymentBuilder) (tx : Transaction) : Transaction :=
  if tx.Amount = 0 ∧ tx.TotalAmount > 0 then
    { tx with Amount := addU64 tx.TotalAmount tx.DiscountAmount }
  else if tx.DiscountAmount > 0 ∧ tx.Amount > 0 then
    let tx := { tx with TotalAmount := subU64 tx.Amount tx.DiscountAmount }
    if tx.TotalAmount < 0 then { tx with TotalAmount := 0 } else tx
  else if b.tx.ApplyBonus ∧ b.availableBonusAmount > 0 then
    let maxCanBeApplyAmount := b.availableBonusAmount
    let maxCanBeApplyAmount :=
      if maxCanBeApplyAmount > tx.Amount then tx.Amount else maxCanBeApplyAmount
    let maxCanBeApplyAmount :=
      if b.config.MaxApplyBonusAmount > 0 ∧ b.config.MaxApplyBonusAmount < maxCanBeApplyAmount
      then b.config.MaxApplyBonusAmount else maxCanBeApplyAmount
    let maxCanBeApplyAmount :=
      if b.config.MaxApplyBonusPercent > 0 then
        let bonusPercAmount := mulU64 tx.Amount b.config.MaxApplyBonusPercent / 10000
        if bonusPercAmount < maxCanBeApplyAmount then bonusPercAmount
        else maxCanBeApplyAmount
      else maxCanBeApplyAmount
    let tx := { tx with DiscountAmount := maxCanBeApplyAmount }
    let tx := { tx with TotalAmount := subU64 tx.TotalAmount tx.DiscountAmount }
    if tx.TotalAmount < 0 then { tx with TotalAmount := 0 } else tx
  else tx

def burnBonus (sdk : SDK) (b : PaymentBuilder) (builder : TransactionBuilder) :
    TransactionBuilder :=
  if !b.tx.ApplyBonus || b.tx.DiscountAmount = 0 then builder
  else
    builder.AddInstruction (BurnToken sdk
      { Mint := b.config.BonusMintAddress, TokenAccountOwner := b.tx.SourceWallet,
        Amount := b.tx.DiscountAmount })

/-- The step `mintBonus`; it also writes `AccruedBonusAmount` of the attempt. -/
def mintBonus (sdk : SDK) (b : PaymentBuilder) (builder : TransactionBuilder) :
    PaymentBuilder × TransactionBuilder :=
  if !b.config.AccrueBonus then (b, builder)
  else
    let bonusAmount := mulU64 b.tx.TotalAmount b.config.AccrueBonusRate / 10000
    if bonusAmount = 0 then (b, builder)
    else
      let b := { b with tx := { b.tx with AccruedBonusAmount := bonusAmount } }
      (b, (builder.AddInstruction (MintFungibleToken sdk
        { Funder := b.tx.SourceWallet, Mint := b.config.BonusMintAddress,
          MintOwner := b.bonusAuthAccount.getD "", MintTo := b.tx.SourceWallet,
          Amount := bonusAmount })).AddSigner (b.bonusAuthAccount.getD ""))

def transferToken (sdk : SDK) (b : PaymentBuilder) (builder : TransactionBuilder) :
    TransactionBuilder :=
  builder.AddInstruction (TransferToken sdk
    { Sender := b.tx.SourceWallet, Recipient := b.tx.DestinationWallet,
      Mint := b.tx.DestinationMint, Reference := b.tx.Reference,
      Amount := b.tx.TotalAmount })

def transferSOL (b : PaymentBuilder) (builder : TransactionBuilder) : TransactionBuilder :=
  builder.AddInstruction (TransferSOL
    { Sender := b.tx.SourceWallet, Recipient := b.tx.DestinationWallet,
      Reference := b.tx.Reference, Amount := b.tx.TotalAmount })

def swap (sdk : SDK) (b : PaymentBuilder) (builder : TransactionBuilder) :
    Except String TransactionBuilder :=
  if b.tx.SourceMint = b.tx.DestinationMint then .ok builder
  else
    match b.jup.BestSwap
        { UserPublicKey := b.tx.SourceWallet, InputMint := b.tx.SourceMint,
          OutputMint := b.tx.DestinationMint, Amount := b.tx.TotalAmount } with
    | .error e => .error ("failed to get best swap transaction: " ++ e)
    | .ok jupTx =>
      match sdk.DecodeTransaction jupTx with
      | .error e => .error ("failed to decode jupiter transaction: " ++ e)
      | .ok jtx => .ok (builder.AddRawInstructionsToBeginning jtx.Instructions)

def Build (sdk : SDK) (b : PaymentBuilder) : Except String (String × Transaction) :=
  match b.validate with
  | .error e => .error ("failed to validate builder parameters: " ++ e)
  | .ok () =>
    let bonusBalance := b.sol.GetTokenBalance b.tx.SourceWallet b.config.BonusMintAddress
    let b := { b with availableBonusAmount := bonusBalance.1 }
    let b := { b with tx := b.recalculateTotalAmount b.tx }
    let builder := (NewTransactionBuilder (some b.sol)).SetFeePayer b.tx.SourceWallet
    let builder := b.burnBonus sdk builder
    match b.swap sdk builder with
    | .error e => .error e
    | .ok builder =>
      let builder :=
        if IsSOL b.tx.DestinationMint then b.transferSOL builder
        else b.transferToken sdk builder
      let (b, builder) := b.mintBonus sdk builder
      match builder.Build sdk with
      | .error e => .error ("failed to build transaction: " ++ e)
      | .ok base64Tx => .ok (base64Tx, b.tx)

end PaymentBuilder

/-! ## Repository rows and casts (`payments/entity.go`)

The package `repository` has only `db.go` under `src/`; the row types are
read off the fields the casts and the service use. -/

structure NullString where
  Valid : Bool
  String : String
deriving DecidableEq, Repr

structure NullBool where
  Valid : Bool
  Bool : Bool
deriving DecidableEq, Repr

structure RepoPayment where
  ID : UUID
  ExternalID : NullString
  DestinationWallet : String
  DestinationMint : String
  Amount : Int
  Status : String
  Message : NullString
  ExpiresAt : Option Nat
deriving DecidableEq, Repr

structure RepoTransaction where
  ID : UUID
  PaymentID : UUID
  Reference : String
  SourceWallet : String
  SourceMint : String
  DestinationWallet : String
  DestinationMint : String
  Amount : Int
  DiscountAmount : Int
  TotalAmount : Int
  AccruedBonusAmount : Int
  Message : NullString
  Memo : NullString
  ApplyBonus : NullBool
  TxSignature : NullString
  Status : String
deriving DecidableEq, Repr

/-- Modelled from the spec: the status constants of `repository/models.go`, which
is not under `src/`; the names are the states of section 3 and 4.5. -/
def RepoPaymentStatusNew : String := "new"
def RepoPaymentStatusPending : String := "pending"
def RepoPaymentStatusCompleted : String := "completed"
def RepoPaymentStatusFailed : String := "failed"
def RepoPaymentStatusCanceled : String := "canceled"
def RepoPaymentStatusExpired : String := "expired"
def RepoTransactionStatusPending : String := "pending"
def RepoTransactionStatusCompleted : String := "completed"
def RepoTransactionStatusFailed : String := "failed"
def RepoTransactionStatusExpired : String := "expired"

/-- Go conversion `uint64(x)` of an `int64`. -/
def toU64 (z : Int) : Nat := (z % 2 ^ 64).toNat

def castFromRepositoryPaymentStatus (status : String) : PaymentStatus :=
  if status = RepoPaymentStatusNew then PaymentStatusNew
  else if status = RepoPaymentStatusPending then PaymentStatusPending
  else if status = RepoPaymentStatusCompleted then PaymentStatusCompleted
  else if status = RepoPaymentStatusFailed then PaymentStatusFailed
  else if status = RepoPaymentStatusCanceled then PaymentStatusCanceled
  else if status = RepoPaymentStatusExpired then PaymentStatusExpired
  else PaymentStatusNew

def castToRepositoryPaymentStatus (status : PaymentStatus) : String :=
  if status = PaymentStatusNew then RepoPaymentStatusNew
  else if status = PaymentStatusPending then RepoPaymentStatusPending
  else if status = PaymentStatusCompleted then RepoPaymentStatusCompleted
  else if status = PaymentStatusFailed then RepoPaymentStatusFailed
  else if status = PaymentStatusCanceled then RepoPaymentStatusCanceled
  else if status = PaymentStatusExpired then RepoPaymentStatusExpired
  else RepoPaymentStatusNew

def castFromRepositoryPayment (p : RepoPayment) : Payment :=
  { ID := p.ID, ExternalID := p.ExternalID.String, DestinationWallet := p.DestinationWallet,
    DestinationMint := p.DestinationMint, Amount := toU64 p.Amount,
    Status := castFromRepositoryPaymentStatus p.Status, Message := p.Message.String,
    ExpiresAt := p.ExpiresAt }

def castToRepositoryTransactionStatus (status : TransactionStatus) : String :=
  if status = TransactionStatusPending then RepoTransactionStatusPending
  else if status = TransactionStatusCompleted then RepoTransactionStatusCompleted
  else if status = TransactionStatusFailed then RepoTransactionStatusFailed
  else RepoTransactionStatusPending

def castFromRepositoryTransactionStatus (status : String) : TransactionStatus :=
  if status = RepoTransactionStatusPending then TransactionStatusPending
  else if status = RepoTransactionStatusCompleted then TransactionStatusCompleted
  else if status = RepoTransactionStatusFailed then TransactionStatusFailed
  else TransactionStatusPending

def castFromRepositoryTransaction (t : RepoTransaction) (conf : Config) : Transaction :=
  let amount := toU64 t.Amount
  let discountAmount := toU64 t.DiscountAmount
  let totalAmount := toU64 t.TotalAmount
  let amounts : Nat × Nat :=
    if t.TotalAmount = 0 ∧ amount > 0 then (amount, subU64 amount discountAmount)
    else if amount = 0 ∧ totalAmount > 0 then (addU64 totalAmount discountAmount, totalAmount)
    else if amount = 0 ∧ totalAmount = 0 then (discountAmount, totalAmount)
    else (amount, totalAmount)
  { ID := t.ID, PaymentID := t.PaymentID, Reference := t.Reference,
    SourceWallet := t.SourceWallet, SourceMint := t.SourceMint,
    DestinationWallet :=
      if t.DestinationWallet = "" then conf.DestinationWallet else t.DestinationWallet,
    DestinationMint :=
      if t.DestinationMint = "" then conf.DestinationMint else t.DestinationMint,
    Amount := amounts.1, DiscountAmount := discountAmount, TotalAmount := amounts.2,
    AccruedBonusAmount := toU64 t.AccruedBonusAmount, Message := t.Message.String,
    Memo := t.Memo.String,
    ApplyBonus := if t.ApplyBonus.Valid then t.ApplyBonus.Bool else conf.ApplyBonus,
    Transaction := "", Status := castFromRepositoryTransactionStatus t.Status,
    Signature := t.TxSignature.String }

/-! ## Repository queries

The queries of package `repository` are generated SQL that is not under
`src/`; they act on the two tables of section 6. -/

structure Store where
  payments : List RepoPayment
  transactions : List RepoTransaction
deriving DecidableEq, Repr

/-- Modelled from the spec: the edges of the payment state machine of section
4.5. -/
def paymentEdge (cur new : String) : Bool :=
  (cur = RepoPaymentStatusNew &&
    (new = RepoPaymentStatusPending || new = RepoPaymentStatusCanceled ||
      new = RepoPaymentStatusExpired || new = RepoPaymentStatusCompleted)) ||
  (cur = RepoPaymentStatusPending &&
    (new = RepoPaymentStatusCompleted || new = RepoPaymentStatusFailed ||
      new = RepoPaymentStatusCanceled || new = RepoPaymentStatusExpired))

/-- Replace the status of the first row with the given id. -/
def setPaymentStatus (id : UUID) (status : String) : List RepoPayment → List RepoPayment
  | [] => []
  | p :: rest =>
    if p.ID = id then { p with Status := status } :: rest
    else p :: setPaymentStatus id status rest

namespace Store

/-- Modelled from the spec: query `GetPayment`, the row with the id or
`not_found`. -/
def GetPayment (st : Store) (id : UUID) : Except String RepoPayment :=
  match st.payments.find? (fun p => p.ID = id) with
  | some p => .ok p
  | none => .error "sql: no rows in result set"

/-- Modelled from the spec: query `GetPaymentByExternalID`, the row with the
merchant's external id or `not_found`. -/
def GetPaymentByExternalID (st : Store) (externalID : String) : Except String RepoPayment :=
  match st.payments.find? (fun p => p.ExternalID.Valid && p.ExternalID.String = externalID) with
  | some p => .ok p
  | none => .error "sql: no rows in result set"

/-- Modelled from the spec: query `UpdatePaymentStatus`, a conditional update on
the current status (section 5): a request for the status the payment already has
leaves the row as it is, a legal transition of section 4.5 is written, every
other request is rejected and writes nothing. -/
def UpdatePaymentStatus (st : Store) (id : UUID) (status : String) :
    Except String RepoPayment × Store :=
  match st.payments.find? (fun p => p.ID = id) with
  | none => (.error "sql: no rows in result set", st)
  | some p =>
    if p.Status = status then (.ok p, st)
    else if paymentEdge p.Status status then
      (.ok { p with Status := status },
        { st with payments := setPaymentStatus id status st.payments })
    else (.error "conflict", st)

structure CreateTransactionParams where
  PaymentID : UUID
  Reference : String
  SourceWallet : String
  SourceMint : String
  DestinationWallet : String
  DestinationMint : String
  Amount : Int
  DiscountAmount : Int
  TotalAmount : Int
  Message : NullString
  Memo : NullString
  ApplyBonus : NullBool
  AccruedBonusAmount : Int
  Status : String
deriving DecidableEq, Repr

/-- Modelled from the spec: query `CreateTransaction`, which inserts one row of
table `transactions` with the given columns and no signature; the column
`reference` is unique. The row id is assigned by the database. -/
def CreateTransaction (st : Store) (id : UUID) (arg : CreateTransactionParams) :
    Except String RepoTransaction × Store :=
  if st.transactions.any (fun t => t.Reference = arg.Reference) then
    (.error "duplicate key value violates unique constraint", st)
  else
    let row : RepoTransaction :=
      { ID := id, PaymentID := arg.PaymentID, Reference := arg.Reference,
        SourceWallet := arg.SourceWallet, SourceMint := arg.SourceMint,
        DestinationWallet := arg.DestinationWallet, DestinationMint := arg.DestinationMint,
        Amount := arg.Amount, DiscountAmount := arg.DiscountAmount,
        TotalAmount := arg.TotalAmount, AccruedBonusAmount := arg.AccruedBonusAmount,
        Message := arg.Message, Memo := arg.Memo, ApplyBonus := arg.ApplyBonus,
        TxSignature := ⟨false, ""⟩, Status := arg.Status }
    (.ok row, { st with transactions := st.transactions ++ [row] })

/-- Modelled from the spec: query `GetTransactionByReference`. -/
def GetTransactionByReference (st : Store) (reference : String) :
    Except String RepoTransaction :=
  match st.transactions.find? (fun t => t.Reference = reference) with
  | some t => .ok t
  | none => .error "sql: no rows in result set"

end Store

/-! ## Payment service (`payments/service.go`) -/

/-- The service: its clients and configuration. `newID` is the id the
database assigns to the next inserted row. -/
structure Service where
  sdk : SDK
  sol : SolanaClient
  jup : JupiterClient
  conf : Config
  newID : UUID

namespace Service

def GetPayment (_s : Service) (st : Store) (id : UUID) : Except String Payment :=
  match st.GetPayment id with
  | .error e => .error ("failed to get payment: " ++ e)
  | .ok result => .ok (castFromRepositoryPayment result)

def GetPaymentByExternalID (_s : Service) (st : Store) (externalID : String) :
    Except String Payment :=
  match st.GetPaymentByExternalID externalID with
  | .error e => .error ("failed to get payment: " ++ e)
  | .ok result => .ok (castFromRepositoryPayment result)

def UpdatePaymentStatus (_s : Service) (st : Store) (id : UUID) (status : PaymentStatus) :
    Except String Unit × Store :=
  match st.UpdatePaymentStatus id (castToRepositoryPaymentStatus status) with
  | (.error e, st) => (.error ("failed to update payment status: " ++ e), st)
  | (.ok _, st) => (.ok (), st)

def CancelPayment (_s : Service) (st : Store) (id : UUID) : Except String Unit × Store :=
  match st.UpdatePaymentStatus id RepoPaymentStatusCanceled with
  | (.error e, st) => (.error ("failed to update payment status: " ++ e), st)
  | (.ok _, st) => (.ok (), st)

def CancelPaymentByExternalID (s : Service) (st : Store) (externalID : String) :
    Except String Unit × Store :=
  match s.GetPaymentByExternalID st externalID with
  | .error e => (.error e, st)
  | .ok payment =>
    match st.UpdatePaymentStatus payment.ID RepoPaymentStatusCanceled with
    | (.error e, st) => (.error ("failed to update payment status: " ++ e), st)
    | (.ok _, st) => (.ok (), st)

def GetTransactionByReference (s : Service) (st : Store) (reference : String) :
    Except String Transaction :=
  match st.GetTransactionByReference reference with
  | .error e => .error ("failed to get transaction by reference=" ++ reference ++ ": " ++ e)
  | .ok result => .ok (castFromRepositoryTransaction result s.conf)

/-- The row written by `BuildTransaction` for a built attempt. -/
def createParams (tx : Transaction) : Store.CreateTransactionParams :=
  { PaymentID := tx.PaymentID, Reference := tx.Reference, SourceWallet := tx.SourceWallet,
    SourceMint := tx.SourceMint, DestinationWallet := tx.DestinationWallet,
    DestinationMint := tx.DestinationMint, Amount := wrapInt64 tx.Amount,
    DiscountAmount := wrapInt64 tx.DiscountAmount, TotalAmount := wrapInt64 tx.TotalAmount,
    Message := ⟨decide (tx.Message ≠ ""), tx.Message⟩,
    Memo := ⟨decide (tx.Memo ≠ ""), tx.Memo⟩,
    ApplyBonus := ⟨true, tx.ApplyBonus⟩,
    AccruedBonusAmount := wrapInt64 tx.AccruedBonusAmount,
    Status := RepoTransactionStatusPending }

def BuildTransaction (s : Service) (st : Store) (tx : Transaction) :
    Except String Transaction × Store :=
  if tx.PaymentID = uuidNil then (.error "payment ID is required", st)
  else if tx.SourceWallet = "" then (.error "sender wallet address is required", st)
  else
    match s.GetPayment st tx.PaymentID with
    | .error e => (.error ("failed to get payment: " ++ e), st)
    | .ok payment =>
      if payment.Status ≠ PaymentStatusNew ∧ payment.Status ≠ PaymentStatusPending then
        (.error ("payment already " ++ payment.Status), st)
      else
        let payment :=
          { payment with
            DestinationMint := MintAddress payment.DestinationMint s.conf.DestinationMint }
        let tx := { tx with SourceMint := MintAddress tx.SourceMint payment.DestinationMint }
        match NewPaymentTransactionBuilder s.sdk s.sol s.jup s.conf with
        | .error e => (.error ("panic: " ++ e), st)
        | .ok b =>
          match (b.SetTransaction tx payment).Build s.sdk with
          | .error e => (.error ("failed to build transaction: " ++ e), st)
          | .ok (base64Tx, tx) =>
            match st.CreateTransaction s.newID (createParams tx) with
            | (.error e, st) => (.error ("failed to create transaction: " ++ e), st)
            | (.ok repoTx, st) =>
              let result := castFromRepositoryTransaction repoTx s.conf
              (.ok { result with Transaction := base64Tx }, st)

end Service

/-! ## Events (`events/events.go`) and the event decorator
(`payments/service_events.go`) -/

abbrev EventName := String

def PaymentCreated : EventName := "payment.created"
def PaymentProcessing : EventName := "payment.processing"
def PaymentCancelled : EventName := "payment.cancelled"
def PaymentFailed : EventName := "payment.failed"
def PaymentExpired : EventName := "payment.expired"
def PaymentSucceeded : EventName := "payment.succeeded"
def PaymentLinkGenerated : EventName := "payment.link.generated"
def TransactionCreated : EventName := "transaction.created"
def TransactionUpdated : EventName := "transaction.updated"
def TransactionReferenceNotification : EventName := "transaction.reference.notification"

structure TransactionUpdatedPayload where
  PaymentID : String
  Reference : String
  Status : String
  Signature : String
deriving DecidableEq, Repr

/-- An event payload (`interface{}` in the source). -/
inductive Payload where
  | nil
  | paymentCreated (paymentID : String)
  | paymentStatusUpdated (paymentID : String) (status : String)
  | paymentLinkGenerated (paymentID : String) (link : String)
  | transactionCreated (paymentID : String) (transactionID : String) (reference : String)
  | transactionUpdated (p : TransactionUpdatedPayload)
  | reference (reference : String)
deriving DecidableEq, Repr

/-- One call of `fireEvent`. -/
structure Event where
  name : EventName
  payload : Payload
deriving DecidableEq, Repr

def getEventName (status : PaymentStatus) : EventName :=
  if status = PaymentStatusNew then PaymentCreated
  else if status = PaymentStatusPending then PaymentProcessing
  else if status = PaymentStatusCompleted then PaymentSucceeded
  else if status = PaymentStatusFailed then PaymentFailed
  else if status = PaymentStatusCanceled then PaymentCancelled
  else if status = PaymentStatusExpired then PaymentExpired
  else ""

/-- The decorator over `Service`; a call returns its result, the store and the
events it fired, in order. -/
structure ServiceEvents where
  inner : Service

namespace ServiceEvents

def CancelPayment (s : ServiceEvents) (st : Store) (id : UUID) :
    Except String Unit × Store × List Event :=
  match s.inner.CancelPayment st id with
  | (.error e, st) => (.error e, st, [])
  | (.ok (), st) =>
    (.ok (), st, [⟨PaymentCancelled, .paymentStatusUpdated id PaymentStatusCanceled⟩])

def CancelPaymentByExternalID (s : ServiceEvents) (st : Store) (externalID : String) :
    Except String Unit × Store × List Event :=
  match s.inner.GetPaymentByExternalID st externalID with
  | .error e => (.error e, st, [])
  | .ok payment =>
    match s.inner.CancelPaymentByExternalID st externalID with
    | (.error e, st) => (.error e, st, [])
    | (.ok (), st) =>
      (.ok (), st,
        [⟨PaymentCancelled, .paymentStatusUpdated payment.ID PaymentStatusCanceled⟩])

def UpdatePaymentStatus (s : ServiceEvents) (st : Store) (id : UUID)
    (status : PaymentStatus) : Except String Unit × Store × List Event :=
  match s.inner.GetPayment st id with
  | .error e => (.error e, st, [])
  | .ok prev =>
    match s.inner.UpdatePaymentStatus st id status with
    | (.error e, st) => (.error e, st, [])
    | (.ok (), st) =>
      if prev.Status ≠ status then
        let eventName := getEventName status
        if eventName = "" then (.error ("unknown payment status " ++ status), st, [])
        else (.ok (), st, [⟨eventName, .paymentStatusUpdated id status⟩])
      else (.ok (), st, [])

end ServiceEvents

/-! ## Listeners (`payments/events.go`) -/

/-- The one method of `PaymentService` the listener uses, over a service state
`σ`. -/
abbrev UpdatePaymentStatusFn (σ : Type) := σ → UUID → PaymentStatus → Except String Unit × σ

/-- The listener for `transaction.updated`; `parse` is `uuid.Parse`. -/
def UpdateTransactionStatusListener {σ : Type} (service : UpdatePaymentStatusFn σ)
    (parse : String → Except String UUID) (_event : EventName) (payload : Payload) (s : σ) :
    Except String Unit × σ :=
  match payload with
  | .transactionUpdated p =>
    if p.Status = TransactionStatusPending then (.ok (), s)
    else
      match parse p.PaymentID with
      | .error e => (.error ("failed to parse payment id: " ++ e), s)
      | .ok pid =>
        let status :=
          if p.Status = TransactionStatusCompleted then PaymentStatusCompleted
          else if p.Status = TransactionStatusFailed then PaymentStatusFailed
          else PaymentStatusPending
        service s pid status
  | _ => (.ok (), s)

/-- A service that only records the status requests it receives. -/
def recordingService : UpdatePaymentStatusFn (List (UUID × PaymentStatus)) :=
  fun log id status => (.ok (), log ++ [(id, status)])

/-! ## Reconciler worker (`payments/worker.go`)

The handler loops on a ticker under a deadline. A run is given by the ticks
that arrive before the deadline; at each tick the service and the ledger answer
as they stand at that moment (other tasks may have written in between). -/

/-- What the worker's collaborators answer at one tick: interface
`paymentService` and interface `workerSolanaClient`. -/
structure Tick where
  GetTransactionByReference : String → Except String Transaction
  ValidateTransactionByReference : String → String → Nat → String → Except String String
  UpdateTransaction : String → TransactionStatus → String → Except String Unit

/-- A call the worker makes to the ledger validator or to `UpdateTransaction`. -/
inductive Call where
  | validate (reference destination : String) (amount : Nat) (mint : String)
  | update (reference : String) (status : TransactionStatus) (signature : String)
deriving DecidableEq, Repr

namespace Worker

/-- The `for`/`select` loop of `CheckPaymentByReference`: one step per tick, and
`ctx.Done()` once the ticks are used up. Returns the handler's result and the
calls made, in order. -/
def loop (reference : String) : List Tick → Except String Unit × List Call
  | [] => (.ok (), [])
  | t :: rest =>
    match t.GetTransactionByReference reference with
    | .error _ => loop reference rest
    | .ok tx =>
      if tx.Status ≠ TransactionStatusPending then (.ok (), [])
      else
        let v := Call.validate reference tx.DestinationWallet tx.TotalAmount tx.DestinationMint
        match t.ValidateTransactionByReference reference tx.DestinationWallet tx.TotalAmount
            tx.DestinationMint with
        | .error _ => ((loop reference rest).1, v :: (loop reference rest).2)
        | .ok txSign =>
          let u := Call.update reference TransactionStatusCompleted txSign
          match t.UpdateTransaction reference TransactionStatusCompleted txSign with
          | .error _ => ((loop reference rest).1, v :: u :: (loop reference rest).2)
          | .ok () => (.ok (), [v, u])

/-- The handler; `payload` is the result of decoding the task payload
(`none` when `json.Unmarshal` fails). -/
def CheckPaymentByReference (payload : Option String) (ticks : List Tick) :
    Except String Unit × List Call :=
  match payload with
  | none => (.error "failed to unmarshal payload", [])
  | some reference => loop reference ticks

end Worker

/-- The tick seen by a worker whose service is `Service` over the store `st`,
with the given ledger validator and `UpdateTransaction` answers. -/
def Tick.ofStore (s : Service) (st : Store)
    (validate : String → String → Nat → String → Except String String)
    (update : String → TransactionStatus → String → Except String Unit) : Tick :=
  { GetTransactionByReference := s.GetTransactionByReference st
    ValidateTransactionByReference := validate
    UpdateTransaction := update }

/-! ## Ledger validators (`solana/transaction.go`) -/

/-- A row of `PreTokenBalances` or `PostTokenBalances`; `Amount` is the decimal
text `UITokenAmount.Amount`. -/
structure TokenBalance where
  Mint : String
  Owner : String
  Amount : String
deriving DecidableEq, Repr

structure TransactionMeta where
  PreBalances : List Int
  PostBalances : List Int
  PreTokenBalances : List TokenBalance := []
  PostTokenBalances : List TokenBalance := []
  Err : Option String := none
deriving DecidableEq, Repr

/-- The part of `types.Transaction` the validator reads: `Message.Accounts`. -/
structure LedgerTransaction where
  Accounts : List String
deriving DecidableEq, Repr

inductive CheckFailure where
  /-- A Go run-time panic: index out of range. -/
  | indexOutOfRange
  /-- The returned error. -/
  | amountMismatch (amount : Nat) (txAmount : Int)
deriving DecidableEq, Repr

/-- The search loop of `CheckSolTransferTransaction`: the index of the first
account equal to `destination`, counted from `i`, if there is one. -/
def findDest (destination : String) : List String → Nat → Option Nat
  | [], _ => none
  | acc :: rest, i => if acc = destination then some i else findDest destination rest (i + 1)

def CheckSolTransferTransaction (meta : TransactionMeta) (tx : LedgerTransaction)
    (destination : String) (amount : Nat) : Except CheckFailure Unit :=
  let destIdx := (findDest destination tx.Accounts 0).getD 0
  match meta.PostBalances.get? destIdx, meta.PreBalances.get? destIdx with
  | some post, some pre =>
    let txAmount := wrapInt64 (post - pre)
    if txAmount ≠ wrapInt64 amount then .error (.amountMismatch amount txAmount)
    else .ok ()
  | _, _ => .error .indexOutOfRange

/-! ## Stages of `PaymentBuilder.Build`, named for the proofs -/

/-- The builder after the balance read and `recalculateTotalAmount`, the first
two steps of `Build`. -/
def PaymentBuilder.recalculated (b : PaymentBuilder) : PaymentBuilder :=
  let b :=
    { b with
      availableBonusAmount :=
        (b.sol.GetTokenBalance b.tx.SourceWallet b.config.BonusMintAddress).1 }
  { b with tx := b.recalculateTotalAmount b.tx }

/-- The composer after the burn, swap and transfer steps of `Build`. -/
def PaymentBuilder.composed (sdk : SDK) (b : PaymentBuilder) : Except String TransactionBuilder :=
  match b.swap sdk (b.burnBonus sdk
      ((NewTransactionBuilder (some b.sol)).SetFeePayer b.tx.SourceWallet)) with
  | .error e => .error e
  | .ok builder =>
    .ok (if IsSOL b.tx.DestinationMint then b.transferSOL builder
      else b.transferToken sdk builder)


/-- The transaction that `PaymentBuilder.Build` hands to the serialiser. -/
def PaymentBuilder.wire (sdk : SDK) (b : PaymentBuilder) : Except String WireTransaction :=
  match b.recalculated.composed sdk with
  | .error e => .error e
  | .ok builder => (b.recalculated.mintBonus sdk builder).2.message

/-! ## Concrete collaborators for the worked examples -/

namespace Example

def sdk : SDK :=
  { NewAccount := "Ref"
    AccountFromBase58 := fun _ => .ok "BonusAuth"
    FindAssociatedTokenAddress := fun owner mint => .ok (owner ++ "/" ++ mint)
    DecodeTransaction := fun _ => .error "not a transaction"
    EncodeTransaction := fun _ => .ok "base64" }

/-- A ledger on which every token account exists and the buyer's bonus balance
is `balance`. -/
def sol (balance : Nat) : SolanaClient :=
  { GetLatestBlockhash := .ok "Blockhash"
    DoesTokenAccountExist := fun _ => (true, none)
    GetMinimumBalanceForRentExemption := fun _ => .ok 0
    GetTokenBalance := fun _ _ => (balance, none) }

def jup : JupiterClient := { BestSwap := fun _ => .error "swap unavailable" }

/-- A policy with the absolute cap `capAbs` and the percent cap `capPct`, no
accrual. -/
def config (capAbs capPct : Nat) : Config :=
  { ApplyBonus := true, BonusMintAddress := "BonusMint", BonusAuthAccount := "BonusKey",
    MaxApplyBonusAmount := capAbs, MaxApplyBonusPercent := capPct, AccrueBonus := false,
    AccrueBonusRate := 0, DestinationMint := USDC, DestinationWallet := "Merchant",
    PaymentTTL := 0, SolPayBaseURL := "" }

def payment (amount : Nat) : Payment :=
  { ID := "p1", ExternalID := "", DestinationWallet := "Merchant", DestinationMint := USDC,
    Amount := amount, Status := PaymentStatusNew, Message := "", ExpiresAt := none }

/-- A draft as the HTTP endpoint makes it: payment, buyer wallet, mint and the
bonus flag; everything else is zero. -/
def draft (applyBonus : Bool) : Transaction :=
  { Transaction.zero with
    PaymentID := "p1", SourceWallet := "Buyer", SourceMint := USDC, ApplyBonus := applyBonus }

/-- The builder run of `BuildTransaction`: construct, `SetTransaction`, `Build`. -/
def build (cfg : Config) (balance : Nat) (tx : Transaction) (p : Payment) :
    Except String (String × Transaction) :=
  match NewPaymentTransactionBuilder sdk (sol balance) jup cfg with
  | .error e => .error e
  | .ok b => (b.SetTransaction tx p).Build sdk

/-- The amounts of a built attempt: amount, discount, total. -/
def amounts (r : Except String (String × Transaction)) : Option (Nat × Nat × Nat) :=
  match r with
  | .error _ => none
  | .ok (_, tx) => some (tx.Amount, tx.DiscountAmount, tx.TotalAmount)

/-- The builder `NewPaymentTransactionBuilder` returns for `config capAbs capPct`
on the ledger `sol balance`. -/
def builder (capAbs capPct balance : Nat) : PaymentBuilder :=
  { sol := sol balance, jup := jup,
    config := { config capAbs capPct with AccrueBonusRate := 100 },
    tx := Transaction.zero, availableBonusAmount := 0, referenceAccount := "Ref",
    bonusAuthAccount := some "BonusAuth" }

/-- The attempt with the given amounts that the examples build for buyer
`Buyer` and merchant `Merchant` in USDC. -/
def built (applyBonus : Bool) (amount discount total : Nat) : Transaction :=
  { Transaction.zero with
    PaymentID := "p1", Reference := "Ref", SourceWallet := "Buyer", SourceMint := USDC,
    DestinationWallet := "Merchant", DestinationMint := USDC, Amount := amount,
    DiscountAmount := discount, TotalAmount := total, ApplyBonus := applyBonus }

end Example

/-! ## Terminal states and an example store -/

/-- The repository states a payment cannot leave (section 4.5). -/
def terminalStatus (status : String) : Prop :=
  status = RepoPaymentStatusCompleted ∨ status = RepoPaymentStatusFailed ∨
    status = RepoPaymentStatusCanceled ∨ status = RepoPaymentStatusExpired

instance (status : String) : Decidable (terminalStatus status) := by
  unfold terminalStatus; infer_instance

namespace Example

/-- A stored payment of 100 USDC with the given status and the external id
`order-1`. -/
def storedPayment (status : String) : RepoPayment :=
  { ID := "p1", ExternalID := ⟨true, "order-1"⟩, DestinationWallet := "Merchant",
    DestinationMint := USDC, Amount := 100, Status := status, Message := ⟨false, ""⟩,
    ExpiresAt := none }

/-- A store holding that one payment and the given attempts. -/
def store (status : String) (txs : List RepoTransaction) : Store :=
  { payments := [storedPayment status], transactions := txs }

def service : Service :=
  { sdk := sdk, sol := sol 0, jup := jup, conf := config 0 0, newID := "t1" }

/-- A stored attempt of 100 USDC for payment `p1` with reference `Ref` and the
given status. -/
def storedAttempt (status : String) : RepoTransaction :=
  { ID := "t0", PaymentID := "p1", Reference := "Ref", SourceWallet := "Buyer",
    SourceMint := USDC, DestinationWallet := "Merchant", DestinationMint := USDC,
    Amount := 100, DiscountAmount := 0, TotalAmount := 100, AccruedBonusAmount := 0,
    Message := ⟨false, ""⟩, Memo := ⟨false, ""⟩, ApplyBonus := ⟨true, false⟩,
    TxSignature := ⟨false, ""⟩, Status := status }

/-- A tick at which the service reads the store `st`, the ledger validator
finds a matching transfer signed `sig`, and the update is accepted. -/
def matchingTick (st : Store) : Tick :=
  Tick.ofStore service st (fun _ _ _ _ => .ok "sig") (fun _ _ _ => .ok ())

/-- A ledger transaction whose fee payer `Payer` receives 2 505 000 lamports
from `Sender` and pays the fee of 5 000; `Merchant` is not one of its accounts. -/
def payerCredited : LedgerTransaction := { Accounts := ["Payer", "Sender", SystemProgramID] }

def payerCreditedMeta : TransactionMeta :=
  { PreBalances := [10000000, 5000000, 1], PostBalances := [12500000, 2495000, 1] }

end Example

/-- At tick `t` the attempt is read as pending and the ledger validator returns
the signature `sig` for the attempt's destination, total and mint. -/
def matchedAt (reference : String) (t : Tick) (sig : String) : Bool :=
  match t.GetTransactionByReference reference with
  | .error _ => false
  | .ok tx =>
    tx.Status = TransactionStatusPending &&
      (match t.ValidateTransactionByReference reference tx.DestinationWallet tx.TotalAmount
          tx.DestinationMint with
        | .error _ => false
        | .ok txSign => txSign = sig)

/-- The instruction lists produced by the closures, concatenated in the order of
the closures; the first failing closure decides the error. -/
def TransactionBuilder.collect (c : SolanaClient) :
    List InstructionFunc → Except String (List Instruction)
  | [] => .ok []
  | f :: fs =>
    match f c with
    | .error e => .error ("failed to prepare instructions: " ++ e)
    | .ok a =>
      match collect c fs with
      | .error e => .error e
      | .ok r => .ok (a ++ r)

/-! ## The instruction order of section 4.4, in the spec's words

These definitions follow the four numbered steps of the spec; the theorems
compare them with what `PaymentBuilder.Build` composes. -/

/-- A transfer instruction tagged with the reference: the reference is appended
as a read-only, non-signer account. -/
def tagged (ins : Instruction) (reference : String) : Instruction :=
  if reference ≠ "" then
    { ins with Accounts := ins.Accounts ++ [⟨reference, false, false⟩] }
  else ins

/-- Step 1, the swap prefix: present iff the source mint differs from the
destination mint; the provider's transaction for (source wallet, source mint,
destination mint, total), decompiled. -/
def swapStep (sdk : SDK) (jup : JupiterClient) (tx : Transaction) :
    Except String (List Instruction) :=
  if tx.SourceMint = tx.DestinationMint then .ok []
  else
    match jup.BestSwap
        { UserPublicKey := tx.SourceWallet, InputMint := tx.SourceMint,
          OutputMint := tx.DestinationMint, Amount := tx.TotalAmount } with
    | .error e => .error e
    | .ok jupTx =>
      match sdk.DecodeTransaction jupTx with
      | .error e => .error e
      | .ok jtx => .ok jtx.Instructions

/-- Step 2, the bonus burn, as the code has it: present iff the attempt applies
the bonus and the discount is positive; burns the discount of the bonus mint from
the source wallet's token account. -/
def burnStep (sdk : SDK) (config : Config) (tx : Transaction) :
    Except String (List Instruction) :=
  if tx.ApplyBonus = true ∧ tx.DiscountAmount > 0 then
    match sdk.FindAssociatedTokenAddress tx.SourceWallet config.BonusMintAddress with
    | .error e => .error e
    | .ok ata => .ok [tokenBurn ata config.BonusMintAddress tx.SourceWallet tx.DiscountAmount]
  else .ok []

/-- Step 3, the transfer of the total to the destination wallet, tagged with the
reference: the native variant iff the destination mint is the native mint, else
the token variant, preceded by the creation of the recipient's token account
when that does not exist. -/
def transferStep (sdk : SDK) (sol : SolanaClient) (tx : Transaction) :
    Except String (List Instruction) :=
  if IsSOL tx.DestinationMint = true then
    .ok [tagged (systemTransfer tx.SourceWallet tx.DestinationWallet tx.TotalAmount)
      tx.Reference]
  else
    match sdk.FindAssociatedTokenAddress tx.SourceWallet tx.DestinationMint with
    | .error e => .error e
    | .ok senderAta =>
      match sdk.FindAssociatedTokenAddress tx.DestinationWallet tx.DestinationMint with
      | .error e => .error e
      | .ok recipientAta =>
        .ok ((if (sol.DoesTokenAccountExist recipientAta).1 = false then
              [createAssociatedTokenAccount tx.SourceWallet tx.DestinationWallet
                tx.DestinationMint recipientAta]
            else []) ++
          [tagged (tokenTransfer senderAta recipientAta tx.SourceWallet tx.TotalAmount)
            tx.Reference])

/-- The bonus accrued in a build: `total * rate / 10000` in `uint64` when accrual
is enabled, else 0. -/
def accrued (config : Config) (tx : Transaction) : Nat :=
  if config.AccrueBonus = true then mulU64 tx.TotalAmount config.AccrueBonusRate / 10000
  else 0

/-- Step 4, the bonus mint: present iff the accrued amount is positive; mints it
to the source wallet's token account of the bonus mint, created first when it
does not exist. -/
def mintStep (sdk : SDK) (sol : SolanaClient) (config : Config) (authority : String)
    (tx : Transaction) : Except String (List Instruction) :=
  if accrued config tx > 0 then
    match sdk.FindAssociatedTokenAddress tx.SourceWallet config.BonusMintAddress with
    | .error e => .error e
    | .ok ata =>
      .ok ((if (sol.DoesTokenAccountExist ata).1 = false then
            [createAssociatedTokenAccount tx.SourceWallet tx.SourceWallet
              config.BonusMintAddress ata]
          else []) ++
        [tokenMintTo config.BonusMintAddress ata authority (accrued config tx)])
  else .ok []

/-- The closures `burnBonus` adds. -/
def PaymentBuilder.burnClosures (sdk : SDK) (b : PaymentBuilder) : List InstructionFunc :=
  if !b.tx.ApplyBonus || b.tx.DiscountAmount = 0 then []
  else
    [BurnToken sdk
      { Mint := b.config.BonusMintAddress, TokenAccountOwner := b.tx.SourceWallet,
        Amount := b.tx.DiscountAmount }]

/-- The closure the transfer step adds. -/
def PaymentBuilder.transferClosure (sdk : SDK) (b : PaymentBuilder) : InstructionFunc :=
  if IsSOL b.tx.DestinationMint then
    TransferSOL
      { Sender := b.tx.SourceWallet, Recipient := b.tx.DestinationWallet,
        Reference := b.tx.Reference, Amount := b.tx.TotalAmount }
  else
    TransferToken sdk
      { Sender := b.tx.SourceWallet, Recipient := b.tx.DestinationWallet,
        Mint := b.tx.DestinationMint, Reference := b.tx.Reference,
        Amount := b.tx.TotalAmount }

/-- The closures `mintBonus` adds. -/
def PaymentBuilder.mintClosures (sdk : SDK) (b : PaymentBuilder) : List InstructionFunc :=
  if accrued b.config b.tx = 0 then []
  else
    [MintFungibleToken sdk
      { Funder := b.tx.SourceWallet, Mint := b.config.BonusMintAddress,
        MintOwner := b.bonusAuthAccount.getD "", MintTo := b.tx.SourceWallet,
        Amount := accrued b.config b.tx }]

/-- The discount of section 4.4 in exact integer arithmetic: the minimum of the
available balance, the amount, the absolute cap when it is positive and
`amount * percent / 10000` when the percent cap is positive. -/
def exactDiscount (available amount capAbs capPct : Nat) : Nat :=
  let m := min available amount
  let m := if capAbs > 0 then min m capAbs else m
  if capPct > 0 then min m (amount * capPct / 10000) else m

/-! ## Token validator (`solana/transaction.go`) -/

/-- The digit loop of `strconv.ParseUint` in base 10. -/
def parseDigits : List Char → Nat → Option Nat
  | [], acc => some acc
  | c :: cs, acc =>
    if '0'.toNat ≤ c.toNat ∧ c.toNat ≤ '9'.toNat then
      parseDigits cs (acc * 10 + (c.toNat - '0'.toNat))
    else none

/-- Go `strconv.ParseUint(s, 10, 64)`: a non-empty run of decimal digits whose
value fits 64 bits. -/
def ParseUint (s : String) : Except String Nat :=
  match s.data with
  | [] => .error "invalid syntax"
  | cs =>
    match parseDigits cs 0 with
    | none => .error "invalid syntax"
    | some n => if n < U64 then .ok n else .error "value out of range"

/-- One of the two search loops of `CheckTokenTransferTransaction`: the parsed
amount of the first row with the given mint and owner, 0 when there is none. -/
def findTokenBalance (label mint destination : String) : List TokenBalance → Except String Nat
  | [] => .ok 0
  | balance :: rest =>
    if balance.Mint = mint ∧ balance.Owner = destination then
      match ParseUint balance.Amount with
      | .error e => .error ("failed to parse " ++ label ++ " balance: " ++ e)
      | .ok amount => .ok amount
    else findTokenBalance label mint destination rest

def CheckTokenTransferTransaction (meta : TransactionMeta) (_tx : LedgerTransaction)
    (mint destination : String) (amount : Nat) : Except String Unit :=
  match findTokenBalance "pre" mint destination meta.PreTokenBalances with
  | .error e => .error e
  | .ok preBalance =>
    match findTokenBalance "post" mint destination meta.PostTokenBalances with
    | .error e => .error e
    | .ok postBalance =>
      if subU64 postBalance preBalance ≠ amount then
        .error "amount is not equal to the amount in the transaction"
      else .ok ()

/-! ## Oldest transaction of an address (`solana/client.go`) -/

/-- An entry of the signature history of an address. -/
structure SignatureInfo where
  Signature : String
  Err : Option String
  BlockTime : Option Int
deriving DecidableEq, Repr

structure GetTransactionResponse where
  Meta : Option TransactionMeta
  Transaction : LedgerTransaction
deriving DecidableEq, Repr

/-- The SDK's RPC client as `Client` uses it here; the arguments of
`GetSignaturesForAddressWithConfig` are the address, `Limit` and `Before`
(commitment is always finalized). `now` is `time.Now().Unix()`. -/
structure RpcClient where
  GetSignaturesForAddressWithConfig :
    String → Nat → String → Except String (List SignatureInfo)
  GetTransaction : String → Except String (Option GetTransactionResponse)
  now : Int

def ErrNoTransactionsFound : String := "no transactions found"
def ErrTransactionNotConfirmed : String := "transaction not confirmed"
def ErrTransactionNotFound : String := "transaction not found"

namespace RpcClient

/-- The method `Client.GetTransaction`; the field `GetTransaction` is the RPC call
it wraps. -/
def ClientGetTransaction (c : RpcClient) (txSignature : String) :
    Except String GetTransactionResponse :=
  match c.GetTransaction txSignature with
  | .error e => .error ("failed to get transaction: " ++ e)
  | .ok none => .error ErrTransactionNotFound
  | .ok (some tx) =>
    match tx.Meta with
    | none => .error ErrTransactionNotFound
    | some m =>
      match m.Err with
      | some e => .error ("transaction failed: " ++ e)
      | none => .ok tx

/-- The method `Client.GetOldestTransactionForWallet`. It recurses once per full
page; `fuel` bounds the depth of the recursion. -/
def GetOldestTransactionForWallet (c : RpcClient) :
    Nat → String → String → Except String (String × GetTransactionResponse)
  | 0, _, _ => .error "recursion limit"
  | fuel + 1, base58Addr, offsetTxSignature =>
    let limit := 1000
    match c.GetSignaturesForAddressWithConfig base58Addr limit offsetTxSignature with
    | .error e =>
      .error ("failed to get signatures for address: " ++ base58Addr ++ ": " ++ e)
    | .ok result =>
      if result.length = 0 then .error ErrNoTransactionsFound
      else if result.length < limit then
        match result.get? (result.length - 1) with
        | none => .error "index out of range"
        | some tx =>
          match tx.Err with
          | some e => .error ("transaction failed: " ++ e)
          | none =>
            if tx.Signature = "" then .error ErrNoTransactionsFound
            else if tx.BlockTime = none ∨ tx.BlockTime = some 0 ∨
                tx.BlockTime.getD 0 > c.now then
              .error ErrTransactionNotConfirmed
            else
              match c.ClientGetTransaction tx.Signature with
              | .error e =>
                .error ("failed to get oldest transaction for wallet: " ++ base58Addr ++
                  ": " ++ e)
              | .ok resp => .ok (tx.Signature, resp)
      else
        match result.get? (limit - 1) with
        | none => .error "index out of range"
        | some last => GetOldestTransactionForWallet c fuel base58Addr last.Signature

end RpcClient

/-- A ledger that holds the finalized signature history `history` of one
address, newest first, and serves it in pages: the entries after `before` (all
of them when `before` is empty), at most `limit` of them. Every transaction of
the history can be fetched and has succeeded. -/
def ledgerRpc (history : List SignatureInfo) (now : Int) : RpcClient :=
  { GetSignaturesForAddressWithConfig := fun _ limit before =>
      .ok ((if before = "" then history
        else (history.dropWhile (fun s => s.Signature ≠ before)).drop 1).take limit)
    GetTransaction := fun _ =>
      .ok (some { Meta := some { PreBalances := [], PostBalances := [] },
                  Transaction := { Accounts := [] } })
    now := now }

/-- A history of `n` successful transactions with distinct signatures and block
time 1, newest first: entry `i` has the signature of `n - i` letters `x`, so the
oldest transaction has the signature `x`. -/
def historyOf (n : Nat) : List SignatureInfo :=
  (List.range n).map fun i => ⟨⟨List.replicate (n - i) 'x'⟩, none, some 1⟩

/-! ## Payment link (`payments/service.go`) -/

/-- Go `strings.TrimLeft(s, cutset)`. -/
def TrimLeft (s cutset : String) : String :=
  ⟨s.data.dropWhile (fun c => c ∈ cutset.data)⟩

/-- Go `strings.TrimRight(s, cutset)`. -/
def TrimRight (s cutset : String) : String :=
  ⟨(s.data.reverse.dropWhile (fun c => c ∈ cutset.data)).reverse⟩

/-- Go `strings.Trim(s, cutset)`. -/
def Trim (s cutset : String) : String := TrimRight (TrimLeft s cutset) cutset

/-- Go `strings.Join(elems, sep)`. -/
def Join : List String → String → String
  | [], _ => ""
  | [a], _ => a
  | a :: rest, sep => a ++ sep ++ Join rest sep

/-- Go `strconv.FormatBool`. -/
def FormatBool (b : Bool) : String := if b then "true" else "false"

def Service.GeneratePaymentLink (s : Service) (st : Store) (paymentID : UUID)
    (mint : String) (applyBonus : Bool) : Except String String :=
  match s.GetPayment st paymentID with
  | .error e => .error ("failed to get payment: " ++ e)
  | .ok payment =>
    if payment.Status ≠ PaymentStatusNew ∧ payment.Status ≠ PaymentStatusPending then
      .error ("payment already " ++ payment.Status)
    else
      let mint := MintAddress mint payment.DestinationMint
      let uri :=
        Join [TrimRight s.conf.SolPayBaseURL "/", Trim paymentID "/", Trim mint "/",
          FormatBool applyBonus] "/"
      .ok ("solana:" ++ uri)

/-- The number of closures the loop of `PrepareInstructions` invokes: it stops
after the first closure that fails. -/
def TransactionBuilder.invoked (c : SolanaClient) : List InstructionFunc → Nat
  | [] => 0
  | f :: fs =>
    match f c with
    | .error _ => 1
    | .ok _ => 1 + invoked c fs

/-- The token balance rows of a transaction that credits 10 units of USDC to
`Merchant` (100 before, 110 after) and debits `Buyer`. -/
def Example.tokenMeta : TransactionMeta :=
  { PreBalances := [], PostBalances := []
    PreTokenBalances := [⟨USDC, "Buyer", "50"⟩, ⟨USDC, "Merchant", "100"⟩]
    PostTokenBalances := [⟨USDC, "Buyer", "40"⟩, ⟨USDC, "Merchant", "110"⟩] }

/-- The balance the validator attributes to `(destination, mint)` in a list of
token balance rows, in the spec's words: the amount of the first row with that
owner and mint, 0 when there is no such row; undefined when the amount of that
row is not the decimal text of a 64-bit number. -/
def rowBalance (mint destination : String) (rows : List TokenBalance) : Option Nat :=
  match rows.find? (fun r => r.Mint = mint ∧ r.Owner = destination) with
  | none => some 0
  | some r => (ParseUint r.Amount).toOption

/-- The instruction list of the transaction composed by the builder run of
`BuildTransaction`. -/
def Example.instructions (cfg : Config) (balance : Nat) (tx : Transaction) (p : Payment) :
    Option (List Instruction) :=
  match NewPaymentTransactionBuilder Example.sdk (Example.sol balance) Example.jup cfg with
  | .error _ => none
  | .ok b => ((b.SetTransaction tx p).wire Example.sdk).toOption.map (fun w => w.Instructions)

/-- The rate `NewPaymentTransactionBuilder` works with: the configured rate, and
100 when that is 0. -/
def effectiveRate (config : Config) : Nat :=
  if config.AccrueBonusRate > 0 then config.AccrueBonusRate else 100

/-- An error text is a rejection on status grounds when it starts with
`payment already `, the text both `GeneratePaymentLink` and `BuildTransaction`
use for a payment that is neither new nor pending. -/
def statusRejection (e : String) : Bool :=
  e.data.take 16 == "payment already ".data

/-- The example service with the base URL `https://pay.example/`. -/
def Example.linkService : Service :=
  { Example.service with
    conf := { Example.config 0 0 with SolPayBaseURL := "https://pay.example/" } }

/-- A text of 20 characters and 40 bytes: 20 times the letter e with an acute
accent (U+00E9, two bytes in UTF-8). -/
def Example.accented : String := ⟨List.replicate 20 (Char.ofNat 0xE9)⟩

/-- The mint address of a token that is not in `defaultMints`. -/
def Example.otherMint : String := "DezXAZ8z7PnrnRJjz3wXBoRgixCa6xjnB7YaB1pPB263"

/-! ## Webhook signature (`webhook/signature.go`)

A byte is a natural number below 256 and a byte slice is a list of them. The
keyed hash `hmac.New(sha256.New, key)` of the standard library is a parameter:
`hmacSHA256 key payload` is the digest after writing `payload`. -/

abbrev Bytes := List Nat

/-- The alphabet of `base64.StdEncoding`. -/
def base64Alphabet : List Char :=
  "ABCDEFGHIJKLMNOPQRSTUVWXYZabcdefghijklmnopqrstuvwxyz0123456789+/".data

/-- The character of a 6-bit value. -/
def encodeChar (v : Nat) : Char := base64Alphabet.getD v 'A'

/-- The 6-bit value of a character of the alphabet. -/
def decodeChar (c : Char) : Option Nat :=
  if base64Alphabet.indexOf c < 64 then some (base64Alphabet.indexOf c) else none

/-- Go `base64.StdEncoding.EncodeToString`: three bytes give four characters, and
a last group of one or two bytes is padded with `=`. -/
def StdEncode : Bytes → List Char
  | [] => []
  | [b0] => [encodeChar (b0 / 4), encodeChar (b0 % 4 * 16), '=', '=']
  | [b0, b1] =>
    [encodeChar (b0 / 4), encodeChar (b0 % 4 * 16 + b1 / 16), encodeChar (b1 % 16 * 4), '=']
  | b0 :: b1 :: b2 :: rest =>
    encodeChar (b0 / 4) :: encodeChar (b0 % 4 * 16 + b1 / 16) ::
      encodeChar (b1 % 16 * 4 + b2 / 64) :: encodeChar (b2 % 64) :: StdEncode rest

/-- The quantum loop of the decoder on text without line breaks: four characters
give three bytes, and padding is accepted only in the last group. -/
def decodeQuanta : List Char → Except String Bytes
  | [] => .ok []
  | c0 :: c1 :: c2 :: c3 :: rest =>
    match decodeChar c0, decodeChar c1 with
    | some v0, some v1 =>
      if c2 = '=' then
        if c3 = '=' ∧ rest = [] then .ok [v0 * 4 + v1 / 16]
        else .error "illegal base64 data"
      else
        match decodeChar c2 with
        | none => .error "illegal base64 data"
        | some v2 =>
          if c3 = '=' then
            if rest = [] then .ok [v0 * 4 + v1 / 16, v1 % 16 * 16 + v2 / 4]
            else .error "illegal base64 data"
          else
            match decodeChar c3 with
            | none => .error "illegal base64 data"
            | some v3 =>
              match decodeQuanta rest with
              | .error e => .error e
              | .ok bytes =>
                .ok ([v0 * 4 + v1 / 16, v1 % 16 * 16 + v2 / 4, v2 % 4 * 64 + v3] ++ bytes)
    | _, _ => .error "illegal base64 data"
  | _ => .error "illegal base64 data"

/-- Go `base64.StdEncoding.DecodeString`: carriage returns and line feeds are
skipped, the rest is decoded in groups of four characters. -/
def StdDecodeString (s : String) : Except String Bytes :=
  decodeQuanta (s.data.filter (fun c => c ≠ '\r' ∧ c ≠ '\n'))

/-- Modelled from the spec: `utils.BytesToBase64`, which is not under `src/`; by
section 8 the signature is the base64 text of the digest, in the standard
encoding that `VerifySignature` decodes. -/
def BytesToBase64 (b : Bytes) : String := ⟨StdEncode b⟩

/-- The hash never fails on `Write` (contract of `hash.Hash`), so the error
branch of the source is not reachable and has no counterpart here. -/
def SignPayload (hmacSHA256 : Bytes → Bytes → Bytes) (payload secretKey : Bytes) :
    Except String String :=
  .ok (BytesToBase64 (hmacSHA256 secretKey payload))

def VerifySignature (hmacSHA256 : Bytes → Bytes → Bytes) (payload : Bytes)
    (signature : String) (secretKey : Bytes) : Except String Unit :=
  match StdDecodeString signature with
  | .error e => .error ("failed to decode signature: " ++ e)
  | .ok expectedSignature =>
    let actualSignature := hmacSHA256 secretKey payload
    if expectedSignature ≠ actualSignature then .error "signature verification failed"
    else .ok ()

/-- A keyed digest for the worked examples: 32 bytes computed from the lengths
and the byte sums of key and payload. It stands in for HMAC-SHA256, of which the
theorems use only that it is a function of key and payload with byte values. -/
def Example.digest (key payload : Bytes) : Bytes :=
  (List.range 32).map fun i => (key.sum * 31 + payload.sum * 17 + key.length + i * 7) % 256

/-- The bytes of the text `payload`. -/
def Example.payloadBytes : Bytes := [112, 97, 121, 108, 111, 97, 100]

/-- The bytes of the text `secret`. -/
def Example.secretBytes : Bytes := [115, 101, 99, 114, 101, 116]

/-! ## Webhook delivery (`webhook/service.go`, `webhook/worker.go`) -/

namespace Webhook

/-- The part of `http.Response` the service reads. -/
structure Response where
  StatusCode : Nat
  Status : String
deriving DecidableEq, Repr

/-- The body of a webhook request before serialisation; the data of an event is
kept as text. -/
structure WebhookRequestPayload where
  Event : String
  Data : String
deriving DecidableEq, Repr

/-- What the service calls outside the package: `json.Marshal`, the keyed hash,
`http.NewRequest` (its error for the given URL, if any) and `client.Do`, whose
arguments are the URL, the body and the two headers set by `Send`. -/
structure Env where
  marshal : WebhookRequestPayload → Except String Bytes
  hmacSHA256 : Bytes → Bytes → Bytes
  newRequest : String → Option String
  doRequest : String → Bytes → List (String × String) → Except String Response

def StatusOK : Nat := 200
def ContentTypeJSON : String := "application/json"

structure Service where
  env : Env
  signatureHeader : String
  signatureSecret : Bytes
  webhookURI : String

namespace Service

def Send (s : Service) (url : String) (payload : WebhookRequestPayload) :
    Except String Response :=
  match s.env.marshal payload with
  | .error e => .error ("failed to marshal webhook payload: " ++ e)
  | .ok body =>
    match SignPayload s.env.hmacSHA256 body s.signatureSecret with
    | .error e => .error ("failed to sign webhook payload: " ++ e)
    | .ok signature =>
      match s.env.newRequest url with
      | some e => .error ("failed to create webhook request: " ++ e)
      | none =>
        match s.env.doRequest url body
            [("Content-Type", ContentTypeJSON), (s.signatureHeader, signature)] with
        | .error e => .error ("failed to make POST request: " ++ e)
        | .ok resp => .ok resp

def fireEvent (s : Service) (event url payload : String) : Except String Unit :=
  let reqData : WebhookRequestPayload := { Event := event, Data := payload }
  match s.Send url reqData with
  | .error e => .error ("failed to send webhook event: " ++ e)
  | .ok resp =>
    if resp.StatusCode ≠ StatusOK then .error ("failed to send webhook event: " ++ resp.Status)
    else .ok ()

def FireEvent (s : Service) (event payload : String) : Except String Unit :=
  if s.webhookURI = "" then .error "webhook uri is not set"
  else s.fireEvent event s.webhookURI payload

end Service

/-- The payload of the task `webhook:fire_event`. -/
structure FireEventPayload where
  Event : String
  Payload : String
deriving DecidableEq, Repr

/-- The task handler; `task` is the result of decoding the task payload (`none`
when `json.Unmarshal` fails). -/
def Worker.FireEvent (svc : Service) (task : Option FireEventPayload) : Except String Unit :=
  match task with
  | none => .error "failed to unmarshal payload"
  | some p =>
    match svc.FireEvent p.Event p.Payload with
    | .error e => .error ("failed to fire webhook event: " ++ e)
    | .ok () => .ok ()

end Webhook

/-- A merchant endpoint that answers every request with the given status. -/
def Example.webhook (statusCode : Nat) (status : String) : Webhook.Service :=
  { env :=
      { marshal := fun p => .ok (p.Event.data.map Char.toNat ++ p.Data.data.map Char.toNat)
        hmacSHA256 := Example.digest
        newRequest := fun _ => none
        doRequest := fun _ _ _ => .ok ⟨statusCode, status⟩ }
    signatureHeader := "X-Webhook-Signature"
    signatureSecret := Example.secretBytes
    webhookURI := "https://merchant.example/hook" }

/-! ## Websocket channel hub (`events/websocket.go`)

A connection is identified by its pointer. A Go slice is a header (pointer,
length, capacity) over a backing array; two headers over the same array see each
other's writes. -/

abbrev Conn := Nat

/-- A slice of connections: the backing array and the length of the header; the
capacity is the length of the array. -/
structure ConnSlice where
  array : List Conn
  len : Nat
deriving DecidableEq, Repr

namespace ConnSlice

/-- The elements `s[0], ..., s[len-1]`. -/
def elems (s : ConnSlice) : List Conn := s.array.take s.len

/-- Go `append(s, conn)`: written in place when the capacity allows, else to a
new array. How much spare capacity a new array gets is not visible through the
hub, which keeps one header per channel; the new array is taken without spare
capacity. -/
def push (s : ConnSlice) (conn : Conn) : ConnSlice :=
  if s.len < s.array.length then { array := s.array.set s.len conn, len := s.len + 1 }
  else { array := s.elems ++ [conn], len := s.len + 1 }

/-- The backing array after Go `append(s[:i], s[i+1:]...)` for `i < len`: the
elements `s[i+1], ..., s[len-1]` are copied to the positions `i, ..., len-2`; they
fit the capacity, so no new array is made, and position `len-1` keeps its
element. The header the call returns has length `len-1`. -/
def shiftLeft (s : ConnSlice) (i : Nat) : ConnSlice :=
  { array := s.array.take i ++ (s.array.take s.len).drop (i + 1) ++ s.array.drop (s.len - 1)
    len := s.len - 1 }

end ConnSlice

/-- The loop `for i, c := range clients` of `Remove`: the first index, counted
from `i`, whose element is `conn`. -/
def findConn (conn : Conn) : List Conn → Nat → Option Nat
  | [], _ => none
  | c :: rest, i => if c = conn then some i else findConn conn rest (i + 1)

/-- The hub: the map `clients`; a channel without entry has the nil slice. -/
structure channelHub where
  clients : String → ConnSlice

def newChannelHub : channelHub := { clients := fun _ => ⟨[], 0⟩ }

namespace channelHub

def Add (h : channelHub) (channel : String) (conn : Conn) : channelHub :=
  { clients := fun ch => if ch = channel then (h.clients channel).push conn else h.clients ch }

/-- The local variable `clients` is assigned the shortened header, and the map
entry is not assigned: it keeps its header, with the old length, over the backing
array that `append` has written to. -/
def Remove (h : channelHub) (channel : String) (conn : Conn) : channelHub :=
  let clients := h.clients channel
  match findConn conn clients.elems 0 with
  | none => h
  | some i =>
    let clients' := clients.shiftLeft i
    { clients := fun ch =>
        if ch = channel then { array := clients'.array, len := clients.len }
        else h.clients ch }

def Get (h : channelHub) (channel : String) : List Conn := (h.clients channel).elems

end channelHub

/-- The body of `case event := <-b.broadcast` in `EventBroadcaster.Run`, from
position `k` of the slice returned by `Get`: that slice has `n` elements and
shares its backing array with the map entry, so each element is read from the
array as it is at that moment. `writeFails` tells for which connections
`WriteJSON` returns an error. The result is the hub after the loop and the
connections `WriteJSON` was called on, in order. -/
def broadcastFrom (writeFails : Conn → Bool) (channel : String) :
    Nat → Nat → channelHub → channelHub × List Conn
  | 0, _, h => (h, [])
  | n + 1, k, h =>
    match (h.clients channel).array.get? k with
    | none => (h, [])
    | some client =>
      let h' := if writeFails client then h.Remove channel client else h
      let r := broadcastFrom writeFails channel n (k + 1) h'
      (r.1, client :: r.2)

/-- One event delivered to a channel. -/
def EventBroadcaster.deliver (writeFails : Conn → Bool) (h : channelHub) (channel : String) :
    channelHub × List Conn :=
  broadcastFrom writeFails channel (h.Get channel).length 0 h

/-! ## Sweep of pending attempts (`payments/enqueuer.go`, `payments/worker.go`) -/

def TaskCheckPaymentByReference : String := "check_payment_by_reference"

/-- A task of the queue: its type name and its payload. The payload of
`check_payment_by_reference` is the JSON object with the one field `reference`;
it is identified with the value of that field. -/
structure Task where
  Typename : String
  Payload : String
deriving DecidableEq, Repr

/-- The call `client.Enqueue(task, opts...)` of the queue library with the
options `enqueueTask` sets, among them `asynq.Unique`: the queue holds the tasks
whose uniqueness lock is taken, and a task that is already there is refused with
`ErrDuplicateTask`. -/
def asynqEnqueue (queue : List Task) (task : Task) : Except String Unit × List Task :=
  if task ∈ queue then (.error "task already exists", queue)
  else (.ok (), queue ++ [task])

namespace Enqueuer

def enqueueTask (queue : List Task) (task : Task) : Except String Unit × List Task :=
  match asynqEnqueue queue task with
  | (.error e, queue) => (.error ("failed to enqueue task: " ++ e), queue)
  | (.ok (), queue) => (.ok (), queue)

def CheckPaymentByReference (queue : List Task) (reference : String) :
    Except String Unit × List Task :=
  match enqueueTask queue ⟨TaskCheckPaymentByReference, reference⟩ with
  | (.error e, queue) => (.error ("CheckPaymentByReference: " ++ e), queue)
  | (.ok (), queue) => (.ok (), queue)

end Enqueuer

namespace Worker

/-- The loop of `CheckPendingTransactions` over the pending attempts, for an
enqueuer (interface `paymentEnqueuer`) over a queue state `σ`. -/
def enqueueEach {σ : Type} (enq : σ → String → Except String Unit × σ) :
    List Transaction → σ → Except String Unit × σ
  | [], q => (.ok (), q)
  | tx :: rest, q =>
    match enq q tx.Reference with
    | (.error e, q) =>
      (.error ("failed to enqueue check payment by reference task: " ++ e), q)
    | (.ok (), q) => enqueueEach enq rest q

/-- The handler; `pending` is the answer of `GetPendingTransactions`. -/
def CheckPendingTransactions {σ : Type} (pending : Except String (List Transaction))
    (enq : σ → String → Except String Unit × σ) (q : σ) : Except String Unit × σ :=
  match pending with
  | .error e => (.error ("failed to get pending transactions: " ++ e), q)
  | .ok txs => enqueueEach enq txs q

end Worker

/-- The task the sweep enqueues for an attempt. -/
def referenceTask (tx : Transaction) : Task := ⟨TaskCheckPaymentByReference, tx.Reference⟩

/-- A pending attempt with the given reference. -/
def Example.pending (reference : String) : Transaction :=
  { Example.built false 100 0 100 with
    Reference := reference, Status := TransactionStatusPending }

/-- The example SDK with a key parser that, like `types.AccountFromBase58`,
rejects the empty text: a private key has 64 bytes. -/
def Example.keySdk : SDK :=
  { Example.sdk with
    AccountFromBase58 := fun key =>
      if key = "" then .error "zero length string" else .ok "BonusAuth" }

/-- The policy of a merchant without a bonus programme: both flags off, no
bonus mint and no bonus authority key. -/
def Example.plainConfig : Config :=
  { Example.config 0 0 with ApplyBonus := false, BonusMintAddress := "", BonusAuthAccount := "" }

/-! # Theorems -/

/-! ## Arithmetic and the builder -/

theorem subU64_of_le {a b : Nat} (h : b ≤ a) (ha : a < U64) : subU64 a b = a - b := by
  unfold subU64 U64 at *
  have hb : b < 2 ^ 64 := lt_of_le_of_lt h ha
  rw [Nat.mod_eq_of_lt ha, Nat.mod_eq_of_lt hb]
  omega

theorem mulU64_le (a b : Nat) : mulU64 a b ≤ a * b := Nat.mod_le _ _

theorem mulU64_of_lt {a b : Nat} (h : a * b < U64) : mulU64 a b = a * b :=
  Nat.mod_eq_of_lt h

/-- The discount chosen by the third branch of `recalculateTotalAmount`. -/
theorem recalculate_discount_zero (b : PaymentBuilder) (tx : Transaction)
    (hd : tx.DiscountAmount = 0) :
    (b.recalculateTotalAmount tx).DiscountAmount ≤ b.availableBonusAmount ∧
    (b.config.MaxApplyBonusAmount > 0 →
      (b.recalculateTotalAmount tx).DiscountAmount ≤ b.config.MaxApplyBonusAmount) ∧
    (b.config.MaxApplyBonusPercent > 0 →
      (b.recalculateTotalAmount tx).DiscountAmount ≤
        (b.recalculateTotalAmount tx).Amount * b.config.MaxApplyBonusPercent / 10000) := by
  unfold PaymentBuilder.recalculateTotalAmount
  have hm := mulU64_le tx.Amount b.config.MaxApplyBonusPercent
  have hdiv : mulU64 tx.Amount b.config.MaxApplyBonusPercent / 10000 ≤
      tx.Amount * b.config.MaxApplyBonusPercent / 10000 := Nat.div_le_div_right hm
  by_cases h1 : tx.Amount = 0 ∧ tx.TotalAmount > 0
  · simp [h1, hd]
  · by_cases h3 : b.tx.ApplyBonus = true ∧ b.availableBonusAmount > 0
    · simp only [h1, hd, h3, if_false, if_true, gt_iff_lt, lt_self_iff_false, false_and,
        and_self, Nat.not_lt_zero]
      refine ⟨?_, ?_, ?_⟩
      · split_ifs <;> omega
      · intro h; split_ifs <;> omega
      · intro h; split_ifs <;> omega
    · simp [h1, hd, h3]

theorem TransactionBuilder.build_encodes {sdk : SDK} {b : TransactionBuilder} {s : String}
    (h : b.Build sdk = .ok s) :
    ∃ w, b.message = .ok w ∧ sdk.EncodeTransaction w = .ok s := by
  unfold TransactionBuilder.Build at h
  split at h
  · cases h
  · rename_i w hw
    split at h
    · cases h
    · rename_i s' hs
      simp only [Except.ok.injEq] at h
      exact ⟨w, hw, h ▸ hs⟩

theorem Build_ok {sdk : SDK} {b : PaymentBuilder} {s : String} {tx' : Transaction}
    (h : b.Build sdk = .ok (s, tx')) :
    b.validate = .ok () ∧
    ∃ builder, b.recalculated.composed sdk = .ok builder ∧
      (b.recalculated.mintBonus sdk builder).2.Build sdk = .ok s ∧
      tx' = (b.recalculated.mintBonus sdk builder).1.tx := by
  unfold PaymentBuilder.Build at h
  split at h
  · cases h
  · rename_i hv
    refine ⟨hv, ?_⟩
    simp only at h
    split at h
    · cases h
    · rename_i builder hs
      split at h
      · cases h
      · rename_i base64Tx hb
        simp only [Except.ok.injEq, Prod.mk.injEq] at h
        refine ⟨if IsSOL b.recalculated.tx.DestinationMint then b.recalculated.transferSOL builder
          else b.recalculated.transferToken sdk builder, ?_, ?_, ?_⟩
        · have hs' : b.recalculated.swap sdk (b.recalculated.burnBonus sdk
              ((NewTransactionBuilder (some b.recalculated.sol)).SetFeePayer
                b.recalculated.tx.SourceWallet)) = .ok builder := hs
          unfold PaymentBuilder.composed
          rw [hs']
        · rw [← h.1]; exact hb
        · exact h.2.symm

theorem Build_wire {sdk : SDK} {b : PaymentBuilder} {s : String} {tx' : Transaction}
    (h : b.Build sdk = .ok (s, tx')) :
    ∃ w, b.wire sdk = .ok w ∧ sdk.EncodeTransaction w = .ok s := by
  obtain ⟨_, builder, hc, hb, _⟩ := Build_ok h
  obtain ⟨w, hw, he⟩ := TransactionBuilder.build_encodes hb
  refine ⟨w, ?_, he⟩
  unfold PaymentBuilder.wire
  rw [hc]
  exact hw

theorem mintBonus_tx_amounts (sdk : SDK) (b : PaymentBuilder) (builder : TransactionBuilder) :
    (b.mintBonus sdk builder).1.tx.Amount = b.tx.Amount ∧
    (b.mintBonus sdk builder).1.tx.DiscountAmount = b.tx.DiscountAmount ∧
    (b.mintBonus sdk builder).1.tx.TotalAmount = b.tx.TotalAmount ∧
    (b.mintBonus sdk builder).1.tx.Reference = b.tx.Reference ∧
    (b.mintBonus sdk builder).1.tx.ApplyBonus = b.tx.ApplyBonus := by
  unfold PaymentBuilder.mintBonus
  by_cases ha : (!b.config.AccrueBonus) = true
  · simp [ha]
  · by_cases hz : mulU64 b.tx.TotalAmount b.config.AccrueBonusRate / 10000 = 0
    · simp [ha, hz]
    · simp [ha, hz]

theorem recalculate_total (b : PaymentBuilder) (tx : Transaction)
    (hT : tx.TotalAmount = tx.Amount - tx.DiscountAmount)
    (hD : tx.DiscountAmount ≤ tx.Amount) (hA : tx.Amount < U64) :
    (b.recalculateTotalAmount tx).DiscountAmount ≤ (b.recalculateTotalAmount tx).Amount ∧
    (b.recalculateTotalAmount tx).TotalAmount =
      (b.recalculateTotalAmount tx).Amount - (b.recalculateTotalAmount tx).DiscountAmount := by
  unfold PaymentBuilder.recalculateTotalAmount
  by_cases h1 : tx.Amount = 0 ∧ tx.TotalAmount > 0
  · omega
  · by_cases h2 : tx.DiscountAmount > 0 ∧ tx.Amount > 0
    · rw [if_neg h1, if_pos h2]
      simp only [Nat.not_lt_zero, if_false]
      exact ⟨hD, subU64_of_le hD hA⟩
    · have hD0 : tx.DiscountAmount = 0 := by omega
      have hTA : tx.TotalAmount = tx.Amount := by omega
      by_cases h3 : b.tx.ApplyBonus = true ∧ b.availableBonusAmount > 0
      · rw [if_neg h1, if_neg h2, if_pos h3]
        have key : ∀ m, m ≤ tx.Amount → subU64 tx.TotalAmount m = tx.Amount - m :=
          fun m hm => by rw [hTA]; exact subU64_of_le hm hA
        simp only [Nat.not_lt_zero, if_false]
        split_ifs <;> exact ⟨by omega, key _ (by omega)⟩
      · rw [if_neg h1, if_neg h2, if_neg h3]
        exact ⟨hD, hT⟩

/-! ## C1 to C3: discount and total of a built attempt -/

/-- C1 (the code departs from the claim): for the payment amount
4 000 000 000 000 000, a bonus balance of the same size, no absolute cap and a
percent cap of 5000 basis points, a fresh draft with `apply_bonus = true` is
built with discount 155 325 592 629 044 and total 3 844 674 407 370 956, while
the exact minimum `min(available, A, A * 5000 / 10000)` of the claim is
2 000 000 000 000 000: the product `A * 5000` is taken modulo `2 ^ 64`. -/
theorem c1_percent_cap_wraps :
    Example.amounts (Example.build (Example.config 0 5000) 4000000000000000
        (Example.draft true) (Example.payment 4000000000000000)) =
      some (4000000000000000, 155325592629044, 3844674407370956) ∧
    min 4000000000000000 (min 4000000000000000 (4000000000000000 * 5000 / 10000)) =
      2000000000000000 ∧
    mulU64 4000000000000000 5000 / 10000 = 155325592629044 := by
  decide

/-- C2 (counterexample): a draft that already carries `total_amount = 5`, built
for a payment of 100 without bonus, succeeds with amount 100, discount 0 and
total 5, so total + discount is not the amount. -/
theorem c2_preset_total_kept :
    Example.amounts (Example.build (Example.config 0 0) 0
        { Example.draft false with TotalAmount := 5 } (Example.payment 100)) =
      some (100, 0, 5) ∧ ¬ (5 + 0 = 100) := by
  decide

/-- C2 (amended): for every draft with `total_amount = 0` whose discount does
not exceed the payment amount, a successful `Build` returns an attempt with
`total_amount = max(0, amount - discount_amount)` over the integers, hence
`total_amount + discount_amount = amount`. -/
theorem c2_total_of_unset_total (sdk : SDK) (b : PaymentBuilder) (draft : Transaction)
    (p : Payment) (s : String) (tx' : Transaction)
    (hT : draft.TotalAmount = 0) (hD : draft.DiscountAmount ≤ p.Amount)
    (hA : p.Amount < U64)
    (h : (b.SetTransaction draft p).Build sdk = .ok (s, tx')) :
    (tx'.TotalAmount : Int) = max 0 ((tx'.Amount : Int) - (tx'.DiscountAmount : Int)) ∧
    tx'.TotalAmount + tx'.DiscountAmount = tx'.Amount := by
  obtain ⟨_, builder, _, _, rfl⟩ := Build_ok h
  obtain ⟨e1, e2, e3, _, _⟩ :=
    mintBonus_tx_amounts sdk (b.SetTransaction draft p).recalculated builder
  rw [e1, e2, e3]
  have hT0 : (b.SetTransaction draft p).tx.TotalAmount =
      (b.SetTransaction draft p).tx.Amount - (b.SetTransaction draft p).tx.DiscountAmount := by
    show (if draft.TotalAmount = 0 then subU64 p.Amount draft.DiscountAmount
      else draft.TotalAmount) = p.Amount - draft.DiscountAmount
    rw [if_pos hT, subU64_of_le hD hA]
  have key := recalculate_total
    { b.SetTransaction draft p with
      availableBonusAmount :=
        ((b.SetTransaction draft p).sol.GetTokenBalance (b.SetTransaction draft p).tx.SourceWallet
          (b.SetTransaction draft p).config.BonusMintAddress).1 }
    (b.SetTransaction draft p).tx hT0 hD hA
  have k1 : (b.SetTransaction draft p).recalculated.tx.DiscountAmount ≤
      (b.SetTransaction draft p).recalculated.tx.Amount := key.1
  have k2 : (b.SetTransaction draft p).recalculated.tx.TotalAmount =
      (b.SetTransaction draft p).recalculated.tx.Amount -
        (b.SetTransaction draft p).recalculated.tx.DiscountAmount := key.2
  constructor
  · rw [k2, max_eq_right (by omega)]
    omega
  · omega

/-- C2 (amended), at the draft of scenario 2: amount 1 000 000, discount
100 000, total 900 000. -/
theorem c2_total_of_unset_total_witness :
    (((Example.built true 1000000 100000 900000).TotalAmount : Int) =
      max 0 (((Example.built true 1000000 100000 900000).Amount : Int) -
        ((Example.built true 1000000 100000 900000).DiscountAmount : Int))) ∧
    (Example.built true 1000000 100000 900000).TotalAmount +
      (Example.built true 1000000 100000 900000).DiscountAmount =
      (Example.built true 1000000 100000 900000).Amount :=
  c2_total_of_unset_total Example.sdk (Example.builder 200000 1000 500000)
    (Example.draft true) (Example.payment 1000000) "base64"
    (Example.built true 1000000 100000 900000) rfl (by decide) (by decide) rfl

/-- C3 (counterexample): a draft that already carries `discount_amount = 50`,
built for a payment of 100 while the buyer's bonus balance is 0, succeeds with
discount 50, above the balance read during the build. -/
theorem c3_preset_discount_kept :
    Example.amounts (Example.build (Example.config 200000 1000) 0
        { Example.draft false with DiscountAmount := 50 } (Example.payment 100)) =
      some (100, 50, 50) ∧
    ((Example.sol 0).GetTokenBalance "Buyer" "BonusMint").1 = 0 := by
  decide

/-- C3 (amended): for every draft with `discount_amount = 0`, the attempt
produced by a successful `Build` has a discount that is at most the bonus
balance read during the build, at most `MaxApplyBonusAmount` when that is
positive, and at most `amount * MaxApplyBonusPercent / 10000` in exact
arithmetic when the percent cap is positive. -/
theorem c3_discount_caps (sdk : SDK) (b : PaymentBuilder) (draft : Transaction)
    (p : Payment) (s : String) (tx' : Transaction)
    (hD : draft.DiscountAmount = 0)
    (h : (b.SetTransaction draft p).Build sdk = .ok (s, tx')) :
    tx'.DiscountAmount ≤
      (b.sol.GetTokenBalance draft.SourceWallet b.config.BonusMintAddress).1 ∧
    (b.config.MaxApplyBonusAmount > 0 → tx'.DiscountAmount ≤ b.config.MaxApplyBonusAmount) ∧
    (b.config.MaxApplyBonusPercent > 0 →
      tx'.DiscountAmount ≤ tx'.Amount * b.config.MaxApplyBonusPercent / 10000) := by
  obtain ⟨_, builder, _, _, rfl⟩ := Build_ok h
  obtain ⟨e1, e2, _, _, _⟩ :=
    mintBonus_tx_amounts sdk (b.SetTransaction draft p).recalculated builder
  rw [e1, e2]
  exact recalculate_discount_zero
    { b.SetTransaction draft p with
      availableBonusAmount :=
        ((b.SetTransaction draft p).sol.GetTokenBalance (b.SetTransaction draft p).tx.SourceWallet
          (b.SetTransaction draft p).config.BonusMintAddress).1 }
    (b.SetTransaction draft p).tx hD

/-- C3 (amended), at the draft of scenario 2: discount 100 000 against balance
500 000, absolute cap 200 000 and percent cap 100 000. -/
theorem c3_discount_caps_witness :
    (Example.built true 1000000 100000 900000).DiscountAmount ≤
      ((Example.builder 200000 1000 500000).sol.GetTokenBalance
        (Example.draft true).SourceWallet
        (Example.builder 200000 1000 500000).config.BonusMintAddress).1 ∧
    ((Example.builder 200000 1000 500000).config.MaxApplyBonusAmount > 0 →
      (Example.built true 1000000 100000 900000).DiscountAmount ≤
        (Example.builder 200000 1000 500000).config.MaxApplyBonusAmount) ∧
    ((Example.builder 200000 1000 500000).config.MaxApplyBonusPercent > 0 →
      (Example.built true 1000000 100000 900000).DiscountAmount ≤
        (Example.built true 1000000 100000 900000).Amount *
          (Example.builder 200000 1000 500000).config.MaxApplyBonusPercent / 10000) :=
  c3_discount_caps Example.sdk (Example.builder 200000 1000 500000)
    (Example.draft true) (Example.payment 1000000) "base64"
    (Example.built true 1000000 100000 900000) rfl rfl

/-! ## C4: terminal payments -/

theorem paymentEdge_of_terminal {cur : String} (h : terminalStatus cur) (new : String) :
    paymentEdge cur new = false := by
  rcases h with h | h | h | h <;> subst h <;>
    simp [paymentEdge, RepoPaymentStatusNew, RepoPaymentStatusPending,
      RepoPaymentStatusCompleted, RepoPaymentStatusFailed, RepoPaymentStatusCanceled,
      RepoPaymentStatusExpired]

theorem Store.UpdatePaymentStatus_terminal {st : Store} {p : RepoPayment} {status : String}
    (hfind : st.payments.find? (fun q => q.ID = p.ID) = some p)
    (hterm : terminalStatus p.Status) (hne : p.Status ≠ status) :
    st.UpdatePaymentStatus p.ID status = (.error "conflict", st) := by
  unfold Store.UpdatePaymentStatus
  rw [hfind]
  simp only [if_neg hne, paymentEdge_of_terminal hterm]
  rfl

theorem castTo_ne_of_terminal {cur : String} (h : terminalStatus cur) {status : PaymentStatus}
    (hne : status ≠ castFromRepositoryPaymentStatus cur) :
    cur ≠ castToRepositoryPaymentStatus status := by
  intro heq
  apply hne
  unfold castToRepositoryPaymentStatus at heq
  rcases h with h | h | h | h <;> subst h <;>
    simp only [castFromRepositoryPaymentStatus, RepoPaymentStatusNew, RepoPaymentStatusPending,
      RepoPaymentStatusCompleted, RepoPaymentStatusFailed, RepoPaymentStatusCanceled,
      RepoPaymentStatusExpired, PaymentStatusNew, PaymentStatusPending,
      PaymentStatusCompleted, PaymentStatusFailed, PaymentStatusCanceled,
      PaymentStatusExpired] at heq ⊢ <;>
    split_ifs at heq <;> simp_all

/-- C4: for a stored payment in a terminal state, `UpdatePaymentStatus` with a
different status, and `CancelPayment` and `CancelPaymentByExternalID` when the
payment is not already canceled, return an error, leave the store as it is and
fire no event; this holds for the service and for its event decorator. -/
theorem c4_terminal_rejects (svc : ServiceEvents) (st : Store) (p : RepoPayment)
    (status : PaymentStatus) (externalID : String)
    (hfind : st.payments.find? (fun q => q.ID = p.ID) = some p)
    (hterm : terminalStatus p.Status) :
    (status ≠ castFromRepositoryPaymentStatus p.Status →
      (∃ e, svc.inner.UpdatePaymentStatus st p.ID status = (.error e, st)) ∧
      (∃ e, svc.UpdatePaymentStatus st p.ID status = (.error e, st, []))) ∧
    (p.Status ≠ RepoPaymentStatusCanceled →
      (∃ e, svc.inner.CancelPayment st p.ID = (.error e, st)) ∧
      (∃ e, svc.CancelPayment st p.ID = (.error e, st, [])) ∧
      (st.payments.find? (fun q => q.ExternalID.Valid && q.ExternalID.String = externalID)
          = some p →
        (∃ e, svc.inner.CancelPaymentByExternalID st externalID = (.error e, st)) ∧
        (∃ e, svc.CancelPaymentByExternalID st externalID = (.error e, st, [])))) := by
  refine ⟨fun hne => ?_, fun hne => ?_⟩
  · have hu := Store.UpdatePaymentStatus_terminal hfind hterm (castTo_ne_of_terminal hterm hne)
    have h1 : svc.inner.UpdatePaymentStatus st p.ID status =
        (.error ("failed to update payment status: " ++ "conflict"), st) := by
      unfold Service.UpdatePaymentStatus
      rw [hu]
    refine ⟨⟨_, h1⟩, ?_⟩
    unfold ServiceEvents.UpdatePaymentStatus Service.GetPayment Store.GetPayment
    rw [hfind]
    simp only [h1]
    exact ⟨_, rfl⟩
  · have hu := Store.UpdatePaymentStatus_terminal hfind hterm hne
    have h1 : svc.inner.CancelPayment st p.ID =
        (.error ("failed to update payment status: " ++ "conflict"), st) := by
      unfold Service.CancelPayment
      rw [hu]
    refine ⟨⟨_, h1⟩, ?_, fun hext => ?_⟩
    · unfold ServiceEvents.CancelPayment
      rw [h1]
      exact ⟨_, rfl⟩
    · have h2 : svc.inner.CancelPaymentByExternalID st externalID =
          (.error ("failed to update payment status: " ++ "conflict"), st) := by
        unfold Service.CancelPaymentByExternalID Service.GetPaymentByExternalID
          Store.GetPaymentByExternalID
        rw [hext]
        simp only [castFromRepositoryPayment]
        rw [hu]
      refine ⟨⟨_, h2⟩, ?_⟩
      unfold ServiceEvents.CancelPaymentByExternalID Service.GetPaymentByExternalID
        Store.GetPaymentByExternalID
      rw [hext]
      simp only [h2]
      exact ⟨_, rfl⟩

/-- C4, at the expired payment of scenario 4: a later completion request, cancel
and cancel by external id are rejected, the store is unchanged and no event is
fired. -/
theorem c4_terminal_rejects_witness :
    (∃ e, ServiceEvents.UpdatePaymentStatus ⟨Example.service⟩
        (Example.store RepoPaymentStatusExpired []) "p1" PaymentStatusCompleted =
      (.error e, Example.store RepoPaymentStatusExpired [], [])) ∧
    (∃ e, ServiceEvents.CancelPayment ⟨Example.service⟩
        (Example.store RepoPaymentStatusExpired []) "p1" =
      (.error e, Example.store RepoPaymentStatusExpired [], [])) ∧
    (∃ e, ServiceEvents.CancelPaymentByExternalID ⟨Example.service⟩
        (Example.store RepoPaymentStatusExpired []) "order-1" =
      (.error e, Example.store RepoPaymentStatusExpired [], [])) :=
  have h := c4_terminal_rejects ⟨Example.service⟩ (Example.store RepoPaymentStatusExpired [])
    (Example.storedPayment RepoPaymentStatusExpired) PaymentStatusCompleted "order-1"
    rfl (by decide)
  ⟨(h.1 (by decide)).2, (h.2 (by decide)).2.1, ((h.2 (by decide)).2.2 rfl).2⟩

/-! ## C5: the listener for `transaction.updated` -/

/-- C5 (counterexample): for a payload whose attempt status is `failed`, the
listener asks the service to move payment `p1` to `failed`. -/
theorem c5_failed_is_requested :
    UpdateTransactionStatusListener recordingService (fun s => .ok s) TransactionUpdated
        (.transactionUpdated ⟨"p1", "Ref", TransactionStatusFailed, ""⟩) [] =
      (.ok (), [("p1", PaymentStatusFailed)]) := by
  rfl

/-- C5 (amended): given a `transaction.updated` payload whose payment id parses
to `pid`, the listener forwards exactly one request to the service, for
`completed` when the attempt status is completed and for `failed` when it is
failed, and makes no request when the attempt status is pending. -/
theorem c5_listener_requests {σ : Type} (service : UpdatePaymentStatusFn σ)
    (parse : String → Except String UUID) (event : EventName)
    (p : TransactionUpdatedPayload) (pid : UUID) (s : σ)
    (hparse : parse p.PaymentID = .ok pid) :
    (p.Status = TransactionStatusCompleted →
      UpdateTransactionStatusListener service parse event (.transactionUpdated p) s =
        service s pid PaymentStatusCompleted) ∧
    (p.Status = TransactionStatusFailed →
      UpdateTransactionStatusListener service parse event (.transactionUpdated p) s =
        service s pid PaymentStatusFailed) ∧
    (p.Status = TransactionStatusPending →
      UpdateTransactionStatusListener service parse event (.transactionUpdated p) s =
        (.ok (), s)) := by
  refine ⟨fun h => ?_, fun h => ?_, fun h => ?_⟩
  · simp [UpdateTransactionStatusListener, h, hparse, TransactionStatusCompleted,
      TransactionStatusPending]
  · simp [UpdateTransactionStatusListener, h, hparse, TransactionStatusCompleted,
      TransactionStatusPending, TransactionStatusFailed]
  · simp [UpdateTransactionStatusListener, h]

/-- C5 (amended), on the recording service: completed asks for completed, failed
asks for failed, pending asks for nothing. -/
theorem c5_listener_requests_witness :
    UpdateTransactionStatusListener recordingService (fun s => .ok s) TransactionUpdated
        (.transactionUpdated ⟨"p1", "Ref", TransactionStatusCompleted, "sig"⟩) [] =
      (.ok (), [("p1", PaymentStatusCompleted)]) :=
  (c5_listener_requests recordingService (fun s => .ok s) TransactionUpdated
    ⟨"p1", "Ref", TransactionStatusCompleted, "sig"⟩ "p1" [] rfl).1 rfl

/-! ## C8 and C9: the reconciler -/

theorem Worker.loop_result (reference : String) (ticks : List Tick) :
    (Worker.loop reference ticks).1 = .ok () := by
  induction ticks with
  | nil => rfl
  | cons t rest ih =>
    unfold Worker.loop
    split
    · exact ih
    · split_ifs
      · rfl
      · simp only
        split
        · exact ih
        · split
          · exact ih
          · rfl

theorem Worker.loop_updates (reference : String) (ticks : List Tick)
    (r : String) (status : TransactionStatus) (sig : String)
    (h : Call.update r status sig ∈ (Worker.loop reference ticks).2) :
    r = reference ∧ status = TransactionStatusCompleted ∧
      ∃ t ∈ ticks, matchedAt reference t sig = true := by
  induction ticks with
  | nil => simp [Worker.loop] at h
  | cons t rest ih =>
    unfold Worker.loop at h
    split at h
    · obtain ⟨h1, h2, t', ht', hm⟩ := ih h
      exact ⟨h1, h2, t', List.mem_cons_of_mem _ ht', hm⟩
    · rename_i tx hget
      split_ifs at h with hst
      · simp at h
      · simp only at h
        have hp : tx.Status = TransactionStatusPending := by
          by_contra hc; exact hst hc
        split at h
        · simp only [List.mem_cons] at h
          rcases h with h | h
          · cases h
          · obtain ⟨h1, h2, t', ht', hm⟩ := ih h
            exact ⟨h1, h2, t', List.mem_cons_of_mem _ ht', hm⟩
        · rename_i txSign hval
          have here : matchedAt reference t txSign = true := by
            simp [matchedAt, hget, hp, hval]
          split at h
          · simp only [List.mem_cons] at h
            rcases h with h | h | h
            · cases h
            · cases h
              exact ⟨rfl, rfl, t, List.mem_cons_self _ _, here⟩
            · obtain ⟨h1, h2, t', ht', hm⟩ := ih h
              exact ⟨h1, h2, t', List.mem_cons_of_mem _ ht', hm⟩
          · simp only [List.mem_cons] at h
            rcases h with h | h | h
            · cases h
            · cases h
              exact ⟨rfl, rfl, t, List.mem_cons_self _ _, here⟩
            · cases h

/-- C8: for a payload that decodes to `reference`, the handler returns success
whatever the ticks before the deadline bring; every `UpdateTransaction` call it
makes is for `reference`, with status completed and with the signature the
validator returned at a tick where the attempt was read as pending; and if at no
tick the read and the validation both succeed on a pending attempt, it makes no
`UpdateTransaction` call. -/
theorem c8_reconciler (reference : String) (ticks : List Tick) :
    (Worker.CheckPaymentByReference (some reference) ticks).1 = .ok () ∧
    (∀ r status sig,
      Call.update r status sig ∈ (Worker.CheckPaymentByReference (some reference) ticks).2 →
        r = reference ∧ status = TransactionStatusCompleted ∧
          ∃ t ∈ ticks, matchedAt reference t sig = true) ∧
    ((∀ t ∈ ticks, ∀ sig, matchedAt reference t sig = false) →
      ∀ r status sig,
        Call.update r status sig ∉ (Worker.CheckPaymentByReference (some reference) ticks).2) := by
  refine ⟨Worker.loop_result reference ticks, fun r status sig h =>
    Worker.loop_updates reference ticks r status sig h, fun hno r status sig h => ?_⟩
  obtain ⟨_, _, t, ht, hm⟩ := Worker.loop_updates reference ticks r status sig h
  rw [hno t ht sig] at hm
  cases hm

/-- C8, on a run of two ticks: the read fails at the first, the second finds the
pending attempt and a matching transfer; the handler succeeds and its only
update is `(Ref, completed, sig)`. -/
theorem c8_reconciler_witness :
    (Worker.CheckPaymentByReference (some "Ref")
        [Example.matchingTick (Example.store RepoPaymentStatusNew []),
         Example.matchingTick (Example.store RepoPaymentStatusNew
          [Example.storedAttempt RepoTransactionStatusPending])]).1 = .ok () ∧
    Call.update "Ref" TransactionStatusCompleted "sig" ∈
      (Worker.CheckPaymentByReference (some "Ref")
        [Example.matchingTick (Example.store RepoPaymentStatusNew []),
         Example.matchingTick (Example.store RepoPaymentStatusNew
          [Example.storedAttempt RepoTransactionStatusPending])]).2 :=
  ⟨(c8_reconciler "Ref"
      [Example.matchingTick (Example.store RepoPaymentStatusNew []),
       Example.matchingTick (Example.store RepoPaymentStatusNew
        [Example.storedAttempt RepoTransactionStatusPending])]).1, by decide⟩

/-- The part of C9 that holds: an attempt stored as completed or failed is read
with that status, and the handler returns at the first tick without any call. -/
theorem Worker.loop_finished (reference : String) (t : Tick) (rest : List Tick)
    (tx : Transaction) (hget : t.GetTransactionByReference reference = .ok tx)
    (hst : tx.Status ≠ TransactionStatusPending) :
    Worker.loop reference (t :: rest) = (.ok (), []) := by
  unfold Worker.loop
  rw [hget]
  simp only [if_pos hst]

/-- C9 (the code departs from the claim): for an attempt stored with status
`expired`, the service reads it back as `pending`, and the handler calls the
ledger validator and then `UpdateTransaction(Ref, completed, sig)` at its first
tick instead of returning: `castFromRepositoryTransactionStatus` has no case for
`expired` and falls through to pending. -/
theorem c9_expired_read_as_pending :
    (Example.storedAttempt RepoTransactionStatusExpired).Status = "expired" ∧
    (Example.service.GetTransactionByReference
        (Example.store RepoPaymentStatusExpired
          [Example.storedAttempt RepoTransactionStatusExpired]) "Ref").toOption.map
        (fun tx => tx.Status) = some TransactionStatusPending ∧
    (Worker.CheckPaymentByReference (some "Ref")
        [Example.matchingTick (Example.store RepoPaymentStatusExpired
          [Example.storedAttempt RepoTransactionStatusExpired])]).2 =
      [Call.validate "Ref" "Merchant" 100 USDC,
       Call.update "Ref" TransactionStatusCompleted "sig"] := by
  decide

/-! ## C10: the native-transfer validator -/

/-- C10 (the code departs from the claim): on a transaction whose accounts are
`Payer`, `Sender` and the system program, where the fee payer's balance grows by
2 500 000, the validator accepts the destination `Merchant`, which is not among
the accounts, for the amount 2 500 000; and on a meta without balance entries it
indexes out of range. -/
theorem c10_missing_destination_accepted :
    "Merchant" ∉ Example.payerCredited.Accounts ∧
    CheckSolTransferTransaction Example.payerCreditedMeta Example.payerCredited
      "Merchant" 2500000 = .ok () ∧
    CheckSolTransferTransaction { PreBalances := [], PostBalances := [] }
        Example.payerCredited "Merchant" 2500000 =
      .error .indexOutOfRange := by
  refine ⟨by decide, rfl, rfl⟩

/-! ## The composer's instruction list -/

namespace TransactionBuilder

theorem resolve_eq_collect (c : SolanaClient) (fs : List InstructionFunc) :
    ∀ acc : List Instruction,
      resolve c fs acc =
        match collect c fs with
        | .error e => .error e
        | .ok r => .ok (acc ++ r) := by
  induction fs with
  | nil => intro acc; simp [resolve, collect]
  | cons f fs ih =>
    intro acc
    rw [resolve, collect]
    cases hf : f c with
    | error e => rfl
    | ok a =>
      simp only
      rw [ih]
      cases collect c fs with
      | error e => rfl
      | ok r => simp [List.append_assoc]

theorem collect_singleton (c : SolanaClient) (f : InstructionFunc) (out : List Instruction) :
    collect c [f] = .ok out ↔ f c = .ok out := by
  rw [collect]
  cases hf : f c with
  | error e => simp
  | ok a => simp [collect]

theorem collect_append (c : SolanaClient) (fs gs : List InstructionFunc) :
    ∀ out : List Instruction,
      collect c (fs ++ gs) = .ok out ↔
        ∃ x y, collect c fs = .ok x ∧ collect c gs = .ok y ∧ out = x ++ y := by
  induction fs with
  | nil =>
    intro out
    simp [collect]
  | cons f fs ih =>
    intro out
    rw [List.cons_append, collect, collect]
    cases hf : f c with
    | error e => simp
    | ok a =>
      simp only
      cases hrest : collect c (fs ++ gs) with
      | error e =>
        constructor
        · intro h; cases h
        · rintro ⟨x, y, hx, hy, _⟩
          cases hfs : collect c fs with
          | error e' => rw [hfs] at hx; cases hx
          | ok r =>
            have := (ih (r ++ y)).2 ⟨r, y, hfs, hy, rfl⟩
            rw [hrest] at this
            cases this
      | ok r =>
        obtain ⟨x, y, hx, hy, hr⟩ := (ih r).1 hrest
        rw [hx]
        simp only [Except.ok.injEq]
        constructor
        · intro h
          exact ⟨a ++ x, y, rfl, hy, by rw [← h, hr, List.append_assoc]⟩
        · rintro ⟨x', y', hx', hy', hout⟩
          rw [hy] at hy'
          cases hy'
          rw [hout, ← hx', hr, List.append_assoc]

/-- What a successful `message` contains. -/
theorem message_ok {b : TransactionBuilder} {w : WireTransaction} (h : b.message = .ok w) :
    ∃ c r, b.client = some c ∧ collect c b.instructions = .ok r ∧
      w.Instructions = b.rawInstructionsBefore ++ r ++ b.rawInstructionsAfter ∧
      w.Signers = b.signers ∧ w.FeePayer = b.feePayer.getD "" := by
  unfold message at h
  split at h
  · cases h
  · split at h
    · cases h
    · rename_i c hc
      split at h
      · cases h
      · rename_i instructions hp
        split at h
        · cases h
        · simp only [Except.ok.injEq] at h
          subst h
          unfold PrepareInstructions at hp
          simp only [resolve_eq_collect] at hp
          cases hcol : collect c b.instructions with
          | error e => rw [hcol] at hp; simp at hp
          | ok r =>
            rw [hcol] at hp
            refine ⟨c, r, hc, hcol, ?_, rfl, rfl⟩
            simp only at hp
            have hb : (if b.rawInstructionsBefore.length > 0 then
                ([] : List Instruction) ++ b.rawInstructionsBefore else []) =
                b.rawInstructionsBefore := by
              cases hraw : b.rawInstructionsBefore with
              | nil => simp
              | cons x xs => simp
            rw [hb] at hp
            split_ifs at hp with hlen
            · simp only [Except.ok.injEq] at hp
              rw [← hp]
            · simp only [Except.ok.injEq] at hp
              have : b.rawInstructionsAfter = [] := by
                cases hraw : b.rawInstructionsAfter with
                | nil => rfl
                | cons x xs => rw [hraw] at hlen; simp at hlen
              rw [← hp, this, List.append_nil]

end TransactionBuilder

/-! ## The steps of the payment builder -/

theorem burnBonus_eq (sdk : SDK) (b : PaymentBuilder) (builder : TransactionBuilder) :
    b.burnBonus sdk builder =
      { builder with instructions := builder.instructions ++ b.burnClosures sdk } := by
  unfold PaymentBuilder.burnBonus PaymentBuilder.burnClosures
  split_ifs
  · simp
  · rfl

theorem mintBonus_builder (sdk : SDK) (b : PaymentBuilder) (builder : TransactionBuilder) :
    (b.mintBonus sdk builder).2.instructions = builder.instructions ++ b.mintClosures sdk ∧
    (b.mintBonus sdk builder).2.rawInstructionsBefore = builder.rawInstructionsBefore ∧
    (b.mintBonus sdk builder).2.rawInstructionsAfter = builder.rawInstructionsAfter ∧
    (b.mintBonus sdk builder).2.client = builder.client := by
  unfold PaymentBuilder.mintBonus PaymentBuilder.mintClosures accrued
  by_cases ha : b.config.AccrueBonus = true
  · by_cases hz : mulU64 b.tx.TotalAmount b.config.AccrueBonusRate / 10000 = 0
    · simp [ha, hz]
    · simp [ha, hz, TransactionBuilder.AddInstruction, TransactionBuilder.AddSigner]
  · simp [ha]

theorem mintBonus_tx (sdk : SDK) (b : PaymentBuilder) (builder : TransactionBuilder) :
    (b.mintBonus sdk builder).1.tx =
      { b.tx with
        AccruedBonusAmount :=
          if accrued b.config b.tx = 0 then b.tx.AccruedBonusAmount
          else accrued b.config b.tx } := by
  unfold PaymentBuilder.mintBonus accrued
  by_cases ha : b.config.AccrueBonus = true
  · by_cases hz : mulU64 b.tx.TotalAmount b.config.AccrueBonusRate / 10000 = 0
    · simp [ha, hz]
    · simp [ha, hz]
  · simp [ha]

theorem swap_ok {sdk : SDK} {b : PaymentBuilder} {builder builder' : TransactionBuilder}
    (h : b.swap sdk builder = .ok builder') :
    ∃ swapPart, swapStep sdk b.jup b.tx = .ok swapPart ∧
      builder' =
        { builder with rawInstructionsBefore := builder.rawInstructionsBefore ++ swapPart } := by
  unfold PaymentBuilder.swap at h
  unfold swapStep
  split_ifs at h ⊢ with hm
  · simp only [Except.ok.injEq] at h
    exact ⟨[], rfl, by simp [← h]⟩
  · split at h
    · cases h
    · rename_i jupTx hj
      split at h
      · cases h
      · rename_i jtx hd
        simp only [Except.ok.injEq] at h
        exact ⟨jtx.Instructions, rfl, by rw [← h]; rfl⟩

theorem transfer_eq (sdk : SDK) (b : PaymentBuilder) (builder : TransactionBuilder) :
    (if IsSOL b.tx.DestinationMint then b.transferSOL builder
      else b.transferToken sdk builder) =
      builder.AddInstruction (b.transferClosure sdk) := by
  unfold PaymentBuilder.transferClosure PaymentBuilder.transferSOL PaymentBuilder.transferToken
  split_ifs <;> rfl

theorem burn_collect {sdk : SDK} {b : PaymentBuilder} {c : SolanaClient}
    {part : List Instruction}
    (h : TransactionBuilder.collect c (b.burnClosures sdk) = .ok part) :
    burnStep sdk b.config b.tx = .ok part := by
  unfold PaymentBuilder.burnClosures at h
  unfold burnStep
  by_cases hc : (!b.tx.ApplyBonus || decide (b.tx.DiscountAmount = 0)) = true
  · rw [if_pos hc] at h
    have hn : ¬ (b.tx.ApplyBonus = true ∧ b.tx.DiscountAmount > 0) := by
      simp only [Bool.or_eq_true, Bool.not_eq_true', decide_eq_true_eq] at hc
      rcases hc with hc | hc
      · simp [hc]
      · omega
    rw [if_neg hn]
    simpa [TransactionBuilder.collect] using h.symm
  · rw [if_neg hc, TransactionBuilder.collect_singleton] at h
    have hp : b.tx.ApplyBonus = true ∧ b.tx.DiscountAmount > 0 := by
      simp only [Bool.or_eq_true, Bool.not_eq_true', decide_eq_true_eq, not_or,
        Bool.not_eq_false] at hc
      exact ⟨hc.1, Nat.pos_of_ne_zero hc.2⟩
    rw [if_pos hp]
    unfold BurnToken at h
    split at h
    · cases h
    · split at h
      · cases h
      · rename_i ata hf
        dsimp only at hf h
        rw [hf]
        exact h

theorem transfer_closure {sdk : SDK} {b : PaymentBuilder} {c : SolanaClient}
    {part : List Instruction} (h : b.transferClosure sdk c = .ok part) :
    transferStep sdk c b.tx = .ok part := by
  unfold PaymentBuilder.transferClosure at h
  unfold transferStep
  by_cases hs : IsSOL b.tx.DestinationMint = true
  · rw [if_pos hs] at h
    rw [if_pos hs]
    unfold TransferSOL at h
    split at h
    · cases h
    · rw [← h]
      unfold tagged
      rfl
  · rw [if_neg hs] at h
    rw [if_neg hs]
    unfold TransferToken at h
    split at h
    · cases h
    · split at h
      · cases h
      · rename_i senderAta hf1
        split at h
        · cases h
        · rename_i recipientAta hf2
          dsimp only at hf1 hf2 h
          rw [hf1]
          dsimp only
          rw [hf2]
          dsimp only
          rw [← h]
          unfold tagged
          simp only [Bool.not_eq_true', Bool.not_eq_true]

theorem mint_collect {sdk : SDK} {b : PaymentBuilder} {c : SolanaClient}
    {part : List Instruction}
    (h : TransactionBuilder.collect c (b.mintClosures sdk) = .ok part) :
    mintStep sdk c b.config (b.bonusAuthAccount.getD "") b.tx = .ok part := by
  unfold PaymentBuilder.mintClosures at h
  unfold mintStep
  by_cases hz : accrued b.config b.tx = 0
  · rw [if_pos hz] at h
    rw [if_neg (by omega)]
    simpa [TransactionBuilder.collect] using h.symm
  · rw [if_neg hz, TransactionBuilder.collect_singleton] at h
    rw [if_pos (Nat.pos_of_ne_zero hz)]
    unfold MintFungibleToken at h
    split at h
    · cases h
    · split at h
      · cases h
      · rename_i ata hf
        dsimp only at hf h
        rw [hf]
        dsimp only
        rw [← h]
        simp only [Bool.not_eq_true', Bool.not_eq_true]

theorem composed_ok {sdk : SDK} {b : PaymentBuilder} {builder : TransactionBuilder}
    (h : b.composed sdk = .ok builder) :
    ∃ swapPart, swapStep sdk b.jup b.tx = .ok swapPart ∧
      builder.client = some b.sol ∧
      builder.instructions = b.burnClosures sdk ++ [b.transferClosure sdk] ∧
      builder.rawInstructionsBefore = swapPart ∧
      builder.rawInstructionsAfter = [] := by
  unfold PaymentBuilder.composed at h
  split at h
  · cases h
  · rename_i builder0 hs
    obtain ⟨swapPart, hsp, hb0⟩ := swap_ok hs
    simp only [Except.ok.injEq] at h
    rw [transfer_eq] at h
    refine ⟨swapPart, hsp, ?_, ?_, ?_, ?_⟩ <;>
      (rw [← h, hb0, burnBonus_eq]
       simp [TransactionBuilder.AddInstruction, NewTransactionBuilder,
         TransactionBuilder.SetFeePayer])

theorem wire_instructions {sdk : SDK} {b : PaymentBuilder} {w : WireTransaction}
    (h : b.wire sdk = .ok w) :
    ∃ swapPart burnPart transferPart mintPart,
      swapStep sdk b.recalculated.jup b.recalculated.tx = .ok swapPart ∧
      burnStep sdk b.recalculated.config b.recalculated.tx = .ok burnPart ∧
      transferStep sdk b.recalculated.sol b.recalculated.tx = .ok transferPart ∧
      mintStep sdk b.recalculated.sol b.recalculated.config
        (b.recalculated.bonusAuthAccount.getD "") b.recalculated.tx = .ok mintPart ∧
      w.Instructions = swapPart ++ burnPart ++ transferPart ++ mintPart := by
  unfold PaymentBuilder.wire at h
  split at h
  · cases h
  · rename_i builder hc
    obtain ⟨swapPart, hsp, hcl, hins, hraw, hafter⟩ := composed_ok hc
    obtain ⟨c, r, hc', hcol, hw, _, _⟩ := TransactionBuilder.message_ok h
    obtain ⟨m1, m2, m3, m4⟩ := mintBonus_builder sdk b.recalculated builder
    rw [m4, hcl] at hc'
    cases hc'
    rw [m1, hins, TransactionBuilder.collect_append] at hcol
    obtain ⟨x, mintPart, hx, hmint, hr⟩ := hcol
    rw [TransactionBuilder.collect_append] at hx
    obtain ⟨burnPart, transferPart, hburn, htr, hx'⟩ := hx
    rw [TransactionBuilder.collect_singleton] at htr
    refine ⟨swapPart, burnPart, transferPart, mintPart, hsp, burn_collect hburn,
      transfer_closure htr, mint_collect hmint, ?_⟩
    rw [hw, m2, m3, hraw, hafter, hr, hx']
    simp [List.append_assoc]

/-! ## C6: the instruction order -/

/-- C6 (counterexample): a draft that carries `discount_amount = 50` with
`apply_bonus = false`, built for a payment of 100, succeeds with discount 50, and
the composed transaction consists of the token transfer of 50 alone: no burn
although the discount is positive. -/
theorem c6_discount_without_burn :
    (((Example.builder 0 0 0).SetTransaction
        { Example.draft false with DiscountAmount := 50 } (Example.payment 100)).Build
        Example.sdk).toOption.map (fun r => (r.2.DiscountAmount, r.2.TotalAmount)) =
      some (50, 50) ∧
    (((Example.builder 0 0 0).SetTransaction
        { Example.draft false with DiscountAmount := 50 } (Example.payment 100)).wire
        Example.sdk).toOption.map (fun w => w.Instructions) =
      some [tagged (tokenTransfer "Buyer/EPjFWdd5AufqSSqeM2qN1xzybapC8G4wEGGkZwyTDt1v"
        "Merchant/EPjFWdd5AufqSSqeM2qN1xzybapC8G4wEGGkZwyTDt1v" "Buyer" 50) "Ref"] := by
  decide

/-- C6 (amended): the transaction composed by a successful `Build` has the
instruction list swap prefix, bonus burn, transfer, bonus mint, in this order,
where the swap prefix is present iff the source and destination mints differ,
the burn of the discount is present iff the attempt applies the bonus and the
discount is positive, the transfer of the total is the native variant iff the
destination mint is the native mint, and the mint is present iff the bonus
accrued in this build is positive, in which case it is recorded in the attempt. -/
theorem c6_instruction_order (sdk : SDK) (b : PaymentBuilder) (draft : Transaction)
    (p : Payment) (s : String) (tx' : Transaction)
    (h : (b.SetTransaction draft p).Build sdk = .ok (s, tx')) :
    ∃ w swapPart burnPart transferPart mintPart,
      sdk.EncodeTransaction w = .ok s ∧
      w.Instructions = swapPart ++ burnPart ++ transferPart ++ mintPart ∧
      swapStep sdk b.jup tx' = .ok swapPart ∧
      burnStep sdk b.config tx' = .ok burnPart ∧
      transferStep sdk b.sol tx' = .ok transferPart ∧
      mintStep sdk b.sol b.config (b.bonusAuthAccount.getD "") tx' = .ok mintPart ∧
      (accrued b.config tx' > 0 → tx'.AccruedBonusAmount = accrued b.config tx') := by
  obtain ⟨w, hw, he⟩ := Build_wire h
  obtain ⟨_, builder, _, _, htx⟩ := Build_ok h
  obtain ⟨swapPart, burnPart, transferPart, mintPart, h1, h2, h3, h4, h5⟩ :=
    wire_instructions hw
  rw [mintBonus_tx] at htx
  subst htx
  refine ⟨w, swapPart, burnPart, transferPart, mintPart, he, h5, h1, h2, h3, h4, ?_⟩
  intro hpos
  have hpos' : accrued (b.SetTransaction draft p).recalculated.config
      (b.SetTransaction draft p).recalculated.tx > 0 := hpos
  show (if accrued (b.SetTransaction draft p).recalculated.config
      (b.SetTransaction draft p).recalculated.tx = 0 then _ else _) = _
  rw [if_neg (by omega)]
  rfl

/-- C6 (amended), at scenario 2 (1 000 000 USDC, balance 500 000, caps 200 000
and 10 percent, no swap, no accrual): the composed transaction is the burn of
100 000 of the bonus mint followed by the tagged transfer of 900 000. -/
theorem c6_instruction_order_witness :
    ∃ w, Example.sdk.EncodeTransaction w = .ok "base64" ∧
      w.Instructions =
        [tokenBurn "Buyer/BonusMint" "BonusMint" "Buyer" 100000,
         tagged (tokenTransfer "Buyer/EPjFWdd5AufqSSqeM2qN1xzybapC8G4wEGGkZwyTDt1v"
          "Merchant/EPjFWdd5AufqSSqeM2qN1xzybapC8G4wEGGkZwyTDt1v" "Buyer" 900000) "Ref"] := by
  obtain ⟨w, a, b, c, d, he, hi, h1, h2, h3, h4, _⟩ :=
    c6_instruction_order Example.sdk (Example.builder 200000 1000 500000)
      (Example.draft true) (Example.payment 1000000) "base64"
      (Example.built true 1000000 100000 900000) rfl
  have e1 : a = [] := (Except.ok.inj (h1.symm.trans rfl))
  have e2 : b = [tokenBurn "Buyer/BonusMint" "BonusMint" "Buyer" 100000] :=
    (Except.ok.inj (h2.symm.trans rfl))
  have e3 : c = [tagged (tokenTransfer "Buyer/EPjFWdd5AufqSSqeM2qN1xzybapC8G4wEGGkZwyTDt1v"
      "Merchant/EPjFWdd5AufqSSqeM2qN1xzybapC8G4wEGGkZwyTDt1v" "Buyer" 900000) "Ref"] :=
    (Except.ok.inj (h3.symm.trans rfl))
  have e4 : d = [] := (Except.ok.inj (h4.symm.trans rfl))
  exact ⟨w, he, by rw [hi, e1, e2, e3, e4]; rfl⟩

/-! ## C7: the reference -/

theorem recalculate_reference (b : PaymentBuilder) (tx : Transaction) :
    (b.recalculateTotalAmount tx).Reference = tx.Reference := by
  unfold PaymentBuilder.recalculateTotalAmount
  simp only [Nat.not_lt_zero, if_false]
  split_ifs <;> rfl

theorem transferStep_shape {sdk : SDK} {sol : SolanaClient} {tx : Transaction}
    {part : List Instruction} (h : transferStep sdk sol tx = .ok part) :
    ∃ pre t, part = pre ++ [tagged t tx.Reference] ∧
      (t = systemTransfer tx.SourceWallet tx.DestinationWallet tx.TotalAmount ∨
        ∃ senderAta recipientAta,
          t = tokenTransfer senderAta recipientAta tx.SourceWallet tx.TotalAmount) := by
  unfold transferStep at h
  split_ifs at h
  · simp only [Except.ok.injEq] at h
    exact ⟨[], _, by rw [← h]; rfl, Or.inl rfl⟩
  · split at h
    · cases h
    · rename_i senderAta _
      split at h
      · cases h
      · rename_i recipientAta _
        simp only [Except.ok.injEq] at h
        exact ⟨_, _, h.symm, Or.inr ⟨senderAta, recipientAta, rfl⟩⟩

theorem tagged_accounts (t : Instruction) (reference : String) (h : reference ≠ "") :
    (tagged t reference).Accounts = t.Accounts ++ [⟨reference, false, false⟩] := by
  unfold tagged
  rw [if_pos h]

theorem NewPaymentTransactionBuilder_reference {sdk : SDK} {sc : SolanaClient}
    {jc : JupiterClient} {config : Config} {b : PaymentBuilder}
    (h : NewPaymentTransactionBuilder sdk sc jc config = .ok b) :
    b.referenceAccount = sdk.NewAccount := by
  unfold NewPaymentTransactionBuilder at h
  split_ifs at h <;>
  · dsimp only at h
    split at h
    · cases h
    · simp only [Except.ok.injEq] at h
      rw [← h]

theorem recalculate_sourceWallet (b : PaymentBuilder) (tx : Transaction) :
    (b.recalculateTotalAmount tx).SourceWallet = tx.SourceWallet := by
  unfold PaymentBuilder.recalculateTotalAmount
  simp only [Nat.not_lt_zero, if_false]
  split_ifs <;> rfl

theorem Store.CreateTransaction_ok {st st' : Store} {id : UUID}
    {arg : Store.CreateTransactionParams} {row : RepoTransaction}
    (h : st.CreateTransaction id arg = (.ok row, st')) :
    row.Reference = arg.Reference ∧ st'.transactions = st.transactions ++ [row] := by
  unfold Store.CreateTransaction at h
  split_ifs at h
  · cases h
  · simp only [Prod.mk.injEq, Except.ok.injEq] at h
    obtain ⟨h1, h2⟩ := h
    rw [← h2, ← h1]
    exact ⟨rfl, rfl⟩

/-- The reference and the transfer of an attempt built by the payment builder. -/
theorem Build_reference {sdk : SDK} {b : PaymentBuilder} {draft : Transaction} {p : Payment}
    {s : String} {tx' : Transaction}
    (h : (b.SetTransaction draft p).Build sdk = .ok (s, tx')) :
    tx'.Reference = b.referenceAccount ∧
    ∃ w pre t post, sdk.EncodeTransaction w = .ok s ∧
      w.Instructions = pre ++ [tagged t b.referenceAccount] ++ post ∧
      (t = systemTransfer draft.SourceWallet tx'.DestinationWallet tx'.TotalAmount ∨
        ∃ senderAta recipientAta,
          t = tokenTransfer senderAta recipientAta draft.SourceWallet tx'.TotalAmount) := by
  obtain ⟨w, hw, he⟩ := Build_wire h
  obtain ⟨_, builder, _, _, htx⟩ := Build_ok h
  obtain ⟨swapPart, burnPart, transferPart, mintPart, _, _, h3, _, h5⟩ :=
    wire_instructions hw
  obtain ⟨pre, t, hpart, ht⟩ := transferStep_shape h3
  rw [mintBonus_tx] at htx
  have hr : (b.SetTransaction draft p).recalculated.tx.Reference = b.referenceAccount :=
    recalculate_reference _ _
  have hsw : (b.SetTransaction draft p).recalculated.tx.SourceWallet = draft.SourceWallet :=
    recalculate_sourceWallet _ _
  subst htx
  refine ⟨hr, w, swapPart ++ burnPart ++ pre, t, mintPart, he, ?_, ?_⟩
  · rw [h5, hpart, hr]
    simp [List.append_assoc]
  · rw [hsw] at ht
    exact ht

/-- C7: for every successful `BuildTransaction` in which the generated reference
address is not the empty text, the returned attempt and the row appended to the
table of attempts both carry the generated address as reference, whatever
reference the draft carried, and the built transaction contains the transfer
from the buyer's wallet (native or token) whose account list ends with that
address as a read-only, non-signer account. -/
theorem c7_reference (svc : Service) (st st' : Store) (draft result : Transaction)
    (href : svc.sdk.NewAccount ≠ "")
    (h : svc.BuildTransaction st draft = (.ok result, st')) :
    result.Reference = svc.sdk.NewAccount ∧
    (∃ row, st'.transactions = st.transactions ++ [row] ∧
      row.Reference = svc.sdk.NewAccount) ∧
    (∃ w pre t post, svc.sdk.EncodeTransaction w = .ok result.Transaction ∧
      w.Instructions = pre ++ [tagged t svc.sdk.NewAccount] ++ post ∧
      (∃ recipient amount, t = systemTransfer draft.SourceWallet recipient amount ∨
        ∃ senderAta recipientAta,
          t = tokenTransfer senderAta recipientAta draft.SourceWallet amount) ∧
      (tagged t svc.sdk.NewAccount).Accounts =
        t.Accounts ++ [⟨svc.sdk.NewAccount, false, false⟩]) := by
  unfold Service.BuildTransaction at h
  split_ifs at h with h1 h2
  · cases h
  · cases h
  · split at h
    · cases h
    · rename_i payment hpay
      split_ifs at h with h3
      · cases h
      · dsimp only at h
        split at h
        · cases h
        · rename_i b hb
          split at h
          · cases h
          · rename_i base64Tx tx' hbuild
            split at h
            · cases h
            · rename_i repoTx st'' hcreate
              simp only [Prod.mk.injEq, Except.ok.injEq] at h
              obtain ⟨hres, hst⟩ := h
              obtain ⟨hrow, htxs⟩ := Store.CreateTransaction_ok hcreate
              obtain ⟨href', w, pre, t, post, he, hi, ht⟩ := Build_reference hbuild
              rw [NewPaymentTransactionBuilder_reference hb] at href' hi
              have hrow' : repoTx.Reference = svc.sdk.NewAccount := by
                rw [hrow]; exact href'
              subst hst
              subst hres
              refine ⟨hrow', ⟨repoTx, htxs, hrow'⟩, w, pre, t, post, he, hi, ?_,
                tagged_accounts t _ href⟩
              exact ⟨_, _, ht⟩

/-- C7, for a draft that carries the reference `junk`: the attempt returned and
the row stored for payment `p1` both carry the generated reference `Ref`. -/
theorem c7_reference_witness :
    ({ Example.built false 100 0 100 with
        ID := "t1", Memo := "order-1", Transaction := "base64",
        Status := TransactionStatusPending } : Transaction).Reference = "Ref" ∧
    (∃ row, [{ Example.storedAttempt RepoTransactionStatusPending with
          ID := "t1", Memo := ⟨true, "order-1"⟩ }] = ([] : List RepoTransaction) ++ [row] ∧
      row.Reference = "Ref") :=
  have h := c7_reference Example.service (Example.store RepoPaymentStatusNew [])
    { payments := [Example.storedPayment RepoPaymentStatusNew],
      transactions := [{ Example.storedAttempt RepoTransactionStatusPending with
        ID := "t1", Memo := ⟨true, "order-1"⟩ }] }
    { Example.draft false with Reference := "junk" }
    { Example.built false 100 0 100 with
      ID := "t1", Memo := "order-1", Transaction := "base64",
      Status := TransactionStatusPending }
    (by decide) rfl
  ⟨h.1, h.2.1⟩

/-! ## Where the claims C1 and C9 do hold -/

/-- The discount of C1 in exact arithmetic. -/
theorem recalculate_fresh_exact (b : PaymentBuilder) (tx : Transaction)
    (hA : tx.Amount > 0) (hD : tx.DiscountAmount = 0) (hT : tx.TotalAmount = tx.Amount)
    (hApply : b.tx.ApplyBonus = true) (hav : b.availableBonusAmount > 0)
    (h64 : tx.Amount < U64) (hno : tx.Amount * b.config.MaxApplyBonusPercent < U64) :
    (b.recalculateTotalAmount tx).DiscountAmount =
      exactDiscount b.availableBonusAmount tx.Amount b.config.MaxApplyBonusAmount
        b.config.MaxApplyBonusPercent ∧
    (b.recalculateTotalAmount tx).TotalAmount =
      tx.Amount - exactDiscount b.availableBonusAmount tx.Amount b.config.MaxApplyBonusAmount
        b.config.MaxApplyBonusPercent := by
  have h1 : ¬ (tx.Amount = 0 ∧ tx.TotalAmount > 0) := by omega
  have h2 : ¬ (tx.DiscountAmount > 0 ∧ tx.Amount > 0) := by omega
  have h3 : b.tx.ApplyBonus = true ∧ b.availableBonusAmount > 0 := ⟨hApply, hav⟩
  have key : ∀ m, m ≤ tx.Amount → subU64 tx.TotalAmount m = tx.Amount - m :=
    fun m hm => by rw [hT]; exact subU64_of_le hm h64
  unfold PaymentBuilder.recalculateTotalAmount exactDiscount
  rw [if_neg h1, if_neg h2, if_pos h3, mulU64_of_lt hno]
  simp only [Nat.not_lt_zero, if_false, min_def]
  split_ifs <;> refine ⟨by omega, ?_⟩ <;> rw [key _ (by omega)] <;> omega

theorem castFromRepositoryTransactionStatus_other (status : String)
    (h1 : status ≠ RepoTransactionStatusCompleted)
    (h2 : status ≠ RepoTransactionStatusFailed) :
    castFromRepositoryTransactionStatus status = TransactionStatusPending := by
  unfold castFromRepositoryTransactionStatus
  split_ifs <;> rfl

/-! ## C11: the token validator -/

theorem ParseUint_lt {s : String} {n : Nat} (h : ParseUint s = .ok n) : n < U64 := by
  unfold ParseUint at h
  split at h
  · cases h
  · split at h
    · cases h
    · split_ifs at h with hn
      cases h; exact hn

theorem findTokenBalance_eq (label mint destination : String) (rows : List TokenBalance) :
    findTokenBalance label mint destination rows =
      match rows.find? (fun r => r.Mint = mint ∧ r.Owner = destination) with
      | none => .ok 0
      | some r =>
        match ParseUint r.Amount with
        | .error e => .error ("failed to parse " ++ label ++ " balance: " ++ e)
        | .ok amount => .ok amount := by
  induction rows with
  | nil => rfl
  | cons r rest ih =>
    unfold findTokenBalance
    by_cases h : r.Mint = mint ∧ r.Owner = destination
    · rw [if_pos h]
      simp only [List.find?, h, and_self, decide_True]
    · rw [if_neg h, ih]
      simp only [List.find?, h, decide_False]

theorem findTokenBalance_rowBalance (label mint destination : String)
    (rows : List TokenBalance) :
    (∀ n, rowBalance mint destination rows = some n →
      findTokenBalance label mint destination rows = .ok n ∧ n < U64) ∧
    (rowBalance mint destination rows = none →
      ∃ e, findTokenBalance label mint destination rows = .error e) := by
  rw [findTokenBalance_eq]
  unfold rowBalance
  cases hf : rows.find? (fun r => r.Mint = mint ∧ r.Owner = destination) with
  | none =>
    refine ⟨fun n hn => ?_, fun hn => ?_⟩
    · simp only [Option.some.injEq] at hn
      subst hn
      exact ⟨rfl, by decide⟩
    · cases hn
  | some r =>
    dsimp only
    cases hp : ParseUint r.Amount with
    | error e =>
      refine ⟨fun n hn => ?_, fun _ => ⟨_, rfl⟩⟩
      simp [Except.toOption] at hn
    | ok a =>
      refine ⟨fun n hn => ?_, fun hn => ?_⟩
      · simp only [Except.toOption, Option.some.injEq] at hn
        subst hn
        exact ⟨rfl, ParseUint_lt hp⟩
      · simp [Except.toOption] at hn

/-- C11 (counterexample): for a mint that matches no token balance row of the
transaction and `amount = 0` the validator returns no error. -/
theorem c11_unmatched_mint_accepted :
    (∀ row ∈ Example.tokenMeta.PreTokenBalances ++ Example.tokenMeta.PostTokenBalances,
      row.Mint ≠ "WrongMint") ∧
    CheckTokenTransferTransaction Example.tokenMeta Example.payerCredited "WrongMint"
      "Merchant" 0 = .ok () := by
  refine ⟨by decide, rfl⟩

/-- C11 (amended): the validator reads, in each of the two lists of token
balance rows, the amount of the first row with owner `destination` and mint
`mint`, and 0 when the list has no such row. If both amounts are defined and the
post balance is not below the pre balance, it returns no error iff post minus pre
equals `amount` over the integers; if one of the two amounts is not a decimal
64-bit number it returns an error; and for `amount > 0` it returns an error
whenever no row of the transaction has that owner and mint. -/
theorem c11_token_credit (meta : TransactionMeta) (tx : LedgerTransaction)
    (mint destination : String) (amount : Nat) :
    (∀ pre post, rowBalance mint destination meta.PreTokenBalances = some pre →
      rowBalance mint destination meta.PostTokenBalances = some post → pre ≤ post →
      (CheckTokenTransferTransaction meta tx mint destination amount = .ok () ↔
        (post : Int) - (pre : Int) = (amount : Int))) ∧
    (rowBalance mint destination meta.PreTokenBalances = none ∨
      rowBalance mint destination meta.PostTokenBalances = none →
      ∃ e, CheckTokenTransferTransaction meta tx mint destination amount = .error e) ∧
    (0 < amount →
      (∀ row ∈ meta.PreTokenBalances ++ meta.PostTokenBalances,
        ¬ (row.Mint = mint ∧ row.Owner = destination)) →
      ∃ e, CheckTokenTransferTransaction meta tx mint destination amount = .error e) := by
  have key : ∀ pre post, rowBalance mint destination meta.PreTokenBalances = some pre →
      rowBalance mint destination meta.PostTokenBalances = some post → pre ≤ post →
      CheckTokenTransferTransaction meta tx mint destination amount =
        if post - pre ≠ amount then
          .error "amount is not equal to the amount in the transaction"
        else .ok () := by
    intro pre post hpre hpost hle
    obtain ⟨h1, _⟩ := (findTokenBalance_rowBalance "pre" mint destination _).1 pre hpre
    obtain ⟨h2, hlt⟩ := (findTokenBalance_rowBalance "post" mint destination _).1 post hpost
    unfold CheckTokenTransferTransaction
    rw [h1, h2]
    simp only [subU64_of_le hle hlt]
  refine ⟨fun pre post hpre hpost hle => ?_, fun h => ?_, fun hpos hrows => ?_⟩
  · rw [key pre post hpre hpost hle]
    by_cases hd : post - pre = amount
    · rw [if_neg (not_not.mpr hd)]
      exact ⟨fun _ => by omega, fun _ => rfl⟩
    · rw [if_pos hd]
      refine ⟨fun hc => ?_, fun hi => absurd (by omega) hd⟩
      cases hc
  · unfold CheckTokenTransferTransaction
    rcases h with h | h
    · obtain ⟨e, he⟩ := (findTokenBalance_rowBalance "pre" mint destination _).2 h
      rw [he]
      exact ⟨_, rfl⟩
    · obtain ⟨e, he⟩ := (findTokenBalance_rowBalance "post" mint destination _).2 h
      rw [he]
      split
      · exact ⟨_, rfl⟩
      · exact ⟨_, rfl⟩
  · have none_of : ∀ rows : List TokenBalance,
        (∀ row ∈ rows, ¬ (row.Mint = mint ∧ row.Owner = destination)) →
        rowBalance mint destination rows = some 0 := by
      intro rows hr
      unfold rowBalance
      have : rows.find? (fun r => r.Mint = mint ∧ r.Owner = destination) = none := by
        rw [List.find?_eq_none]
        intro x hx
        simpa using hr x hx
      rw [this]
    have hpre := none_of meta.PreTokenBalances
      (fun row hrow => hrows row (List.mem_append_left _ hrow))
    have hpost := none_of meta.PostTokenBalances
      (fun row hrow => hrows row (List.mem_append_right _ hrow))
    rw [key 0 0 hpre hpost (Nat.le_refl 0)]
    rw [if_pos (by omega)]
    exact ⟨_, rfl⟩

/-- C11 (amended), at the transfer of the repository's test: `Merchant` holds 100
USDC before and 110 after, so the amount 10 is accepted, and the amount 10 for a
mint without a row is rejected. -/
theorem c11_token_credit_witness :
    CheckTokenTransferTransaction Example.tokenMeta Example.payerCredited USDC "Merchant" 10 =
      .ok () ∧
    (∃ e, CheckTokenTransferTransaction Example.tokenMeta Example.payerCredited "WrongMint"
      "Merchant" 10 = .error e) :=
  ⟨((c11_token_credit Example.tokenMeta Example.payerCredited USDC "Merchant" 10).1
      100 110 (by decide) (by decide) (by decide)).2 (by decide),
   (c11_token_credit Example.tokenMeta Example.payerCredited "WrongMint" "Merchant" 10).2.2
      (by decide) (by decide)⟩

/-! ## C12: the oldest transaction of a reference -/

set_option maxRecDepth 1000000 in
/-- C12 (the code departs from the claim): for a reference whose finalized
history has exactly 1000 successful transactions with a past block time, the
first page is full, the function recurses with the oldest signature as offset,
receives an empty page and returns `ErrNoTransactionsFound`, with any recursion
budget of at least two calls; with 999 transactions it returns the signature of
the oldest one. -/
theorem c12_full_page_loses_oldest :
    (historyOf 1000).length = 1000 ∧
    (historyOf 1000).getLast?.map (fun e => e.Signature) = some "x" ∧
    (∀ e ∈ historyOf 1000, e.Err = none ∧ e.BlockTime = some 1) ∧
    (∀ fuel, (ledgerRpc (historyOf 1000) 5).GetOldestTransactionForWallet (fuel + 2) "Ref" "" =
      .error ErrNoTransactionsFound) ∧
    (∀ fuel, ((ledgerRpc (historyOf 999) 5).GetOldestTransactionForWallet (fuel + 1) "Ref"
      "").toOption.map (fun r => r.1) = some "x") := by
  refine ⟨by simp [historyOf], by decide, ?_, fun fuel => rfl, fun fuel => rfl⟩
  intro e he
  simp only [historyOf, List.mem_map] at he
  obtain ⟨i, _, rfl⟩ := he
  exact ⟨rfl, rfl⟩

/-! ## C13 and C14: bonus policy flags -/

theorem Build_steps {sdk : SDK} {b : PaymentBuilder} {s : String} {tx' : Transaction}
    (h : b.Build sdk = .ok (s, tx')) :
    ∃ w swapPart burnPart transferPart mintPart,
      sdk.EncodeTransaction w = .ok s ∧
      w.Instructions = swapPart ++ burnPart ++ transferPart ++ mintPart ∧
      swapStep sdk b.jup tx' = .ok swapPart ∧
      burnStep sdk b.config tx' = .ok burnPart ∧
      transferStep sdk b.sol tx' = .ok transferPart ∧
      mintStep sdk b.sol b.config (b.bonusAuthAccount.getD "") tx' = .ok mintPart ∧
      tx' =
        { b.recalculated.tx with
          AccruedBonusAmount :=
            if accrued b.config b.recalculated.tx = 0 then
              b.recalculated.tx.AccruedBonusAmount
            else accrued b.config b.recalculated.tx } := by
  obtain ⟨w, hw, he⟩ := Build_wire h
  obtain ⟨_, builder, _, _, htx⟩ := Build_ok h
  obtain ⟨swapPart, burnPart, transferPart, mintPart, h1, h2, h3, h4, h5⟩ :=
    wire_instructions hw
  rw [mintBonus_tx] at htx
  subst htx
  exact ⟨w, swapPart, burnPart, transferPart, mintPart, he, h5, h1, h2, h3, h4, rfl⟩

theorem recalculate_accrued (b : PaymentBuilder) (tx : Transaction) :
    (b.recalculateTotalAmount tx).AccruedBonusAmount = tx.AccruedBonusAmount := by
  unfold PaymentBuilder.recalculateTotalAmount
  simp only [Nat.not_lt_zero, if_false]
  split_ifs <;> rfl

theorem recalculate_no_bonus (b : PaymentBuilder) (tx : Transaction)
    (hD : tx.DiscountAmount = 0) (hT : tx.TotalAmount = tx.Amount)
    (hno : b.tx.ApplyBonus = false) : b.recalculateTotalAmount tx = tx := by
  unfold PaymentBuilder.recalculateTotalAmount
  rw [if_neg (by omega), if_neg (by omega), if_neg (by simp [hno])]

theorem transferStep_data {sdk : SDK} {sol : SolanaClient} {tx : Transaction}
    {part : List Instruction} (h : transferStep sdk sol tx = .ok part) :
    ∀ ins ∈ part, ins.Data = .systemTransfer tx.TotalAmount ∨
      ins.Data = .tokenTransfer tx.TotalAmount ∨ ins.Data = .createAssociatedTokenAccount := by
  unfold transferStep at h
  split_ifs at h with hs
  · cases h
    intro ins hins
    simp only [List.mem_singleton] at hins
    subst hins
    left
    unfold tagged
    split_ifs <;> rfl
  · split at h
    · cases h
    · split at h
      · cases h
      · cases h
        intro ins hins
        simp only [List.mem_append, List.mem_singleton] at hins
        rcases hins with hins | hins
        · split_ifs at hins
          · simp only [List.mem_singleton] at hins
            subst hins
            right; right; rfl
          · cases hins
        · subst hins
          right; left
          unfold tagged
          split_ifs <;> rfl

theorem mintStep_data {sdk : SDK} {sol : SolanaClient} {config : Config} {authority : String}
    {tx : Transaction} {part : List Instruction}
    (h : mintStep sdk sol config authority tx = .ok part) :
    (accrued config tx = 0 → part = []) ∧
    (accrued config tx > 0 →
      ∃ pre ata, part = pre ++ [tokenMintTo config.BonusMintAddress ata authority
        (accrued config tx)]) ∧
    ∀ ins ∈ part, ins.Data = .tokenMintTo (accrued config tx) ∨
      ins.Data = .createAssociatedTokenAccount := by
  unfold mintStep at h
  split_ifs at h with hp
  · split at h
    · cases h
    · rename_i ata _
      cases h
      refine ⟨fun h0 => by omega, fun _ => ⟨_, ata, rfl⟩, ?_⟩
      intro ins hins
      simp only [List.mem_append, List.mem_singleton] at hins
      rcases hins with hins | hins
      · split_ifs at hins
        · simp only [List.mem_singleton] at hins
          subst hins
          right; rfl
        · cases hins
      · subst hins
        left; rfl
  · cases h
    refine ⟨fun _ => rfl, fun h0 => absurd h0 hp, ?_⟩
    intro ins hins
    cases hins

/-- C13 (counterexample): with the policy flag `ApplyBonus` off, a fresh draft
with `apply_bonus = true` for a payment of 1 000 000, a bonus balance of 500 000
and the caps 200 000 and 10 percent is built with discount 100 000 and total
900 000, and the composed transaction starts with the burn of 100 000. -/
theorem c13_policy_flag_not_consulted :
    ({ Example.config 200000 1000 with ApplyBonus := false } : Config).ApplyBonus = false ∧
    Example.amounts (Example.build { Example.config 200000 1000 with ApplyBonus := false }
        500000 (Example.draft true) (Example.payment 1000000)) =
      some (1000000, 100000, 900000) ∧
    Example.instructions { Example.config 200000 1000 with ApplyBonus := false } 500000
        (Example.draft true) (Example.payment 1000000) =
      some [tokenBurn "Buyer/BonusMint" "BonusMint" "Buyer" 100000,
        tagged (tokenTransfer "Buyer/EPjFWdd5AufqSSqeM2qN1xzybapC8G4wEGGkZwyTDt1v"
          "Merchant/EPjFWdd5AufqSSqeM2qN1xzybapC8G4wEGGkZwyTDt1v" "Buyer" 900000) "Ref"] := by
  decide

/-- C13 (amended): if the draft's `apply_bonus` is false, then for every fresh
draft (no discount, no total), every policy and every bonus balance, a successful
`Build` gives `discount_amount = 0` and `total_amount = amount`, and the composed
transaction is the swap prefix, the transfer and the bonus mint: the burn step is
empty and none of the instructions of the transfer and mint steps is a burn. -/
theorem c13_no_discount_without_flag (sdk : SDK) (b : PaymentBuilder) (draft : Transaction)
    (p : Payment) (s : String) (tx' : Transaction)
    (hD : draft.DiscountAmount = 0) (hT : draft.TotalAmount = 0) (hA : p.Amount < U64)
    (hno : draft.ApplyBonus = false)
    (h : (b.SetTransaction draft p).Build sdk = .ok (s, tx')) :
    tx'.DiscountAmount = 0 ∧ tx'.Amount = p.Amount ∧ tx'.TotalAmount = tx'.Amount ∧
    burnStep sdk b.config tx' = .ok [] ∧
    ∃ w swapPart transferPart mintPart,
      sdk.EncodeTransaction w = .ok s ∧
      w.Instructions = swapPart ++ transferPart ++ mintPart ∧
      swapStep sdk b.jup tx' = .ok swapPart ∧
      transferStep sdk b.sol tx' = .ok transferPart ∧
      mintStep sdk b.sol b.config (b.bonusAuthAccount.getD "") tx' = .ok mintPart ∧
      ∀ ins ∈ transferPart ++ mintPart, ∀ amount, ins.Data ≠ .tokenBurn amount := by
  obtain ⟨w, swapPart, burnPart, transferPart, mintPart, he, hi, h1, h2, h3, h4, htx⟩ :=
    Build_steps h
  have hT0 : (b.SetTransaction draft p).tx.TotalAmount = (b.SetTransaction draft p).tx.Amount := by
    show (if draft.TotalAmount = 0 then subU64 p.Amount draft.DiscountAmount
      else draft.TotalAmount) = p.Amount
    rw [if_pos hT, hD, subU64_of_le (Nat.zero_le _) hA]
    rfl
  have hrec : (b.SetTransaction draft p).recalculated.tx = (b.SetTransaction draft p).tx :=
    recalculate_no_bonus _ _ hD hT0 hno
  rw [hrec] at htx
  have e1 : tx'.DiscountAmount = 0 := by rw [htx]; exact hD
  have e2 : tx'.Amount = p.Amount := by rw [htx]; rfl
  have e3 : tx'.TotalAmount = tx'.Amount := by rw [htx]; exact hT0
  have e4 : tx'.ApplyBonus = false := by rw [htx]; exact hno
  have hburn : burnStep sdk b.config tx' = .ok [] := by
    unfold burnStep
    rw [if_neg (by simp [e4])]
  have hb : burnPart = [] := by
    have h2' : burnStep sdk b.config tx' = .ok burnPart := h2
    rw [hburn] at h2'
    cases h2'
    rfl
  refine ⟨e1, e2, e3, hburn, w, swapPart, transferPart, mintPart, he, ?_, h1, h3, h4, ?_⟩
  · rw [hi, hb, List.append_nil]
  · intro ins hins amount hdata
    rcases List.mem_append.mp hins with hm | hm
    · rcases transferStep_data h3 ins hm with hd | hd | hd <;> rw [hd] at hdata <;> cases hdata
    · rcases (mintStep_data h4).2.2 ins hm with hd | hd <;> rw [hd] at hdata <;> cases hdata

/-- C13 (amended), at a payment of 1 000 000 with a bonus balance of 500 000 and
a draft with `apply_bonus = false`: no discount, total 1 000 000. -/
theorem c13_no_discount_without_flag_witness :
    (Example.built false 1000000 0 1000000).DiscountAmount = 0 ∧
    (Example.built false 1000000 0 1000000).TotalAmount =
      (Example.built false 1000000 0 1000000).Amount ∧
    burnStep Example.sdk (Example.builder 200000 1000 500000).config
      (Example.built false 1000000 0 1000000) = .ok [] :=
  have k := c13_no_discount_without_flag Example.sdk (Example.builder 200000 1000 500000)
    (Example.draft false) (Example.payment 1000000) "base64"
    (Example.built false 1000000 0 1000000) rfl rfl (by decide) rfl rfl
  ⟨k.1, k.2.2.1, k.2.2.2.1⟩

theorem NewPaymentTransactionBuilder_config {sdk : SDK} {sc : SolanaClient}
    {jc : JupiterClient} {config : Config} {b : PaymentBuilder}
    (h : NewPaymentTransactionBuilder sdk sc jc config = .ok b) :
    b.config.AccrueBonus = config.AccrueBonus ∧
    b.config.AccrueBonusRate = effectiveRate config ∧
    b.config.BonusMintAddress = config.BonusMintAddress ∧
    b.tx = Transaction.zero := by
  unfold NewPaymentTransactionBuilder at h
  unfold effectiveRate
  split_ifs at h <;>
  · dsimp only at h
    split at h
    · cases h
    · simp only [Except.ok.injEq] at h
      rw [← h]
      dsimp only
      split_ifs <;> first | exact ⟨rfl, rfl, rfl, rfl⟩ | omega

/-- C14 (counterexample): with accrual enabled and the configured rate 0 the
builder works with the rate 100, so a payment of 1 000 000 accrues 10 000 and the
bonus mint is added after the transfer. -/
theorem c14_zero_rate_accrues :
    ({ Example.config 0 0 with AccrueBonus := true } : Config).AccrueBonusRate = 0 ∧
    (Example.build { Example.config 0 0 with AccrueBonus := true } 0 (Example.draft false)
        (Example.payment 1000000)).toOption.map (fun r => r.2.AccruedBonusAmount) =
      some 10000 ∧
    Example.instructions { Example.config 0 0 with AccrueBonus := true } 0
        (Example.draft false) (Example.payment 1000000) =
      some [tagged (tokenTransfer "Buyer/EPjFWdd5AufqSSqeM2qN1xzybapC8G4wEGGkZwyTDt1v"
          "Merchant/EPjFWdd5AufqSSqeM2qN1xzybapC8G4wEGGkZwyTDt1v" "Buyer" 1000000) "Ref",
        tokenMintTo "BonusMint" "Buyer/BonusMint" "BonusAuth" 10000] := by
  decide

/-- C14 (amended): let `r` be the configured `AccrueBonusRate` when that is
positive and 100 otherwise. For every successful build of a draft without an
accrued amount in which `total_amount * r` stays in the 64-bit range,
`accrued_bonus_amount = total_amount * r / 10000` (exact product, floor division)
when `AccrueBonus` is enabled and `accrued_bonus_amount = 0` when it is disabled;
the mint step is empty when `accrued_bonus_amount = 0` and ends with the mint of
`accrued_bonus_amount` of the bonus mint when it is positive, and no other step
of the builder adds a mint instruction. -/
theorem c14_accrual (sdk : SDK) (sc : SolanaClient) (jc : JupiterClient) (config : Config)
    (b : PaymentBuilder) (draft : Transaction) (p : Payment) (s : String) (tx' : Transaction)
    (hnew : NewPaymentTransactionBuilder sdk sc jc config = .ok b)
    (hfresh : draft.AccruedBonusAmount = 0)
    (h : (b.SetTransaction draft p).Build sdk = .ok (s, tx'))
    (hno : tx'.TotalAmount * effectiveRate config < U64) :
    (config.AccrueBonus = true →
      tx'.AccruedBonusAmount = tx'.TotalAmount * effectiveRate config / 10000) ∧
    (config.AccrueBonus = false → tx'.AccruedBonusAmount = 0) ∧
    ∃ w swapPart burnPart transferPart mintPart,
      sdk.EncodeTransaction w = .ok s ∧
      w.Instructions = swapPart ++ burnPart ++ transferPart ++ mintPart ∧
      swapStep sdk b.jup tx' = .ok swapPart ∧
      burnStep sdk b.config tx' = .ok burnPart ∧
      transferStep sdk b.sol tx' = .ok transferPart ∧
      (tx'.AccruedBonusAmount = 0 → mintPart = []) ∧
      (tx'.AccruedBonusAmount > 0 →
        ∃ pre ata, mintPart = pre ++ [tokenMintTo config.BonusMintAddress ata
          (b.bonusAuthAccount.getD "") tx'.AccruedBonusAmount]) ∧
      ∀ ins ∈ burnPart ++ transferPart, ∀ amount, ins.Data ≠ .tokenMintTo amount := by
  obtain ⟨w, swapPart, burnPart, transferPart, mintPart, he, hi, h1, h2, h3, h4, htx⟩ :=
    Build_steps h
  obtain ⟨c1, c2, c3, _⟩ := NewPaymentTransactionBuilder_config hnew
  have hc : (b.SetTransaction draft p).config = b.config := rfl
  have hacc0 : (b.SetTransaction draft p).recalculated.tx.AccruedBonusAmount = 0 := by
    show (PaymentBuilder.recalculateTotalAmount _ _).AccruedBonusAmount = 0
    rw [recalculate_accrued]
    exact hfresh
  have htot : tx'.TotalAmount = (b.SetTransaction draft p).recalculated.tx.TotalAmount := by
    rw [htx]
  have hacc : tx'.AccruedBonusAmount = accrued b.config tx' := by
    have e : accrued b.config tx' =
        accrued b.config (b.SetTransaction draft p).recalculated.tx := by
      unfold accrued
      rw [htot]
    rw [e]
    conv_lhs => rw [htx]
    show (if accrued b.config (b.SetTransaction draft p).recalculated.tx = 0 then
      (b.SetTransaction draft p).recalculated.tx.AccruedBonusAmount
      else accrued b.config (b.SetTransaction draft p).recalculated.tx) = _
    split_ifs with hz
    · rw [hacc0, hz]
    · rfl
  have hval : accrued b.config tx' =
      if config.AccrueBonus = true then tx'.TotalAmount * effectiveRate config / 10000
      else 0 := by
    unfold accrued
    rw [c1, c2, mulU64_of_lt hno]
  have h4' : mintStep sdk b.sol b.config (b.bonusAuthAccount.getD "") tx' = .ok mintPart := h4
  obtain ⟨m1, m2, _⟩ := mintStep_data h4'
  refine ⟨fun ha => ?_, fun ha => ?_, w, swapPart, burnPart, transferPart, mintPart, he, hi,
    h1, h2, h3, fun h0 => m1 (by rw [← hacc]; exact h0), fun hpos => ?_, ?_⟩
  · rw [hacc, hval, if_pos ha]
  · rw [hacc, hval, if_neg (by simp [ha])]
  · obtain ⟨pre, ata, hm⟩ := m2 (by rw [← hacc]; exact hpos)
    refine ⟨pre, ata, ?_⟩
    rw [hm, ← hacc, c3]
  · intro ins hins amount hdata
    rcases List.mem_append.mp hins with hm | hm
    · have h2' : burnStep sdk b.config tx' = .ok burnPart := h2
      unfold burnStep at h2'
      split_ifs at h2'
      · split at h2'
        · cases h2'
        · cases h2'
          simp only [List.mem_singleton] at hm
          subst hm
          cases hdata
      · cases h2'
        cases hm
    · rcases transferStep_data h3 ins hm with hd | hd | hd <;> rw [hd] at hdata <;> cases hdata

/-- C14 (amended), at a policy with accrual enabled and rate 100 and a payment of
1 000 000: the attempt accrues 10 000. -/
theorem c14_accrual_witness :
    ({ Example.built false 1000000 0 1000000 with AccruedBonusAmount := 10000 } :
      Transaction).AccruedBonusAmount =
    ({ Example.built false 1000000 0 1000000 with AccruedBonusAmount := 10000 } :
      Transaction).TotalAmount *
      effectiveRate { Example.config 0 0 with AccrueBonus := true, AccrueBonusRate := 100 } /
        10000 :=
  (c14_accrual Example.sdk (Example.sol 0) Example.jup
    { Example.config 0 0 with AccrueBonus := true, AccrueBonusRate := 100 }
    { Example.builder 0 0 0 with
      config := { Example.config 0 0 with AccrueBonus := true, AccrueBonusRate := 100 } }
    (Example.draft false) (Example.payment 1000000) "base64"
    { Example.built false 1000000 0 1000000 with AccruedBonusAmount := 10000 }
    rfl rfl rfl (by decide)).1 rfl

/-! ## C15 and C16: the status gate and the payment link -/

theorem statusRejection_append (a x : String) (n : Nat) (hn : n < 16)
    (hlen : n < a.data.length) (hne : a.data[n]? ≠ "payment already ".data[n]?) :
    statusRejection (a ++ x) = false := by
  unfold statusRejection
  rw [String.data_append]
  by_contra hc
  simp only [Bool.not_eq_false, beq_iff_eq] at hc
  apply hne
  have h1 : ((a.data ++ x.data).take 16)[n]? = (a.data ++ x.data)[n]? :=
    List.getElem?_take_of_lt hn
  rw [hc, List.getElem?_append_left hlen] at h1
  exact h1.symm

theorem BuildTransaction_gate (s : Service) (st : Store) (payment : Payment) (tx : Transaction)
    (hget : s.GetPayment st tx.PaymentID = .ok payment)
    (hst : payment.Status ≠ PaymentStatusNew ∧ payment.Status ≠ PaymentStatusPending) :
    (∃ e, s.BuildTransaction st tx = (.error e, st)) ∧
    (tx.PaymentID ≠ uuidNil → tx.SourceWallet ≠ "" →
      s.BuildTransaction st tx = (.error ("payment already " ++ payment.Status), st)) := by
  have key : tx.PaymentID ≠ uuidNil → tx.SourceWallet ≠ "" →
      s.BuildTransaction st tx = (.error ("payment already " ++ payment.Status), st) := by
    intro h1 h2
    unfold Service.BuildTransaction
    rw [if_neg h1, if_neg h2, hget]
    dsimp only
    rw [if_pos hst]
  refine ⟨?_, key⟩
  by_cases h1 : tx.PaymentID = uuidNil
  · exact ⟨_, by unfold Service.BuildTransaction; rw [if_pos h1]⟩
  · by_cases h2 : tx.SourceWallet = ""
    · exact ⟨_, by unfold Service.BuildTransaction; rw [if_neg h1, if_pos h2]⟩
    · exact ⟨_, key h1 h2⟩

theorem BuildTransaction_errors (s : Service) (st st' : Store) (payment : Payment)
    (tx : Transaction) (e : String)
    (hget : s.GetPayment st tx.PaymentID = .ok payment)
    (hst : ¬ (payment.Status ≠ PaymentStatusNew ∧ payment.Status ≠ PaymentStatusPending))
    (h : s.BuildTransaction st tx = (.error e, st')) : statusRejection e = false := by
  unfold Service.BuildTransaction at h
  split_ifs at h with h1 h2
  · cases h; rfl
  · cases h; rfl
  · rw [hget] at h
    dsimp only at h
    rw [if_neg hst] at h
    split at h
    · cases h
      exact statusRejection_append _ _ 2 (by decide) (by decide) (by decide)
    · split at h
      · cases h
        exact statusRejection_append _ _ 0 (by decide) (by decide) (by decide)
      · split at h
        · cases h
          exact statusRejection_append _ _ 0 (by decide) (by decide) (by decide)
        · cases h

/-- C15: for a payment whose status is completed, failed, canceled or expired,
`GeneratePaymentLink` returns the error `payment already <status>`, and
`BuildTransaction` returns an error and leaves the store as it is; for a draft
with a payment id and a source wallet that error is `payment already <status>`
whatever the ledger client, the swap provider and the policy are. For a payment
whose status is new or pending `GeneratePaymentLink` returns a link and no error
of `BuildTransaction` is a rejection on status grounds. -/
theorem c15_status_gate (s : Service) (st : Store) (payment : Payment) (tx : Transaction)
    (mint : String) (applyBonus : Bool)
    (hget : s.GetPayment st tx.PaymentID = .ok payment) :
    (payment.Status = PaymentStatusCompleted ∨ payment.Status = PaymentStatusFailed ∨
        payment.Status = PaymentStatusCanceled ∨ payment.Status = PaymentStatusExpired →
      s.GeneratePaymentLink st tx.PaymentID mint applyBonus =
        .error ("payment already " ++ payment.Status) ∧
      (∃ e, s.BuildTransaction st tx = (.error e, st)) ∧
      (tx.PaymentID ≠ uuidNil → tx.SourceWallet ≠ "" →
        s.BuildTransaction st tx = (.error ("payment already " ++ payment.Status), st))) ∧
    (payment.Status = PaymentStatusNew ∨ payment.Status = PaymentStatusPending →
      (∃ link, s.GeneratePaymentLink st tx.PaymentID mint applyBonus = .ok link) ∧
      ∀ e st', s.BuildTransaction st tx = (.error e, st') → statusRejection e = false) := by
  constructor
  · intro hterm
    have hst : payment.Status ≠ PaymentStatusNew ∧ payment.Status ≠ PaymentStatusPending := by
      rcases hterm with h | h | h | h <;> rw [h] <;> decide
    obtain ⟨g1, g2⟩ := BuildTransaction_gate s st payment tx hget hst
    refine ⟨?_, g1, g2⟩
    unfold Service.GeneratePaymentLink
    rw [hget]
    dsimp only
    rw [if_pos hst]
  · intro hopen
    have hst : ¬ (payment.Status ≠ PaymentStatusNew ∧ payment.Status ≠ PaymentStatusPending) := by
      rcases hopen with h | h <;> simp [h]
    refine ⟨?_, fun e st' h => BuildTransaction_errors s st st' payment tx e hget hst h⟩
    unfold Service.GeneratePaymentLink
    rw [hget]
    dsimp only
    rw [if_neg hst]
    exact ⟨_, rfl⟩

/-- C15, at the example store: a canceled payment is refused a link and an
attempt, and the store is unchanged; a new payment gets a link, and its attempt
is built. -/
theorem c15_status_gate_witness :
    Example.service.GeneratePaymentLink (Example.store RepoPaymentStatusCanceled []) "p1" ""
      true = .error "payment already canceled" ∧
    Example.service.BuildTransaction (Example.store RepoPaymentStatusCanceled [])
      (Example.draft true) =
      (.error "payment already canceled", Example.store RepoPaymentStatusCanceled []) ∧
    (∃ link, Example.service.GeneratePaymentLink (Example.store RepoPaymentStatusNew []) "p1" ""
      true = .ok link) ∧
    (Example.service.BuildTransaction (Example.store RepoPaymentStatusNew [])
      (Example.draft true)).1.toOption.isSome = true :=
  have k := (c15_status_gate Example.service (Example.store RepoPaymentStatusCanceled [])
    { Example.payment 100 with ExternalID := "order-1", Status := PaymentStatusCanceled }
    (Example.draft true) "" true rfl).1 (Or.inr (Or.inr (Or.inl rfl)))
  have k2 := (c15_status_gate Example.service (Example.store RepoPaymentStatusNew [])
    { Example.payment 100 with ExternalID := "order-1" }
    (Example.draft true) "" true rfl).2 (Or.inl rfl)
  ⟨k.1, k.2.2 (by decide) (by decide), k2.1, by decide⟩

theorem isSlash_iff (c : Char) : (decide (c ∈ "/".data) = true) ↔ c = '/' := by
  have e : "/".data = ['/'] := rfl
  rw [decide_eq_true_eq, e, List.mem_singleton]

theorem dropWhile_eq (p : Char → Bool) (hp : ∀ c, p c = true ↔ c = '/') (l : List Char) :
    ∃ k, l = List.replicate k '/' ++ l.dropWhile p ∧ (l.dropWhile p).head? ≠ some '/' := by
  induction l with
  | nil => exact ⟨0, rfl, by simp⟩
  | cons c rest ih =>
    by_cases hc : p c = true
    · obtain ⟨k, h1, h2⟩ := ih
      have e : c = '/' := (hp c).mp hc
      refine ⟨k + 1, ?_, ?_⟩
      · rw [List.dropWhile_cons_of_pos hc, List.replicate_succ, List.cons_append, ← h1, e]
      · rw [List.dropWhile_cons_of_pos hc]
        exact h2
    · refine ⟨0, ?_, ?_⟩
      · rw [List.dropWhile_cons_of_neg hc]
        rfl
      · rw [List.dropWhile_cons_of_neg hc]
        simp only [List.head?_cons, ne_eq, Option.some.injEq]
        exact fun e => hc ((hp c).mpr e)

theorem dropWhile_slash (l : List Char) :
    ∃ k, l = List.replicate k '/' ++ l.dropWhile (fun c => c ∈ "/".data) ∧
      (l.dropWhile (fun c => c ∈ "/".data)).head? ≠ some '/' :=
  dropWhile_eq (fun c => decide (c ∈ "/".data)) isSlash_iff l

theorem dropWhile_slash_of_not_mem (l : List Char) (h : '/' ∉ l) :
    l.dropWhile (fun c => c ∈ "/".data) = l := by
  cases l with
  | nil => rfl
  | cons c rest =>
    have hc : ¬ ((fun c => decide (c ∈ "/".data)) c = true) := by
      intro hm
      have e : c = '/' := (isSlash_iff c).mp hm
      subst e
      exact h (List.mem_cons_self _ _)
    exact List.dropWhile_cons_of_neg hc

theorem TrimRight_slash (s : String) :
    ∃ k, s.data = (TrimRight s "/").data ++ List.replicate k '/' ∧
      (TrimRight s "/").data.getLast? ≠ some '/' := by
  obtain ⟨k, h1, h2⟩ := dropWhile_slash s.data.reverse
  refine ⟨k, ?_, ?_⟩
  · have := congrArg List.reverse h1
    rw [List.reverse_reverse, List.reverse_append, List.reverse_replicate] at this
    exact this
  · show ((s.data.reverse.dropWhile (fun c => c ∈ "/".data)).reverse).getLast? ≠ some '/'
    rw [List.getLast?_reverse]
    exact h2

theorem Trim_slash (s : String) :
    ∃ j k, s.data = List.replicate j '/' ++ (Trim s "/").data ++ List.replicate k '/' ∧
      (Trim s "/").data.head? ≠ some '/' ∧ (Trim s "/").data.getLast? ≠ some '/' := by
  obtain ⟨j, h1, h2⟩ := dropWhile_slash s.data
  obtain ⟨k, h3, h4⟩ := TrimRight_slash (TrimLeft s "/")
  have hl : (TrimLeft s "/").data = s.data.dropWhile (fun c => c ∈ "/".data) := rfl
  refine ⟨j, k, ?_, ?_, h4⟩
  · show s.data = List.replicate j '/' ++ (TrimRight (TrimLeft s "/") "/").data ++ _
    rw [List.append_assoc, ← h3, hl]
    exact h1
  · show (TrimRight (TrimLeft s "/") "/").data.head? ≠ some '/'
    intro hh
    rw [hl] at h3
    apply h2
    rw [h3]
    cases hd : (TrimRight (TrimLeft s "/") "/").data with
    | nil => rw [hd] at hh; cases hh
    | cons c rest =>
      rw [hd] at hh
      exact hh

theorem Trim_of_not_mem (s : String) (h : '/' ∉ s.data) : Trim s "/" = s := by
  have h1 : TrimLeft s "/" = s := by
    show String.mk (s.data.dropWhile (fun c => c ∈ "/".data)) = s
    rw [dropWhile_slash_of_not_mem _ h]
  unfold Trim
  rw [h1]
  show String.mk ((s.data.reverse.dropWhile (fun c => c ∈ "/".data)).reverse) = s
  rw [dropWhile_slash_of_not_mem _ (by simpa using h), List.reverse_reverse]

/-- C16 (counterexample): for the mint text `/So11111111111111111111111111111111111111112`,
which `MintAddress` returns as it is, the link carries the mint without its
leading slash, so it is not the concatenation of the claim. -/
theorem c16_mint_slash_stripped :
    MintAddress "/So11111111111111111111111111111111111111112" USDC =
      "/So11111111111111111111111111111111111111112" ∧
    (Example.linkService.GeneratePaymentLink (Example.store RepoPaymentStatusNew []) "p1"
        "/So11111111111111111111111111111111111111112" true).toOption =
      some "solana:https://pay.example/p1/So11111111111111111111111111111111111111112/true" ∧
    "solana:" ++ "https://pay.example" ++ "/" ++ "p1" ++ "/" ++
        MintAddress "/So11111111111111111111111111111111111111112" USDC ++ "/" ++ "true" ≠
      "solana:https://pay.example/p1/So11111111111111111111111111111111111111112/true" := by
  decide

/-- C16 (amended): for a payment in status new or pending and an id without a
slash, the link is `solana:` + B + `/` + id + `/` + M + `/` + `true` or `false`
according to `applyBonus`, where B is `SolPayBaseURL` without its trailing
slashes and M is `MintAddress(mint, payment.destination_mint)` without its
leading and trailing slashes; two calls with the same base URL, id, mint, flag
and destination mint return the same link. -/
theorem c16_link_format (s : Service) (st : Store) (payment : Payment) (id : UUID)
    (mint : String) (applyBonus : Bool)
    (hget : s.GetPayment st id = .ok payment)
    (hst : payment.Status = PaymentStatusNew ∨ payment.Status = PaymentStatusPending)
    (hid : '/' ∉ id.data) :
    s.GeneratePaymentLink st id mint applyBonus =
      .ok ("solana:" ++ TrimRight s.conf.SolPayBaseURL "/" ++ "/" ++ id ++ "/" ++
        Trim (MintAddress mint payment.DestinationMint) "/" ++ "/" ++
        (if applyBonus then "true" else "false")) ∧
    (∃ k, s.conf.SolPayBaseURL.data =
        (TrimRight s.conf.SolPayBaseURL "/").data ++ List.replicate k '/' ∧
      (TrimRight s.conf.SolPayBaseURL "/").data.getLast? ≠ some '/') ∧
    (∃ j k, (MintAddress mint payment.DestinationMint).data =
        List.replicate j '/' ++ (Trim (MintAddress mint payment.DestinationMint) "/").data ++
          List.replicate k '/' ∧
      (Trim (MintAddress mint payment.DestinationMint) "/").data.head? ≠ some '/' ∧
      (Trim (MintAddress mint payment.DestinationMint) "/").data.getLast? ≠ some '/') ∧
    ∀ (s2 : Service) (st2 : Store) (payment2 : Payment),
      s2.GetPayment st2 id = .ok payment2 →
      (payment2.Status = PaymentStatusNew ∨ payment2.Status = PaymentStatusPending) →
      s2.conf.SolPayBaseURL = s.conf.SolPayBaseURL →
      payment2.DestinationMint = payment.DestinationMint →
      s2.GeneratePaymentLink st2 id mint applyBonus =
        s.GeneratePaymentLink st id mint applyBonus := by
  have key : ∀ (s : Service) (st : Store) (payment : Payment),
      s.GetPayment st id = .ok payment →
      (payment.Status = PaymentStatusNew ∨ payment.Status = PaymentStatusPending) →
      s.GeneratePaymentLink st id mint applyBonus =
        .ok ("solana:" ++ TrimRight s.conf.SolPayBaseURL "/" ++ "/" ++ id ++ "/" ++
          Trim (MintAddress mint payment.DestinationMint) "/" ++ "/" ++
          (if applyBonus then "true" else "false")) := by
    intro s st payment hget hst
    have hst' : ¬ (payment.Status ≠ PaymentStatusNew ∧ payment.Status ≠ PaymentStatusPending) := by
      rcases hst with h | h <;> simp [h]
    unfold Service.GeneratePaymentLink
    rw [hget]
    dsimp only
    rw [if_neg hst', Trim_of_not_mem id hid]
    simp only [Join, FormatBool, String.append_assoc]
  refine ⟨key s st payment hget hst, TrimRight_slash _, Trim_slash _, ?_⟩
  intro s2 st2 payment2 hget2 hst2 hbase hmint
  rw [key s st payment hget hst, key s2 st2 payment2 hget2 hst2, hbase, hmint]

/-- C16 (amended), at the example service with the base URL
`https://pay.example/` and the currency symbol `usdc`. -/
theorem c16_link_format_witness :
    Example.linkService.GeneratePaymentLink (Example.store RepoPaymentStatusNew []) "p1" "usdc"
      false =
      .ok ("solana:" ++ TrimRight "https://pay.example/" "/" ++ "/" ++ "p1" ++ "/" ++
        Trim (MintAddress "usdc" USDC) "/" ++ "/" ++ "false") :=
  (c16_link_format Example.linkService (Example.store RepoPaymentStatusNew [])
    { Example.payment 100 with ExternalID := "order-1" } "p1" "usdc" false rfl
    (Or.inl rfl) (by decide)).1

/-! ## C17: events of a status update -/

/-- C17 (counterexample): for a new payment and the requested status `bogus`,
which is none of the defined statuses, the lookup and the inner update succeed
and the requested status differs from the previous one, yet the decorator fires
no event and returns the error `unknown payment status bogus`. -/
theorem c17_unknown_status_no_event :
    (Example.service.GetPayment (Example.store RepoPaymentStatusNew []) "p1").toOption.map
      (fun p => p.Status) = some PaymentStatusNew ∧
    PaymentStatusNew ≠ "bogus" ∧
    Example.service.UpdatePaymentStatus (Example.store RepoPaymentStatusNew []) "p1" "bogus" =
      (.ok (), Example.store RepoPaymentStatusNew []) ∧
    ServiceEvents.UpdatePaymentStatus ⟨Example.service⟩ (Example.store RepoPaymentStatusNew [])
      "p1" "bogus" =
      (.error "unknown payment status bogus", Example.store RepoPaymentStatusNew [], []) := by
  refine ⟨by decide, by decide, rfl, rfl⟩

/-- C17 (amended): `ServiceEvents.UpdatePaymentStatus` fires exactly one event
when the inner update succeeds, the requested status differs from the payment's
previous status and the requested status is one of the defined statuses, namely
the event `getEventName` assigns to the new status (pending: payment.processing,
completed: payment.succeeded, failed: payment.failed, canceled:
payment.cancelled, expired: payment.expired); it fires no event when the status
is unchanged or when the lookup or the inner update fails. -/
theorem c17_status_events (s : ServiceEvents) (st : Store) (id : UUID)
    (status : PaymentStatus) :
    (∀ prev st', s.inner.GetPayment st id = .ok prev →
      s.inner.UpdatePaymentStatus st id status = (.ok (), st') →
      (prev.Status ≠ status →
        status ∈ [PaymentStatusNew, PaymentStatusPending, PaymentStatusCompleted,
          PaymentStatusFailed, PaymentStatusCanceled, PaymentStatusExpired] →
        s.UpdatePaymentStatus st id status =
          (.ok (), st', [⟨getEventName status, .paymentStatusUpdated id status⟩])) ∧
      (prev.Status = status → s.UpdatePaymentStatus st id status = (.ok (), st', []))) ∧
    (∀ e, s.inner.GetPayment st id = .error e →
      s.UpdatePaymentStatus st id status = (.error e, st, [])) ∧
    (∀ prev e st', s.inner.GetPayment st id = .ok prev →
      s.inner.UpdatePaymentStatus st id status = (.error e, st') →
      s.UpdatePaymentStatus st id status = (.error e, st', [])) ∧
    (getEventName PaymentStatusPending = "payment.processing" ∧
      getEventName PaymentStatusCompleted = "payment.succeeded" ∧
      getEventName PaymentStatusFailed = "payment.failed" ∧
      getEventName PaymentStatusCanceled = "payment.cancelled" ∧
      getEventName PaymentStatusExpired = "payment.expired") := by
  refine ⟨fun prev st' hget hupd => ⟨fun hne hmem => ?_, fun heq => ?_⟩, fun e hget => ?_,
    fun prev e st' hget hupd => ?_, by decide⟩
  · unfold ServiceEvents.UpdatePaymentStatus
    rw [hget]
    dsimp only
    rw [hupd]
    dsimp only
    rw [if_pos hne]
    have hname : getEventName status ≠ "" := by
      simp only [List.mem_cons, List.mem_singleton, List.not_mem_nil, or_false] at hmem
      rcases hmem with h | h | h | h | h | h <;> rw [h] <;> decide
    rw [if_neg hname]
  · unfold ServiceEvents.UpdatePaymentStatus
    rw [hget]
    dsimp only
    rw [hupd]
    dsimp only
    rw [if_neg (not_not.mpr heq)]
  · unfold ServiceEvents.UpdatePaymentStatus
    rw [hget]
  · unfold ServiceEvents.UpdatePaymentStatus
    rw [hget]
    dsimp only
    rw [hupd]

/-- C17 (amended), at the example store: moving the new payment to pending
fires the one event `payment.processing`. -/
theorem c17_status_events_witness :
    ServiceEvents.UpdatePaymentStatus ⟨Example.service⟩ (Example.store RepoPaymentStatusNew [])
      "p1" PaymentStatusPending =
      (.ok (), Example.store RepoPaymentStatusPending [],
        [⟨"payment.processing", .paymentStatusUpdated "p1" PaymentStatusPending⟩]) :=
  ((c17_status_events ⟨Example.service⟩ (Example.store RepoPaymentStatusNew []) "p1"
    PaymentStatusPending).1
    { Example.payment 100 with ExternalID := "order-1" }
    (Example.store RepoPaymentStatusPending []) rfl rfl).1 (by decide) (by decide)

/-! ## C18: the instruction loop of the composer -/

namespace TransactionBuilder

theorem PrepareInstructions_eq (b : TransactionBuilder) (c : SolanaClient) :
    b.PrepareInstructions c =
      match collect c b.instructions with
      | .error e => .error e
      | .ok r => .ok (b.rawInstructionsBefore ++ r ++ b.rawInstructionsAfter) := by
  have hb : (if b.rawInstructionsBefore.length > 0 then
      ([] : List Instruction) ++ b.rawInstructionsBefore else []) = b.rawInstructionsBefore := by
    cases b.rawInstructionsBefore with
    | nil => rfl
    | cons x xs => simp
  unfold PrepareInstructions
  simp only [hb, resolve_eq_collect]
  cases collect c b.instructions with
  | error e => rfl
  | ok r =>
    dsimp only
    cases h : b.rawInstructionsAfter with
    | nil => simp
    | cons x xs => simp

theorem collect_all (c : SolanaClient) :
    ∀ (fs : List InstructionFunc) (parts : List (List Instruction)),
      List.Forall₂ (fun f part => f c = .ok part) fs parts →
      collect c fs = .ok parts.flatten := by
  intro fs parts h
  induction h with
  | nil => rfl
  | cons hf _ ih =>
    unfold collect
    rw [hf]
    dsimp only
    rw [ih]
    rfl

theorem invoked_all (c : SolanaClient) :
    ∀ (fs : List InstructionFunc) (parts : List (List Instruction)),
      List.Forall₂ (fun f part => f c = .ok part) fs parts →
      ∀ rest, invoked c (fs ++ rest) = fs.length + invoked c rest := by
  intro fs parts h
  induction h with
  | nil => intro rest; simp
  | @cons g part gs ps hf _ ih =>
    intro rest
    have e : invoked c (g :: gs ++ rest) = 1 + invoked c (gs ++ rest) := by
      show (match g c with
        | .error _ => 1
        | .ok _ => 1 + invoked c (gs ++ rest)) = _
      rw [hf]
    rw [e, ih rest, List.length_cons]
    omega

theorem collect_fails (c : SolanaClient) (f : InstructionFunc) (e : String)
    (hf : f c = .error e) :
    ∀ (pre : List InstructionFunc) (parts : List (List Instruction)) (post : List InstructionFunc),
      List.Forall₂ (fun f part => f c = .ok part) pre parts →
      collect c (pre ++ f :: post) = .error ("failed to prepare instructions: " ++ e) := by
  intro pre parts post h
  induction h with
  | nil =>
    rw [List.nil_append]
    unfold collect
    rw [hf]
  | cons hg _ ih =>
    rw [List.cons_append]
    unfold collect
    rw [hg]
    dsimp only
    rw [ih]

end TransactionBuilder

/-- C18: when every closure succeeds, `PrepareInstructions` returns
`rawInstructionsBefore`, then the instruction lists of the closures concatenated
in the order of `instructions`, then `rawInstructionsAfter`. When the closures
before `f` succeed and `f` fails with `e`, it returns the error `e` wrapped in
`failed to prepare instructions` and no list; exactly the closures up to `f` are
invoked, and the result is the same whatever closures follow `f`. The three
`Add` methods append to their list, so the order of the lists is the order of
the calls. -/
theorem c18_prepare_instructions (b : TransactionBuilder) (c : SolanaClient) :
    (∀ parts, List.Forall₂ (fun f part => f c = .ok part) b.instructions parts →
      b.PrepareInstructions c =
        .ok (b.rawInstructionsBefore ++ parts.flatten ++ b.rawInstructionsAfter)) ∧
    (∀ pre f post parts e, b.instructions = pre ++ f :: post →
      List.Forall₂ (fun f part => f c = .ok part) pre parts → f c = .error e →
      b.PrepareInstructions c = .error ("failed to prepare instructions: " ++ e) ∧
      TransactionBuilder.invoked c b.instructions = pre.length + 1 ∧
      ∀ post', TransactionBuilder.PrepareInstructions
          { b with instructions := pre ++ f :: post' } c = b.PrepareInstructions c) ∧
    (∀ f, (b.AddInstruction f).instructions = b.instructions ++ [f]) ∧
    (∀ ins, (b.AddRawInstructionsToBeginning ins).rawInstructionsBefore =
      b.rawInstructionsBefore ++ ins) ∧
    (∀ ins, (b.AddRawInstructionsToEnd ins).rawInstructionsAfter =
      b.rawInstructionsAfter ++ ins) := by
  refine ⟨fun parts h => ?_, fun pre f post parts e hb hpre hf => ⟨?_, ?_, fun post' => ?_⟩,
    fun _ => rfl, fun _ => rfl, fun _ => rfl⟩
  · rw [TransactionBuilder.PrepareInstructions_eq, TransactionBuilder.collect_all c _ _ h]
  · rw [TransactionBuilder.PrepareInstructions_eq, hb,
      TransactionBuilder.collect_fails c f e hf pre parts post hpre]
  · rw [hb, TransactionBuilder.invoked_all c pre parts hpre]
    unfold TransactionBuilder.invoked
    rw [hf]
  · rw [TransactionBuilder.PrepareInstructions_eq, TransactionBuilder.PrepareInstructions_eq, hb]
    dsimp only
    rw [TransactionBuilder.collect_fails c f e hf pre parts post hpre,
      TransactionBuilder.collect_fails c f e hf pre parts post' hpre]

/-- C18, at a composer with one raw instruction before, a native transfer, a
failing transfer of amount 0 placed after it, and one raw instruction after. -/
theorem c18_prepare_instructions_witness :
    TransactionBuilder.PrepareInstructions
      ((((NewTransactionBuilder none).AddRawInstructionsToBeginning
        [tokenBurn "A" "M" "Buyer" 1]).AddInstruction
        (TransferSOL ⟨"Buyer", "Merchant", "", 5⟩)).AddRawInstructionsToEnd
        [tokenMintTo "M" "A" "Auth" 1]) (Example.sol 0) =
      .ok ([tokenBurn "A" "M" "Buyer" 1] ++ [[systemTransfer "Buyer" "Merchant" 5]].flatten ++
        [tokenMintTo "M" "A" "Auth" 1]) ∧
    TransactionBuilder.PrepareInstructions
      (((NewTransactionBuilder none).AddInstruction
        (TransferSOL ⟨"Buyer", "Merchant", "", 5⟩)).AddInstruction
        (TransferSOL ⟨"Buyer", "Merchant", "", 0⟩)) (Example.sol 0) =
      .error ("failed to prepare instructions: " ++
        "invalid parameters for TransferSOL instruction: amount must be greater than 0") :=
  ⟨(c18_prepare_instructions _ (Example.sol 0)).1 [[systemTransfer "Buyer" "Merchant" 5]]
      (List.Forall₂.cons rfl List.Forall₂.nil),
   ((c18_prepare_instructions _ (Example.sol 0)).2.1
      [TransferSOL ⟨"Buyer", "Merchant", "", 5⟩] (TransferSOL ⟨"Buyer", "Merchant", "", 0⟩) []
      [[systemTransfer "Buyer" "Merchant" 5]] _ rfl
      (List.Forall₂.cons rfl List.Forall₂.nil) rfl).1⟩

/-! ## C19 and C20: the transfer closures -/

/-- C19: the closure of `TransferSOL` fails when the sender is empty, the
recipient is empty, the two are equal or the amount is 0. For all other
parameters it yields exactly one instruction, the system transfer of `Amount`
from `Sender` to `Recipient`; with a non-empty reference its account list is that
of the system transfer followed by the reference as a non-signer, read-only
account, and without a reference it is the system transfer unchanged. -/
theorem c19_transfer_sol (params : TransferSOLParams) (c : SolanaClient) :
    (params.Sender = "" ∨ params.Recipient = "" ∨ params.Sender = params.Recipient ∨
        params.Amount = 0 →
      ∃ e, TransferSOL params c = .error e) ∧
    (params.Sender ≠ "" → params.Recipient ≠ "" → params.Sender ≠ params.Recipient →
        params.Amount ≠ 0 →
      (params.Reference ≠ "" →
        TransferSOL params c =
          .ok [{ ProgramID := SystemProgramID
                 Accounts :=
                  (systemTransfer params.Sender params.Recipient params.Amount).Accounts ++
                    [⟨params.Reference, false, false⟩]
                 Data := .systemTransfer params.Amount }]) ∧
      (params.Reference = "" →
        TransferSOL params c =
          .ok [systemTransfer params.Sender params.Recipient params.Amount])) := by
  constructor
  · intro h
    have hv : ∃ e, params.Validate = .error e := by
      unfold TransferSOLParams.Validate
      by_cases h1 : params.Sender = ""
      · exact ⟨_, by rw [if_pos h1]⟩
      · by_cases h2 : params.Recipient = ""
        · exact ⟨_, by rw [if_neg h1, if_pos h2]⟩
        · by_cases h3 : params.Sender = params.Recipient
          · exact ⟨_, by rw [if_neg h1, if_neg h2, if_pos h3]⟩
          · have h4 : params.Amount ≤ 0 := by
              rcases h with h | h | h | h
              · exact absurd h h1
              · exact absurd h h2
              · exact absurd h h3
              · omega
            exact ⟨_, by rw [if_neg h1, if_neg h2, if_neg h3, if_pos h4]⟩
    obtain ⟨e, he⟩ := hv
    unfold TransferSOL
    rw [he]
    exact ⟨_, rfl⟩
  · intro h1 h2 h3 h4
    have hv : params.Validate = .ok () := by
      unfold TransferSOLParams.Validate
      rw [if_neg h1, if_neg h2, if_neg h3, if_neg (by omega)]
    constructor
    · intro hr
      unfold TransferSOL
      rw [hv]
      dsimp only
      rw [if_pos hr]
      rfl
    · intro hr
      unfold TransferSOL
      rw [hv]
      dsimp only
      rw [if_neg (not_not.mpr hr)]

/-- C19, at a transfer of 2 500 000 lamports tagged with the reference `Ref`. -/
theorem c19_transfer_sol_witness :
    TransferSOL ⟨"Buyer", "Merchant", "Ref", 2500000⟩ (Example.sol 0) =
      .ok [{ ProgramID := SystemProgramID
             Accounts := [⟨"Buyer", true, true⟩, ⟨"Merchant", false, true⟩,
              ⟨"Ref", false, false⟩]
             Data := .systemTransfer 2500000 }] ∧
    (∃ e, TransferSOL ⟨"Buyer", "Buyer", "Ref", 2500000⟩ (Example.sol 0) = .error e) :=
  ⟨((c19_transfer_sol ⟨"Buyer", "Merchant", "Ref", 2500000⟩ (Example.sol 0)).2
      (by decide) (by decide) (by decide) (by decide)).1 (by decide),
   (c19_transfer_sol ⟨"Buyer", "Buyer", "Ref", 2500000⟩ (Example.sol 0)).1
      (Or.inr (Or.inr (Or.inl rfl)))⟩

/-- C20: for valid parameters whose two associated token addresses are derived,
the closure of `TransferToken` yields the creation of the recipient's associated
token account (funder the sender, owner the recipient, the mint) followed by the
token transfer when the ledger client reports that this account does not exist,
and the token transfer alone when it exists. In both cases the last instruction
is the transfer of `Amount` from the sender's to the recipient's associated
account with the sender as authority, tagged with the reference. -/
theorem c20_transfer_token (sdk : SDK) (params : TransferTokenParam) (c : SolanaClient)
    (senderAta recipientAta : String)
    (hv : params.Validate = .ok ())
    (hs : sdk.FindAssociatedTokenAddress params.Sender params.Mint = .ok senderAta)
    (hr : sdk.FindAssociatedTokenAddress params.Recipient params.Mint = .ok recipientAta) :
    ((c.DoesTokenAccountExist recipientAta).1 = false →
      TransferToken sdk params c =
        .ok [createAssociatedTokenAccount params.Sender params.Recipient params.Mint
              recipientAta,
            tagged (tokenTransfer senderAta recipientAta params.Sender params.Amount)
              params.Reference]) ∧
    ((c.DoesTokenAccountExist recipientAta).1 = true →
      TransferToken sdk params c =
        .ok [tagged (tokenTransfer senderAta recipientAta params.Sender params.Amount)
          params.Reference]) ∧
    (∃ out, TransferToken sdk params c = .ok out ∧
      out.getLast? =
        some (tagged (tokenTransfer senderAta recipientAta params.Sender params.Amount)
          params.Reference)) ∧
    (tokenTransfer senderAta recipientAta params.Sender params.Amount).Accounts =
      [⟨senderAta, false, true⟩, ⟨recipientAta, false, true⟩, ⟨params.Sender, true, false⟩] ∧
    (createAssociatedTokenAccount params.Sender params.Recipient params.Mint
        recipientAta).Accounts.take 4 =
      [⟨params.Sender, true, true⟩, ⟨recipientAta, false, true⟩,
        ⟨params.Recipient, false, false⟩, ⟨params.Mint, false, false⟩] := by
  have key : TransferToken sdk params c =
      .ok ((if !(c.DoesTokenAccountExist recipientAta).1 then
          [createAssociatedTokenAccount params.Sender params.Recipient params.Mint
            recipientAta]
        else []) ++
        [tagged (tokenTransfer senderAta recipientAta params.Sender params.Amount)
          params.Reference]) := by
    unfold TransferToken
    rw [hv]
    dsimp only
    rw [hs]
    dsimp only
    rw [hr]
    rfl
  refine ⟨fun h => ?_, fun h => ?_, ?_, rfl, rfl⟩
  · rw [key, h]
    rfl
  · rw [key, h]
    rfl
  · rw [key]
    exact ⟨_, rfl, by simp⟩

/-- C20, at a transfer of 900 000 USDC on a ledger where the merchant's token
account exists, and on a ledger where no token account exists. -/
theorem c20_transfer_token_witness :
    TransferToken Example.sdk ⟨"Buyer", "Merchant", USDC, "Ref", 900000⟩ (Example.sol 0) =
      .ok [tagged (tokenTransfer "Buyer/EPjFWdd5AufqSSqeM2qN1xzybapC8G4wEGGkZwyTDt1v"
        "Merchant/EPjFWdd5AufqSSqeM2qN1xzybapC8G4wEGGkZwyTDt1v" "Buyer" 900000) "Ref"] ∧
    TransferToken Example.sdk ⟨"Buyer", "Merchant", USDC, "Ref", 900000⟩
        { Example.sol 0 with DoesTokenAccountExist := fun _ => (false, none) } =
      .ok [createAssociatedTokenAccount "Buyer" "Merchant" USDC
          "Merchant/EPjFWdd5AufqSSqeM2qN1xzybapC8G4wEGGkZwyTDt1v",
        tagged (tokenTransfer "Buyer/EPjFWdd5AufqSSqeM2qN1xzybapC8G4wEGGkZwyTDt1v"
          "Merchant/EPjFWdd5AufqSSqeM2qN1xzybapC8G4wEGGkZwyTDt1v" "Buyer" 900000) "Ref"] :=
  ⟨(c20_transfer_token Example.sdk ⟨"Buyer", "Merchant", USDC, "Ref", 900000⟩ (Example.sol 0)
      "Buyer/EPjFWdd5AufqSSqeM2qN1xzybapC8G4wEGGkZwyTDt1v"
      "Merchant/EPjFWdd5AufqSSqeM2qN1xzybapC8G4wEGGkZwyTDt1v" rfl rfl rfl).2.1 rfl,
   (c20_transfer_token Example.sdk ⟨"Buyer", "Merchant", USDC, "Ref", 900000⟩
      { Example.sol 0 with DoesTokenAccountExist := fun _ => (false, none) }
      "Buyer/EPjFWdd5AufqSSqeM2qN1xzybapC8G4wEGGkZwyTDt1v"
      "Merchant/EPjFWdd5AufqSSqeM2qN1xzybapC8G4wEGGkZwyTDt1v" rfl rfl rfl).1 rfl⟩

/-! ## C21, C22 and C30: mint resolution -/

theorem defaultMints_some {key address : String} (h : defaultMints key = some address) :
    (key = "USDC" ∧ address = USDC) ∨ (key = "USDT" ∧ address = USDT) ∨
      (key = "SOL" ∧ address = SOL) := by
  unfold defaultMints at h
  split_ifs at h with h1 h2 h3
  · exact Or.inl ⟨h1, (Option.some.inj h).symm⟩
  · exact Or.inr (Or.inl ⟨h2, (Option.some.inj h).symm⟩)
  · exact Or.inr (Or.inr ⟨h3, (Option.some.inj h).symm⟩)

theorem defaultMints_none {key : String} (h1 : key ≠ "USDC") (h2 : key ≠ "USDT")
    (h3 : key ≠ "SOL") : defaultMints key = none := by
  unfold defaultMints
  rw [if_neg h1, if_neg h2, if_neg h3]

theorem MintAddress_unknown {currency fallback : String} (hne : currency ≠ "")
    (h : defaultMints (toUpper currency) = none) :
    MintAddress currency fallback = if byteLen currency < 40 then SOL else currency := by
  unfold MintAddress
  simp only [if_neg hne, h]

theorem MintAddress_address {a fallback : String} (h : defaultMints (toUpper a) = none)
    (hlen : 40 ≤ byteLen a) : MintAddress a fallback = a := by
  have hne : a ≠ "" := by
    intro e
    rw [e] at hlen
    exact absurd hlen (by decide)
  rw [MintAddress_unknown hne h, if_neg (by omega)]

/-- C21 (counterexample): a currency text of 20 characters, none of them a
letter of a known symbol, is returned unchanged instead of being resolved to the
native mint, because its UTF-8 encoding has 40 bytes. -/
theorem c21_short_text_kept :
    Example.accented.length = 20 ∧ byteLen Example.accented = 40 ∧
    MintAddress Example.accented USDC = Example.accented ∧ Example.accented ≠ SOL := by
  decide

/-- C21 (amended): with `c` the currency when that is non-empty and the fallback
otherwise, `MintAddress` returns the USDC, USDT or native mint when the
upper-case form of `c` is `USDC`, `USDT` or `SOL`; for every other `c` it returns
the native mint when `c` has fewer than 40 bytes (so also for the empty text) and
`c` itself when `c` has 40 bytes or more. -/
theorem c21_mint_address (currency fallback : String) :
    (toUpper (if currency = "" then fallback else currency) = "USDC" →
      MintAddress currency fallback = USDC) ∧
    (toUpper (if currency = "" then fallback else currency) = "USDT" →
      MintAddress currency fallback = USDT) ∧
    (toUpper (if currency = "" then fallback else currency) = "SOL" →
      MintAddress currency fallback = SOL) ∧
    (toUpper (if currency = "" then fallback else currency) ≠ "USDC" →
      toUpper (if currency = "" then fallback else currency) ≠ "USDT" →
      toUpper (if currency = "" then fallback else currency) ≠ "SOL" →
      (byteLen (if currency = "" then fallback else currency) < 40 →
        MintAddress currency fallback = SOL) ∧
      (40 ≤ byteLen (if currency = "" then fallback else currency) →
        MintAddress currency fallback = if currency = "" then fallback else currency)) := by
  refine ⟨fun h => ?_, fun h => ?_, fun h => ?_, fun h1 h2 h3 => ⟨fun hl => ?_, fun hl => ?_⟩⟩
  · unfold MintAddress
    simp only [h]
    rfl
  · unfold MintAddress
    simp only [h]
    rfl
  · unfold MintAddress
    simp only [h]
    rfl
  · unfold MintAddress
    simp only [defaultMints_none h1 h2 h3, if_pos hl]
  · unfold MintAddress
    simp only [defaultMints_none h1 h2 h3, if_neg (Nat.not_lt.mpr hl)]

/-- C21 (amended), at the symbol `usdc` in lower case, at an unknown short
symbol and at the empty text. -/
theorem c21_mint_address_witness :
    MintAddress "usdc" "" = USDC ∧ MintAddress "BONK" USDC = SOL ∧ MintAddress "" "" = SOL ∧
    MintAddress "" Example.otherMint = Example.otherMint :=
  ⟨(c21_mint_address "usdc" "").1 (by decide),
   ((c21_mint_address "BONK" USDC).2.2.2 (by decide) (by decide) (by decide)).1 (by decide),
   ((c21_mint_address "" "").2.2.2 (by decide) (by decide) (by decide)).1 (by decide),
   ((c21_mint_address "" Example.otherMint).2.2.2 (by decide) (by decide) (by decide)).2
     (by decide)⟩

/-- C22 (the code departs from the claim): `BONK` is not a key of
`defaultMints`, and for the fallback USDC the result is the native mint, not the
fallback; for an unknown mint address and the fallback USDC the result is that
address, not the fallback. The fallback is returned for the empty currency. -/
theorem c22_fallback_not_returned :
    defaultMints (toUpper "BONK") = none ∧ MintAddress "BONK" USDC = SOL ∧ SOL ≠ USDC ∧
    defaultMints (toUpper Example.otherMint) = none ∧
    MintAddress Example.otherMint USDC = Example.otherMint ∧ Example.otherMint ≠ USDC ∧
    MintAddress "" Example.otherMint = Example.otherMint := by
  decide

/-- Where the fallback is used: only for the empty currency, and then it is
resolved like a currency. A non-empty currency that is not a key of `defaultMints`
gives the native mint when it has fewer than 40 bytes and itself otherwise,
whatever the fallback. -/
theorem MintAddress_fallback_use (currency fallback : String) :
    (currency = "" → defaultMints (toUpper fallback) = none → 40 ≤ byteLen fallback →
      MintAddress currency fallback = fallback) ∧
    (currency ≠ "" → defaultMints (toUpper currency) = none →
      MintAddress currency fallback = if byteLen currency < 40 then SOL else currency) := by
  refine ⟨fun he h hl => ?_, fun hne h => MintAddress_unknown hne h⟩
  unfold MintAddress
  simp only [if_pos he, h, if_neg (Nat.not_lt.mpr hl)]

theorem MintAddress_cases (currency fallback : String) :
    (MintAddress currency fallback = USDC ∨ MintAddress currency fallback = USDT ∨
      MintAddress currency fallback = SOL) ∨
    (defaultMints (toUpper (MintAddress currency fallback)) = none ∧
      40 ≤ byteLen (MintAddress currency fallback)) := by
  unfold MintAddress
  dsimp only
  cases hm : defaultMints (toUpper (if currency = "" then fallback else currency)) with
  | some address =>
    left
    rcases defaultMints_some hm with ⟨_, h⟩ | ⟨_, h⟩ | ⟨_, h⟩
    · exact Or.inl h
    · exact Or.inr (Or.inl h)
    · exact Or.inr (Or.inr h)
  | none =>
    dsimp only
    by_cases hl : byteLen (if currency = "" then fallback else currency) < 40
    · rw [if_pos hl]
      exact Or.inl (Or.inr (Or.inr rfl))
    · rw [if_neg hl]
      exact Or.inr ⟨hm, Nat.not_lt.mp hl⟩

/-- C30 (counterexample): the address returned for a currency text of 20
two-byte characters has 20 characters, not 40. -/
theorem c30_twenty_characters :
    (MintAddress Example.accented SOL).length = 20 ∧
    MintAddress (MintAddress Example.accented SOL) USDC = MintAddress Example.accented SOL := by
  decide

/-- C30 (amended): `MintAddress` is idempotent, whatever the fallbacks, and its
result is never empty: it has at least 40 bytes. -/
theorem c30_idempotent (c f g : String) :
    MintAddress (MintAddress c f) g = MintAddress c f ∧ MintAddress c f ≠ "" ∧
    40 ≤ byteLen (MintAddress c f) := by
  have key : defaultMints (toUpper (MintAddress c f)) = none ∧
      40 ≤ byteLen (MintAddress c f) := by
    rcases MintAddress_cases c f with (h | h | h) | h
    · rw [h]; decide
    · rw [h]; decide
    · rw [h]; decide
    · exact h
  refine ⟨MintAddress_address key.1 key.2, ?_, key.2⟩
  intro e
  have h40 := key.2
  rw [e] at h40
  exact absurd h40 (by decide)

/-! ## C27: no attempt with a zero total -/

theorem Build_transfer_closure {sdk : SDK} {b : PaymentBuilder} {s : String}
    {tx' : Transaction} (h : b.Build sdk = .ok (s, tx')) :
    ∃ part, b.recalculated.transferClosure sdk b.sol = .ok part := by
  obtain ⟨w, hw, _⟩ := Build_wire h
  unfold PaymentBuilder.wire at hw
  split at hw
  · cases hw
  · rename_i builder hc
    obtain ⟨swapPart, _, hcl, hins, _, _⟩ := composed_ok hc
    obtain ⟨c, r, hc', hcol, _, _, _⟩ := TransactionBuilder.message_ok hw
    obtain ⟨m1, _, _, m4⟩ := mintBonus_builder sdk b.recalculated builder
    rw [m4, hcl] at hc'
    cases hc'
    rw [m1, hins, TransactionBuilder.collect_append] at hcol
    obtain ⟨x, mintPart, hx, _, _⟩ := hcol
    rw [TransactionBuilder.collect_append] at hx
    obtain ⟨burnPart, transferPart, _, htr, _⟩ := hx
    rw [TransactionBuilder.collect_singleton] at htr
    exact ⟨transferPart, htr⟩

theorem TransferSOL_amount {params : TransferSOLParams} {c : SolanaClient}
    {part : List Instruction} (h : TransferSOL params c = .ok part) : 0 < params.Amount := by
  unfold TransferSOL at h
  split at h
  · cases h
  · rename_i hv
    unfold TransferSOLParams.Validate at hv
    split_ifs at hv with h1 h2 h3 h4
    omega

theorem TransferToken_amount {sdk : SDK} {params : TransferTokenParam} {c : SolanaClient}
    {part : List Instruction} (h : TransferToken sdk params c = .ok part) :
    0 < params.Amount := by
  unfold TransferToken at h
  split at h
  · cases h
  · rename_i hv
    unfold TransferTokenParam.Validate at hv
    split_ifs at hv with h1 h2 h3 h4 h5
    omega

theorem transferClosure_amount {sdk : SDK} {b : PaymentBuilder} {c : SolanaClient}
    {part : List Instruction} (h : b.transferClosure sdk c = .ok part) :
    0 < b.tx.TotalAmount := by
  unfold PaymentBuilder.transferClosure at h
  split_ifs at h
  · exact TransferSOL_amount h
  · exact TransferToken_amount h

theorem Build_total_pos {sdk : SDK} {b : PaymentBuilder} {s : String} {tx' : Transaction}
    (h : b.Build sdk = .ok (s, tx')) :
    0 < tx'.TotalAmount ∧ tx'.TotalAmount = b.recalculated.tx.TotalAmount := by
  obtain ⟨part, hp⟩ := Build_transfer_closure h
  obtain ⟨_, builder, _, _, htx⟩ := Build_ok h
  have e := (mintBonus_tx_amounts sdk b.recalculated builder).2.2.1
  rw [← htx] at e
  exact ⟨by rw [e]; exact transferClosure_amount hp, e⟩

theorem subU64_lt (a b : Nat) : subU64 a b < U64 :=
  Nat.mod_lt _ (by decide)

theorem recalculate_total_lt (b : PaymentBuilder) (tx : Transaction)
    (h : tx.TotalAmount < U64) : (b.recalculateTotalAmount tx).TotalAmount < U64 := by
  unfold PaymentBuilder.recalculateTotalAmount
  simp only [Nat.not_lt_zero, if_false]
  split_ifs <;> first | exact h | exact subU64_lt _ _

theorem wrapInt64_ne_zero {t : Nat} (h0 : 0 < t) (h : t < U64) : wrapInt64 t ≠ 0 := by
  unfold wrapInt64
  unfold U64 at h
  omega

theorem Store.CreateTransaction_total {st st' : Store} {id : UUID}
    {arg : Store.CreateTransactionParams} {row : RepoTransaction}
    (h : st.CreateTransaction id arg = (.ok row, st')) :
    row.TotalAmount = arg.TotalAmount := by
  unfold Store.CreateTransaction at h
  split_ifs at h
  · cases h
  · simp only [Prod.mk.injEq, Except.ok.injEq] at h
    rw [← h.1]

theorem BuildTransaction_unchanged (svc : Service) (st st' : Store) (draft : Transaction)
    (e : String) (h : svc.BuildTransaction st draft = (.error e, st')) : st' = st := by
  unfold Service.BuildTransaction at h
  split_ifs at h with h1 h2
  · cases h; rfl
  · cases h; rfl
  · split at h
    · cases h; rfl
    · split_ifs at h with h3
      · cases h; rfl
      · dsimp only at h
        split at h
        · cases h; rfl
        · split at h
          · cases h; rfl
          · split at h
            · rename_i e' st'' hcreate
              simp only [Prod.mk.injEq] at h
              rw [← h.2]
              unfold Store.CreateTransaction at hcreate
              split_ifs at hcreate
              · simp only [Prod.mk.injEq] at hcreate
                exact hcreate.2.symm
              · cases hcreate
            · cases h

theorem subU64_self (a : Nat) : subU64 a a = 0 := by
  unfold subU64
  have h : a % U64 < U64 := Nat.mod_lt _ (by decide)
  have e : a % U64 + (U64 - a % U64) = U64 := by omega
  rw [e, Nat.mod_self]

theorem recalculated_full_discount (b : PaymentBuilder) (draft : Transaction) (p : Payment)
    (hD : draft.DiscountAmount = p.Amount) (hA : 0 < p.Amount) :
    (b.SetTransaction draft p).recalculated.tx.TotalAmount = 0 := by
  show (PaymentBuilder.recalculateTotalAmount _ (b.SetTransaction draft p).tx).TotalAmount = 0
  have e1 : (b.SetTransaction draft p).tx.Amount = p.Amount := rfl
  have e2 : (b.SetTransaction draft p).tx.DiscountAmount = p.Amount := hD
  unfold PaymentBuilder.recalculateTotalAmount
  rw [if_neg (by omega), if_pos (by omega)]
  simp only [Nat.not_lt_zero, if_false]
  rw [e1, e2]
  exact subU64_self _

/-- C27: a build whose total after the discount computation is 0 returns an
error, so every attempt returned by `Build` has a positive total; in particular a
draft whose discount equals the payment amount is not built. `BuildTransaction`
leaves the store as it is whenever it returns an error, and the row it inserts on
success has a total different from 0. -/
theorem c27_zero_total_not_built (sdk : SDK) (b : PaymentBuilder) (svc : Service)
    (st st' : Store) (draft : Transaction) (p : Payment) :
    (b.recalculated.tx.TotalAmount = 0 → ∃ e, b.Build sdk = .error e) ∧
    (∀ s tx', b.Build sdk = .ok (s, tx') → 0 < tx'.TotalAmount) ∧
    (draft.DiscountAmount = p.Amount → 0 < p.Amount →
      ∃ e, (b.SetTransaction draft p).Build sdk = .error e) ∧
    (∀ e, svc.BuildTransaction st draft = (.error e, st') → st' = st) ∧
    (∀ result, draft.TotalAmount < U64 →
      svc.BuildTransaction st draft = (.ok result, st') →
      ∃ row, st'.transactions = st.transactions ++ [row] ∧ row.TotalAmount ≠ 0) := by
  have key : ∀ (b : PaymentBuilder), b.recalculated.tx.TotalAmount = 0 →
      ∃ e, b.Build sdk = .error e := by
    intro b h0
    cases hb : b.Build sdk with
    | error e => exact ⟨e, rfl⟩
    | ok r =>
      obtain ⟨s, tx'⟩ := r
      obtain ⟨hpos, he⟩ := Build_total_pos hb
      omega
  refine ⟨key b, fun s tx' h => (Build_total_pos h).1,
    fun hD hA => key _ (recalculated_full_discount b draft p hD hA),
    fun e h => BuildTransaction_unchanged svc st st' draft e h, fun result hlt h => ?_⟩
  unfold Service.BuildTransaction at h
  split_ifs at h with h1 h2
  · cases h
  · cases h
  · split at h
    · cases h
    · rename_i payment hpay
      split_ifs at h with h3
      · cases h
      · dsimp only at h
        split at h
        · cases h
        · rename_i b' hb
          split at h
          · cases h
          · rename_i base64Tx tx' hbuild
            split at h
            · cases h
            · rename_i repoTx st'' hcreate
              simp only [Prod.mk.injEq, Except.ok.injEq] at h
              obtain ⟨_, htxs⟩ := Store.CreateTransaction_ok hcreate
              have hrow := Store.CreateTransaction_total hcreate
              obtain ⟨hpos, he⟩ := Build_total_pos hbuild
              refine ⟨repoTx, by rw [← h.2]; exact htxs, ?_⟩
              rw [hrow]
              show wrapInt64 tx'.TotalAmount ≠ 0
              apply wrapInt64_ne_zero hpos
              rw [he]
              apply recalculate_total_lt
              show (if draft.TotalAmount = 0 then _ else draft.TotalAmount) < U64
              split_ifs
              · exact subU64_lt _ _
              · exact hlt

/-- C27, at a payment of 1 000 000 whose buyer holds 1 000 000 of bonus with no
cap: the discount is the whole amount and the build fails. -/
theorem c27_zero_total_not_built_witness :
    ((Example.builder 0 0 1000000).SetTransaction (Example.draft true)
      (Example.payment 1000000)).recalculated.tx.DiscountAmount = 1000000 ∧
    (∃ e, ((Example.builder 0 0 1000000).SetTransaction (Example.draft true)
      (Example.payment 1000000)).Build Example.sdk = .error e) ∧
    (Example.service.BuildTransaction (Example.store RepoPaymentStatusNew [])
      { Example.draft false with DiscountAmount := 100 }).2 =
      Example.store RepoPaymentStatusNew [] :=
  ⟨by decide,
   (c27_zero_total_not_built Example.sdk
      ((Example.builder 0 0 1000000).SetTransaction (Example.draft true)
        (Example.payment 1000000))
      Example.service (Example.store RepoPaymentStatusNew [])
      (Example.store RepoPaymentStatusNew []) (Example.draft true)
      (Example.payment 1000000)).1 (by decide),
   by decide⟩

/-! ## C29: fields of an attempt fixed by the payment -/

/-- C29: `SetTransaction` overwrites the amount, destination wallet, destination
mint, reference, message and memo of the draft: two drafts that differ only in
these six fields give, for the same payment and the same builder, attempts that
are equal in every field, and the six fields of the attempt are the payment's
amount, its destination wallet (the policy's when the payment has none), its
resolved destination mint, the builder's reference, the payment's message and the
payment's external id. -/
theorem c29_draft_fields_overwritten (b : PaymentBuilder) (p : Payment) (draft : Transaction)
    (amount : Nat) (destinationWallet destinationMint reference message memo : String) :
    (b.SetTransaction
        { draft with
          Amount := amount, DestinationWallet := destinationWallet,
          DestinationMint := destinationMint, Reference := reference, Message := message,
          Memo := memo } p).tx = (b.SetTransaction draft p).tx ∧
    (b.SetTransaction draft p).tx.Amount = p.Amount ∧
    (b.SetTransaction draft p).tx.DestinationWallet =
      (if p.DestinationWallet = "" then b.config.DestinationWallet else p.DestinationWallet) ∧
    (b.SetTransaction draft p).tx.DestinationMint =
      MintAddress p.DestinationMint b.config.DestinationMint ∧
    (b.SetTransaction draft p).tx.Reference = b.referenceAccount ∧
    (b.SetTransaction draft p).tx.Message = p.Message ∧
    (b.SetTransaction draft p).tx.Memo = p.ExternalID :=
  ⟨rfl, rfl, rfl, rfl, rfl, rfl, rfl⟩

/-! ## C23: the webhook signature -/

theorem decodeChar_encodeChar : ∀ v, v < 64 → decodeChar (encodeChar v) = some v := by
  decide

theorem encodeChar_plain : ∀ v, v < 64 →
    encodeChar v ≠ '=' ∧ encodeChar v ≠ '\r' ∧ encodeChar v ≠ '\n' := by
  decide

theorem decodeQuanta_group (v0 v1 v2 v3 : Nat) (h0 : v0 < 64) (h1 : v1 < 64) (h2 : v2 < 64)
    (h3 : v3 < 64) (rest : List Char) :
    decodeQuanta (encodeChar v0 :: encodeChar v1 :: encodeChar v2 :: encodeChar v3 :: rest) =
      match decodeQuanta rest with
      | .error e => .error e
      | .ok bytes =>
        .ok ([v0 * 4 + v1 / 16, v1 % 16 * 16 + v2 / 4, v2 % 4 * 64 + v3] ++ bytes) := by
  rw [decodeQuanta]
  simp only [decodeChar_encodeChar v0 h0, decodeChar_encodeChar v1 h1,
    decodeChar_encodeChar v2 h2, decodeChar_encodeChar v3 h3,
    if_neg (encodeChar_plain v2 h2).1, if_neg (encodeChar_plain v3 h3).1]

theorem decodeQuanta_pad1 (v0 v1 v2 : Nat) (h0 : v0 < 64) (h1 : v1 < 64) (h2 : v2 < 64) :
    decodeQuanta [encodeChar v0, encodeChar v1, encodeChar v2, '='] =
      .ok [v0 * 4 + v1 / 16, v1 % 16 * 16 + v2 / 4] := by
  rw [decodeQuanta]
  simp only [decodeChar_encodeChar v0 h0, decodeChar_encodeChar v1 h1,
    decodeChar_encodeChar v2 h2, if_neg (encodeChar_plain v2 h2).1, if_true]

theorem decodeQuanta_pad2 (v0 v1 : Nat) (h0 : v0 < 64) (h1 : v1 < 64) :
    decodeQuanta [encodeChar v0, encodeChar v1, '=', '='] = .ok [v0 * 4 + v1 / 16] := by
  rw [decodeQuanta]
  simp only [decodeChar_encodeChar v0 h0, decodeChar_encodeChar v1 h1, and_self, if_true]

theorem decodeQuanta_StdEncode : ∀ (n : Nat) (b : Bytes), b.length ≤ n →
    (∀ x ∈ b, x < 256) → decodeQuanta (StdEncode b) = .ok b := by
  intro n
  induction n using Nat.strong_induction_on with
  | _ n ih =>
    intro b hn hb
    match b, hn, hb with
    | [], _, _ => rfl
    | [b0], _, hb =>
      have k0 : b0 < 256 := hb b0 (by simp)
      rw [StdEncode, decodeQuanta_pad2 _ _ (by omega) (by omega)]
      congr 2
      omega
    | [b0, b1], _, hb =>
      have k0 : b0 < 256 := hb b0 (by simp)
      have k1 : b1 < 256 := hb b1 (by simp)
      rw [StdEncode, decodeQuanta_pad1 _ _ _ (by omega) (by omega) (by omega)]
      have e0 : b0 / 4 * 4 + (b0 % 4 * 16 + b1 / 16) / 16 = b0 := by omega
      have e1 : (b0 % 4 * 16 + b1 / 16) % 16 * 16 + b1 % 16 * 4 / 4 = b1 := by omega
      rw [e0, e1]
    | b0 :: b1 :: b2 :: rest, hn, hb =>
      have k0 : b0 < 256 := hb b0 (by simp)
      have k1 : b1 < 256 := hb b1 (by simp)
      have k2 : b2 < 256 := hb b2 (by simp)
      have hrest : decodeQuanta (StdEncode rest) = .ok rest :=
        ih (n - 3) (by simp only [List.length_cons] at hn; omega) rest
          (by simp only [List.length_cons] at hn; omega)
          (fun x hx => hb x (by simp [hx]))
      rw [StdEncode, decodeQuanta_group _ _ _ _ (by omega) (by omega) (by omega) (by omega),
        hrest]
      have e0 : b0 / 4 * 4 + (b0 % 4 * 16 + b1 / 16) / 16 = b0 := by omega
      have e1 : (b0 % 4 * 16 + b1 / 16) % 16 * 16 + (b1 % 16 * 4 + b2 / 64) / 4 = b1 := by
        omega
      have e2 : (b1 % 16 * 4 + b2 / 64) % 4 * 64 + b2 % 64 = b2 := by omega
      simp only [e0, e1, e2]
      rfl

theorem StdEncode_plain : ∀ (n : Nat) (b : Bytes), b.length ≤ n → (∀ x ∈ b, x < 256) →
    ∀ c ∈ StdEncode b, c ≠ '\r' ∧ c ≠ '\n' := by
  intro n
  induction n using Nat.strong_induction_on with
  | _ n ih =>
    intro b hn hb
    match b, hn, hb with
    | [], _, _ => intro c hc; cases hc
    | [b0], _, hb =>
      have k0 : b0 < 256 := hb b0 (by simp)
      intro c hc
      rw [StdEncode] at hc
      simp only [List.mem_cons, List.mem_singleton, List.not_mem_nil, or_false] at hc
      rcases hc with h | h | h | h
      · rw [h]; exact (encodeChar_plain _ (by omega)).2
      · rw [h]; exact (encodeChar_plain _ (by omega)).2
      · rw [h]; decide
      · rw [h]; decide
    | [b0, b1], _, hb =>
      have k0 : b0 < 256 := hb b0 (by simp)
      have k1 : b1 < 256 := hb b1 (by simp)
      intro c hc
      rw [StdEncode] at hc
      simp only [List.mem_cons, List.mem_singleton, List.not_mem_nil, or_false] at hc
      rcases hc with h | h | h | h
      · rw [h]; exact (encodeChar_plain _ (by omega)).2
      · rw [h]; exact (encodeChar_plain _ (by omega)).2
      · rw [h]; exact (encodeChar_plain _ (by omega)).2
      · rw [h]; decide
    | b0 :: b1 :: b2 :: rest, hn, hb =>
      have k0 : b0 < 256 := hb b0 (by simp)
      have k1 : b1 < 256 := hb b1 (by simp)
      have k2 : b2 < 256 := hb b2 (by simp)
      intro c hc
      rw [StdEncode] at hc
      simp only [List.mem_cons] at hc
      rcases hc with h | h | h | h | h
      · rw [h]; exact (encodeChar_plain _ (by omega)).2
      · rw [h]; exact (encodeChar_plain _ (by omega)).2
      · rw [h]; exact (encodeChar_plain _ (by omega)).2
      · rw [h]; exact (encodeChar_plain _ (by omega)).2
      · exact ih (n - 3) (by simp only [List.length_cons] at hn; omega) rest
          (by simp only [List.length_cons] at hn; omega)
          (fun x hx => hb x (by simp [hx])) c h

theorem StdDecodeString_BytesToBase64 (b : Bytes) (hb : ∀ x ∈ b, x < 256) :
    StdDecodeString (BytesToBase64 b) = .ok b := by
  unfold StdDecodeString BytesToBase64
  have hf : (StdEncode b).filter (fun c => c ≠ '\r' ∧ c ≠ '\n') = StdEncode b := by
    rw [List.filter_eq_self]
    intro c hc
    have := StdEncode_plain b.length b (Nat.le_refl _) hb c hc
    simpa using this
  show decodeQuanta ((StdEncode b).filter _) = _
  rw [hf]
  exact decodeQuanta_StdEncode b.length b (Nat.le_refl _) hb

/-- C23: for every payload and every secret, `SignPayload` succeeds and returns
the standard base64 text of the keyed digest of the payload, and
`VerifySignature` accepts that signature for the same payload and secret. The
keyed hash is any function of key and payload whose values are bytes. -/
theorem c23_sign_then_verify (hmacSHA256 : Bytes → Bytes → Bytes)
    (hbytes : ∀ key payload, ∀ x ∈ hmacSHA256 key payload, x < 256)
    (payload secretKey : Bytes) :
    SignPayload hmacSHA256 payload secretKey =
      .ok ⟨StdEncode (hmacSHA256 secretKey payload)⟩ ∧
    StdDecodeString ⟨StdEncode (hmacSHA256 secretKey payload)⟩ =
      .ok (hmacSHA256 secretKey payload) ∧
    VerifySignature hmacSHA256 payload ⟨StdEncode (hmacSHA256 secretKey payload)⟩ secretKey =
      .ok () := by
  have hd := StdDecodeString_BytesToBase64 (hmacSHA256 secretKey payload)
    (hbytes secretKey payload)
  refine ⟨rfl, hd, ?_⟩
  unfold VerifySignature
  have hd' : StdDecodeString ⟨StdEncode (hmacSHA256 secretKey payload)⟩ =
      .ok (hmacSHA256 secretKey payload) := hd
  rw [hd']
  simp

/-- C23, at the payload `payload` and the secret `secret` of the repository's
test, with the example digest. -/
theorem c23_sign_then_verify_witness :
    SignPayload Example.digest Example.payloadBytes Example.secretBytes =
      .ok ⟨StdEncode (Example.digest Example.secretBytes Example.payloadBytes)⟩ ∧
    VerifySignature Example.digest Example.payloadBytes
      ⟨StdEncode (Example.digest Example.secretBytes Example.payloadBytes)⟩
      Example.secretBytes = .ok () :=
  have k := c23_sign_then_verify Example.digest
    (fun key payload x hx => by
      simp only [Example.digest, List.mem_map] at hx
      obtain ⟨i, _, rfl⟩ := hx
      exact Nat.mod_lt _ (by decide))
    Example.payloadBytes Example.secretBytes
  ⟨k.1, k.2.2⟩

/-! ## C24: webhook delivery -/

/-- C24 (counterexample): the merchant answers `204 No Content`, a status in the
range 200 to 299, and both the service and the task handler return an error. -/
theorem c24_no_content_is_failure :
    (200 ≤ 204 ∧ 204 ≤ 299) ∧
    (Example.webhook 204 "204 No Content").Send "https://merchant.example/hook"
      ⟨"payment.succeeded", "data"⟩ = .ok ⟨204, "204 No Content"⟩ ∧
    (Example.webhook 204 "204 No Content").FireEvent "payment.succeeded" "data" =
      .error "failed to send webhook event: 204 No Content" ∧
    Webhook.Worker.FireEvent (Example.webhook 204 "204 No Content")
      (some ⟨"payment.succeeded", "data"⟩) =
      .error "failed to fire webhook event: failed to send webhook event: 204 No Content" := by
  refine ⟨by decide, rfl, rfl, rfl⟩

/-- C24 (amended): with a webhook URI configured and the POST delivered with
the response `resp`, `FireEvent` of the service, and so the task handler, returns
an error if and only if the status of the response is not 200. -/
theorem c24_only_200_succeeds (s : Webhook.Service) (event payload : String)
    (resp : Webhook.Response)
    (huri : s.webhookURI ≠ "")
    (hsend : s.Send s.webhookURI ⟨event, payload⟩ = .ok resp) :
    ((∃ e, s.FireEvent event payload = .error e) ↔ resp.StatusCode ≠ 200) ∧
    (s.FireEvent event payload = .ok () ↔ resp.StatusCode = 200) ∧
    ((∃ e, Webhook.Worker.FireEvent s (some ⟨event, payload⟩) = .error e) ↔
      resp.StatusCode ≠ 200) := by
  have key : s.FireEvent event payload =
      if resp.StatusCode ≠ 200 then .error ("failed to send webhook event: " ++ resp.Status)
      else .ok () := by
    unfold Webhook.Service.FireEvent Webhook.Service.fireEvent
    rw [if_neg huri]
    dsimp only
    rw [hsend]
    rfl
  by_cases h : resp.StatusCode = 200
  · have k : s.FireEvent event payload = .ok () := by rw [key, if_neg (not_not.mpr h)]
    refine ⟨⟨fun ⟨e, he⟩ => ?_, fun hne => absurd h hne⟩, ⟨fun _ => h, fun _ => k⟩,
      ⟨fun ⟨e, he⟩ => ?_, fun hne => absurd h hne⟩⟩
    · rw [k] at he; cases he
    · unfold Webhook.Worker.FireEvent at he
      dsimp only at he
      rw [k] at he
      cases he
  · have k : s.FireEvent event payload =
        .error ("failed to send webhook event: " ++ resp.Status) := by rw [key, if_pos h]
    refine ⟨⟨fun _ => h, fun _ => ⟨_, k⟩⟩, ⟨fun hok => ?_, fun h200 => absurd h200 h⟩,
      ⟨fun _ => h, fun _ => ?_⟩⟩
    · rw [k] at hok; cases hok
    · unfold Webhook.Worker.FireEvent
      dsimp only
      rw [k]
      exact ⟨_, rfl⟩

/-- C24 (amended), at a merchant that answers `200 OK`. -/
theorem c24_only_200_succeeds_witness :
    (Example.webhook 200 "200 OK").FireEvent "payment.succeeded" "data" = .ok () :=
  (c24_only_200_succeeds (Example.webhook 200 "200 OK") "payment.succeeded" "data"
    ⟨200, "200 OK"⟩ (by decide) rfl).2.1.mpr rfl

/-! ## C25: removal from the channel hub -/

/-- C25 (the code departs from the claim): `Remove` shortens only its local
slice. With the connections 1, 2, 3 on channel `ch`, in this order, removing the
last one leaves the list of `Get` unchanged, so it still contains 3; removing the
first one gives 2, 3, 3, so connection 3 is now listed twice; a channel with the
single connection 1 still lists it after its removal. A connection whose write
failed is therefore written to again at the next event. Other channels are not
touched. -/
theorem c25_remove_keeps_connection :
    (((newChannelHub.Add "ch" 1).Add "ch" 2).Add "ch" 3).Get "ch" = [1, 2, 3] ∧
    ((((newChannelHub.Add "ch" 1).Add "ch" 2).Add "ch" 3).Remove "ch" 3).Get "ch" =
      [1, 2, 3] ∧
    ((((newChannelHub.Add "ch" 1).Add "ch" 2).Add "ch" 3).Remove "ch" 1).Get "ch" =
      [2, 3, 3] ∧
    ((newChannelHub.Add "ch" 1).Remove "ch" 1).Get "ch" = [1] ∧
    (EventBroadcaster.deliver (fun c => c = 1)
      (EventBroadcaster.deliver (fun c => c = 1) (newChannelHub.Add "ch" 1) "ch").1 "ch").2 =
      [1] ∧
    (((newChannelHub.Add "ch" 1).Add "other" 7).Remove "ch" 1).Get "other" = [7] := by
  decide

/-! ## C26: the sweep of pending attempts -/

theorem CheckPaymentByReference_fresh (queue : List Task) (reference : String)
    (h : (⟨TaskCheckPaymentByReference, reference⟩ : Task) ∉ queue) :
    Enqueuer.CheckPaymentByReference queue reference =
      (.ok (), queue ++ [⟨TaskCheckPaymentByReference, reference⟩]) := by
  unfold Enqueuer.CheckPaymentByReference Enqueuer.enqueueTask asynqEnqueue
  rw [if_neg h]

theorem CheckPaymentByReference_duplicate (queue : List Task) (reference : String)
    (h : (⟨TaskCheckPaymentByReference, reference⟩ : Task) ∈ queue) :
    Enqueuer.CheckPaymentByReference queue reference =
      (.error "CheckPaymentByReference: failed to enqueue task: task already exists",
        queue) := by
  unfold Enqueuer.CheckPaymentByReference Enqueuer.enqueueTask asynqEnqueue
  rw [if_pos h]
  rfl

theorem enqueueEach_fresh :
    ∀ (txs : List Transaction) (queue : List Task),
      (∀ tx ∈ txs, referenceTask tx ∉ queue) → (txs.map referenceTask).Nodup →
      Worker.enqueueEach Enqueuer.CheckPaymentByReference txs queue =
        (.ok (), queue ++ txs.map referenceTask) := by
  intro txs
  induction txs with
  | nil => intro queue _ _; simp [Worker.enqueueEach]
  | cons tx rest ih =>
    intro queue hq hnd
    rw [List.map_cons, List.nodup_cons] at hnd
    have h1 : (⟨TaskCheckPaymentByReference, tx.Reference⟩ : Task) ∉ queue :=
      hq tx (List.mem_cons_self _ _)
    rw [Worker.enqueueEach, CheckPaymentByReference_fresh queue tx.Reference h1]
    dsimp only
    have hq' : ∀ t ∈ rest, referenceTask t ∉ queue ++ [referenceTask tx] := by
      intro t ht hmem
      rcases List.mem_append.mp hmem with hm | hm
      · exact hq t (List.mem_cons_of_mem _ ht) hm
      · rw [List.mem_singleton] at hm
        apply hnd.1
        rw [List.mem_map]
        exact ⟨t, ht, hm⟩
    have e := ih (queue ++ [referenceTask tx]) hq' hnd.2
    rw [List.append_assoc] at e
    exact e

/-- C26 (counterexample): the pending attempts have the references `RefA` and
`RefB`, and the task for `RefA` is already queued. The sweep fails with the
refusal of the duplicate, and no task for `RefB` is enqueued. -/
theorem c26_duplicate_stops_sweep :
    Worker.CheckPendingTransactions (.ok [Example.pending "RefA", Example.pending "RefB"])
        Enqueuer.CheckPaymentByReference [⟨TaskCheckPaymentByReference, "RefA"⟩] =
      (.error ("failed to enqueue check payment by reference task: " ++
          "CheckPaymentByReference: failed to enqueue task: task already exists"),
        [⟨TaskCheckPaymentByReference, "RefA"⟩]) ∧
    (⟨TaskCheckPaymentByReference, "RefB"⟩ : Task) ∉
      (Worker.CheckPendingTransactions (.ok [Example.pending "RefA", Example.pending "RefB"])
        Enqueuer.CheckPaymentByReference [⟨TaskCheckPaymentByReference, "RefA"⟩]).2 := by
  refine ⟨rfl, by decide⟩

/-- C26 (amended): when none of the references of the pending attempts is queued
and the references are distinct, the sweep succeeds and the queue grows by one
`check_payment_by_reference` task per attempt, in list order. When the attempts
before `tx` are enqueued and the task for `tx` is already queued, the sweep fails
with the error of that enqueue, and the queue holds the tasks of the attempts
before `tx` and nothing for the attempts after it. When `GetPendingTransactions`
fails, the sweep fails and enqueues nothing. -/
theorem c26_sweep (queue : List Task) :
    (∀ txs : List Transaction, (∀ tx ∈ txs, referenceTask tx ∉ queue) →
      (txs.map referenceTask).Nodup →
      Worker.CheckPendingTransactions (.ok txs) Enqueuer.CheckPaymentByReference queue =
        (.ok (), queue ++ txs.map referenceTask)) ∧
    (∀ (pre : List Transaction) (tx : Transaction) (post : List Transaction),
      (∀ t ∈ pre, referenceTask t ∉ queue) → (pre.map referenceTask).Nodup →
      referenceTask tx ∈ queue ++ pre.map referenceTask →
      Worker.CheckPendingTransactions (.ok (pre ++ tx :: post))
          Enqueuer.CheckPaymentByReference queue =
        (.error ("failed to enqueue check payment by reference task: " ++
            "CheckPaymentByReference: failed to enqueue task: task already exists"),
          queue ++ pre.map referenceTask)) ∧
    (∀ e, Worker.CheckPendingTransactions (.error e) Enqueuer.CheckPaymentByReference queue =
      (.error ("failed to get pending transactions: " ++ e), queue)) := by
  refine ⟨fun txs hq hnd => enqueueEach_fresh txs queue hq hnd, ?_, fun e => rfl⟩
  intro pre
  show ∀ (tx : Transaction) (post : List Transaction), _
  have gen : ∀ (pre : List Transaction) (queue : List Task) (tx : Transaction)
      (post : List Transaction),
      (∀ t ∈ pre, referenceTask t ∉ queue) → (pre.map referenceTask).Nodup →
      referenceTask tx ∈ queue ++ pre.map referenceTask →
      Worker.enqueueEach Enqueuer.CheckPaymentByReference (pre ++ tx :: post) queue =
        (.error ("failed to enqueue check payment by reference task: " ++
            "CheckPaymentByReference: failed to enqueue task: task already exists"),
          queue ++ pre.map referenceTask) := by
    intro pre
    induction pre with
    | nil =>
      intro queue tx post _ _ hmem
      rw [List.map_nil, List.append_nil] at hmem
      rw [List.nil_append, Worker.enqueueEach,
        CheckPaymentByReference_duplicate queue tx.Reference hmem]
      simp
    | cons p rest ih =>
      intro queue tx post hq hnd hmem
      rw [List.map_cons, List.nodup_cons] at hnd
      have h1 : (⟨TaskCheckPaymentByReference, p.Reference⟩ : Task) ∉ queue :=
        hq p (List.mem_cons_self _ _)
      rw [List.cons_append, Worker.enqueueEach,
        CheckPaymentByReference_fresh queue p.Reference h1]
      dsimp only
      have hq' : ∀ t ∈ rest, referenceTask t ∉ queue ++ [referenceTask p] := by
        intro t ht hm
        rcases List.mem_append.mp hm with hm | hm
        · exact hq t (List.mem_cons_of_mem _ ht) hm
        · rw [List.mem_singleton] at hm
          apply hnd.1
          rw [List.mem_map]
          exact ⟨t, ht, hm⟩
      have hmem' : referenceTask tx ∈ (queue ++ [referenceTask p]) ++ rest.map referenceTask := by
        rw [List.map_cons] at hmem
        rw [List.append_assoc]
        exact hmem
      have e := ih (queue ++ [referenceTask p]) tx post hq' hnd.2 hmem'
      rw [List.append_assoc] at e
      exact e
  intro tx post hq hnd hmem
  exact gen pre queue tx post hq hnd hmem

/-- C26 (amended), at two pending attempts and an empty queue. -/
theorem c26_sweep_witness :
    Worker.CheckPendingTransactions (.ok [Example.pending "RefA", Example.pending "RefB"])
        Enqueuer.CheckPaymentByReference [] =
      (.ok (), [] ++ [Example.pending "RefA", Example.pending "RefB"].map referenceTask) :=
  (c26_sweep []).1 [Example.pending "RefA", Example.pending "RefB"]
    (by decide) (by decide)

/-! ## C28: a merchant without a bonus programme -/

theorem NewPaymentTransactionBuilder_parse_error (sdk : SDK) (sc : SolanaClient)
    (jc : JupiterClient) (config : Config) (e : String)
    (h : sdk.AccountFromBase58 config.BonusAuthAccount = .error e) :
    ∃ e', NewPaymentTransactionBuilder sdk sc jc config = .error e' := by
  unfold NewPaymentTransactionBuilder
  by_cases h1 : (config.ApplyBonus && decide (config.BonusMintAddress = "")) = true
  · rw [if_pos h1]
    exact ⟨_, rfl⟩
  · by_cases h2 : (config.AccrueBonus && decide (config.BonusAuthAccount = "")) = true
    · rw [if_neg h1, if_pos h2]
      exact ⟨_, rfl⟩
    · rw [if_neg h1, if_neg h2]
      dsimp only
      rw [h]
      exact ⟨_, rfl⟩

/-- C28 (the code departs from the claim): with `ApplyBonus = false`,
`AccrueBonus = false` and an empty `BonusAuthAccount` the constructor still parses
the key, the parser rejects the empty text, and the constructor panics; the
service then builds no transaction for a new payment. -/
theorem c28_empty_key_panics :
    (Example.plainConfig.ApplyBonus = false ∧ Example.plainConfig.AccrueBonus = false ∧
      Example.plainConfig.BonusAuthAccount = "") ∧
    NewPaymentTransactionBuilder Example.keySdk (Example.sol 0) Example.jup
        Example.plainConfig =
      .error "failed to parse bonus auth account: zero length string" ∧
    Service.BuildTransaction
        { Example.service with sdk := Example.keySdk, conf := Example.plainConfig }
        (Example.store RepoPaymentStatusNew []) (Example.draft false) =
      (.error "panic: failed to parse bonus auth account: zero length string",
        Example.store RepoPaymentStatusNew []) ∧
    (NewPaymentTransactionBuilder Example.keySdk (Example.sol 0) Example.jup
        { Example.plainConfig with BonusAuthAccount := "BonusKey" }).toOption.isSome = true := by
  refine ⟨by decide, rfl, rfl, by decide⟩

end Checkout
